import Mathlib

/-!
RxOptima: the inventory, sale, prescription, subscriber and session logic of
`src/App.jsx`.

A shallow embedding of the cart operations (`addToCart`, `updateCartQuantity`),
the sale commit (`totalAmount`, `processSale`), the prescription fill
(`fillPrescription`) and log (`PrescriptionForm`, `handleAddPrescription`), the
inventory form and handlers, the ordering step of the live subscriber and the
session state of `App`, with the properties the specification states about
them.

Modelling decisions.
* Numbers.  The inventory form stores `parseFloat(value) || 0` and the
  prescription form stores `parseInt(value) || 1` or a stock value, so the
  numeric fields of the inventory records and prescription lines the
  application writes are finite numbers: they are rationals here.  A cart
  quantity is set from `parseInt(e.target.value)` with no guard (line 841), so
  it can be NaN: cart quantities, and everything computed from them, are
  `JSNum`.  Comparisons are exact, as they are in the engine.  `JSNum.add`,
  `JSNum.sub` and `JSNum.mul` do not round; where a property depends on the
  result of `+` or `*`, the function is stated with the arithmetic as a
  parameter (`NumberOps`), of which `ieeeOps` is the binary64 arithmetic of the
  engine and `exactOps` the arithmetic without rounding.
* React state is passed explicitly; `setAlert` is the alert a call returns.
* The store is an external collaborator: the clock, the auto-generated document
  id and the verdict of `batch.commit()` are inputs of a call (`Store`).
* `appId` is declared inside `App` only (line 1441) and is a free identifier in
  the `Inventory`, `POS` and `Prescriptions` components.  The functions that
  build document paths take the value it is bound to as a parameter `appId`;
  `processSaleInScope`, `fillPrescriptionInScope` and `handleUpdateDrugInScope`
  are the functions as the components run them, where the binding may be
  absent (`none`, the file as it stands) and evaluating the first path throws
  inside the `try`.
* A call that throws is `none`; the state it would have set stays as it was.
* `Array.prototype.sort` is a stable sort; the records of a snapshot carry the
  fields `timestamp` and `dateIssued` optionally.
-/

namespace RxOptima

/-! ## JavaScript numbers -/

/-- A JavaScript number: a finite value or NaN. -/
inductive JSNum where
  | fin (q : ℚ)
  | nan
  deriving DecidableEq

namespace JSNum

/-- JavaScript `a + b`, without rounding. -/
def add : JSNum → JSNum → JSNum
  | fin a, fin b => fin (a + b)
  | _, _ => nan

/-- JavaScript `a - b`, without rounding. -/
def sub : JSNum → JSNum → JSNum
  | fin a, fin b => fin (a - b)
  | _, _ => nan

/-- JavaScript `a * b`, without rounding. -/
def mul : JSNum → JSNum → JSNum
  | fin a, fin b => fin (a * b)
  | _, _ => nan

/-- JavaScript `a > b`: false as soon as one side is NaN. -/
def gt : JSNum → JSNum → Bool
  | fin a, fin b => decide (b < a)
  | _, _ => false

/-- JavaScript `a <= b`: false as soon as one side is NaN. -/
def le : JSNum → JSNum → Bool
  | fin a, fin b => decide (a ≤ b)
  | _, _ => false

/-- JavaScript `a >= b`: false as soon as one side is NaN. -/
def ge : JSNum → JSNum → Bool
  | fin a, fin b => decide (b ≤ a)
  | _, _ => false

instance : Add JSNum := ⟨add⟩

instance : Zero JSNum := ⟨fin 0⟩

end JSNum

/-! ## Data model -/

/-- An inventory record as the live snapshot holds it (`id` plus the document's
fields).  `expiryDate` is the timestamp in milliseconds, when present.  The two
numbers are finite, as the inventory form writes them. -/
structure InventoryItem where
  id : String
  name : String
  genericName : String
  manufacturer : String
  batchNumber : String
  expiryDate : Option Nat
  quantityInStock : ℚ
  unitPrice : ℚ
  deriving DecidableEq

/-- A cart line: `{ ...drug, quantity }`. -/
structure CartLine extends InventoryItem where
  quantity : JSNum
  deriving DecidableEq

/-- The argument of `setAlert`, one constructor per message of the two engines. -/
inductive Alert where
  /-- The message 'Item is out of stock.' -/
  | outOfStock
  /-- The message 'Only (stock) in stock.' -/
  | onlyInStock (stock : ℚ)
  /-- The message 'Authentication error. Please refresh.' -/
  | authError
  /-- The message 'Cart is empty.' -/
  | cartEmpty
  /-- The message 'Sale processed successfully!' -/
  | saleSuccess
  /-- The message 'Error processing sale: (error.message)' -/
  | saleError (message : String)
  /-- The message 'Item (drugName) (ID: (drugId)) not found in inventory.' -/
  | itemNotFound (drugName drugId : String)
  /-- The message 'Not enough stock for (name). Required: (required), In Stock: (available)' -/
  | notEnoughStock (name : String) (required available : ℚ)
  /-- The message 'Prescription filled successfully!' -/
  | fillSuccess
  /-- The message 'Error filling prescription: (error.message)' -/
  | fillError (message : String)
  deriving DecidableEq

/-- One entry of `saleData.items`. -/
structure SaleItem where
  drugId : String
  name : String
  quantity : JSNum
  unitPrice : ℚ
  totalPrice : JSNum
  deriving DecidableEq

/-- The record `saleData` of `processSale`. -/
structure SaleData where
  timestamp : Nat
  items : List SaleItem
  totalAmount : JSNum
  deriving DecidableEq

/-- The record `saleDataWithId`: `{ ...saleData, id: saleRef.id }`. -/
structure SaleDataWithId extends SaleData where
  id : String
  deriving DecidableEq

/-- A document reference `doc(db, collectionPath, id)`. -/
structure DocRef where
  collectionPath : String
  id : String
  deriving DecidableEq

/-- A write queued on a `writeBatch`. -/
inductive Write where
  /-- The call `batch.set(saleRef, saleData)`. -/
  | set (ref : DocRef) (data : SaleData)
  /-- The call `batch.update(drugRef, { quantityInStock: newQuantity })`. -/
  | updateStock (ref : DocRef) (quantityInStock : JSNum)
  /-- The call `batch.update(presRef, { isFilled, dateFilled })`. -/
  | updateFilled (ref : DocRef) (isFilled : Bool) (dateFilled : Nat)
  deriving DecidableEq

/-- What the outside world contributes to one call: `Timestamp.now()`, the id
of the auto-generated document reference, and the verdict of `batch.commit()`
(`none` when the batch commits, `some message` when it is rejected with an error
carrying that message). -/
structure Store where
  now : Nat
  autoId : String
  commit : List Write → Option String

/-- One line of a prescription. -/
structure PrescriptionItem where
  drugId : String
  dosage : String
  quantity : ℚ
  drugName : String
  deriving DecidableEq

/-- A prescription record as the live snapshot holds it. -/
structure Prescription where
  id : String
  patientIdentifier : String
  doctorName : String
  dateIssued : Nat
  isFilled : Bool
  dateFilled : Option Nat
  items : List PrescriptionItem
  deriving DecidableEq

/-! ## The cart (lines 673-716) -/

/-- The function `addToCart` (lines 673-695): the new cart and the alert raised.
The sum `quantity + 1` is not rounded here; `addToCartWith` takes the addition
as a parameter. -/
def addToCart (prevCart : List CartLine) (drug : InventoryItem) :
    List CartLine × Option Alert :=
  if drug.quantityInStock ≤ 0 then
    (prevCart, some Alert.outOfStock)
  else
    match prevCart.find? (fun item => item.id == drug.id) with
    | some existingItem =>
      if JSNum.gt (existingItem.quantity.add (JSNum.fin 1)) (JSNum.fin drug.quantityInStock) then
        (prevCart, some (Alert.onlyInStock drug.quantityInStock))
      else
        (prevCart.map (fun item =>
          if item.id == drug.id then { item with quantity := item.quantity.add (JSNum.fin 1) }
          else item), none)
    | none => (prevCart ++ [{ toInventoryItem := drug, quantity := JSNum.fin 1 }], none)

/-- The function `updateCartQuantity` (lines 697-712): the new cart and the
alert raised, or `none` when reading `quantityInStock` of an absent inventory
record throws (the cart is then left as it was). -/
def updateCartQuantity (inventory : List InventoryItem) (prevCart : List CartLine)
    (drugId : String) (newQuantity : JSNum) : Option (List CartLine × Option Alert) :=
  let drugInInventory := inventory.find? (fun d => d.id == drugId)
  if JSNum.le newQuantity (JSNum.fin 0) then
    some (prevCart.filter (fun item => item.id != drugId), none)
  else
    match drugInInventory with
    | none => none
    | some d =>
      if JSNum.gt newQuantity (JSNum.fin d.quantityInStock) then
        some (prevCart.map (fun item =>
          if item.id == drugId then { item with quantity := JSNum.fin d.quantityInStock }
          else item), some (Alert.onlyInStock d.quantityInStock))
      else
        some (prevCart.map (fun item =>
          if item.id == drugId then { item with quantity := newQuantity } else item), none)

/-- The memo `totalAmount` (lines 714-716), without rounding; `totalAmountWith`
takes the arithmetic as a parameter. -/
def totalAmount (cart : List CartLine) : JSNum :=
  cart.foldl (fun acc item => acc.add ((JSNum.fin item.unitPrice).mul item.quantity)) (JSNum.fin 0)

/-! ## The sale commit (lines 718-770) -/

/-- The state of the `POS` component that `processSale` reads and writes. -/
structure POSState where
  cart : List CartLine
  lastSale : Option SaleDataWithId
  isReceiptOpen : Bool
  deriving DecidableEq

/-- What a call of `processSale` leaves behind: the component state, the alert,
and the batch handed to `commit` (`none` when no batch was built). -/
structure SaleOutcome where
  state : POSState
  alert : Alert
  batch : Option (List Write)

/-- The record `saleData` (lines 732-742), without rounding; `saleDataWith` takes
the arithmetic as a parameter. -/
def saleData (now : Nat) (cart : List CartLine) : SaleData :=
  { timestamp := now
    items := cart.map (fun item =>
      { drugId := item.id
        name := item.name
        quantity := item.quantity
        unitPrice := item.unitPrice
        totalPrice := item.quantity.mul (JSNum.fin item.unitPrice) })
    totalAmount := totalAmount cart }

/-- The batch of `processSale` (lines 729-752) when `appId` is bound to a value:
the sale insert, then one stock update per cart line. -/
def saleBatch (appId userId : String) (ext : Store) (cart : List CartLine) : List Write :=
  Write.set { collectionPath := "artifacts/" ++ appId ++ "/users/" ++ userId ++ "/sales",
              id := ext.autoId } (saleData ext.now cart)
  :: cart.map (fun item =>
      Write.updateStock
        { collectionPath := "artifacts/" ++ appId ++ "/users/" ++ userId ++ "/inventory",
          id := item.id }
        ((JSNum.fin item.quantityInStock).sub item.quantity))

/-- The function `processSale` (lines 718-770) when `appId` is bound to a value;
`processSaleInScope` is the function as `POS` runs it.  `userId` is `none` for
`null`; the empty string is falsy as well. -/
def processSale (appId : String) (userId : Option String) (ext : Store) (st : POSState) :
    SaleOutcome :=
  match userId with
  | none => { state := st, alert := Alert.authError, batch := none }
  | some u =>
    if u == "" then { state := st, alert := Alert.authError, batch := none }
    else if st.cart.length == 0 then { state := st, alert := Alert.cartEmpty, batch := none }
    else
      let batch := saleBatch appId u ext st.cart
      match ext.commit batch with
      | none =>
        { state := { cart := [],
                     lastSale := some { toSaleData := saleData ext.now st.cart, id := ext.autoId },
                     isReceiptOpen := true }
          alert := Alert.saleSuccess
          batch := some batch }
      | some message => { state := st, alert := Alert.saleError message, batch := some batch }

/-! ## The prescription fill (lines 1197-1239) -/

/-- The stock check of `fillPrescription` (lines 1204-1214): the alert of the
first line that fails, `none` when the loop runs to its end. -/
def checkStock (inventory : List InventoryItem) : List PrescriptionItem → Option Alert
  | [] => none
  | item :: rest =>
    match inventory.find? (fun d => d.id == item.drugId) with
    | none => some (Alert.itemNotFound item.drugName item.drugId)
    | some drug =>
      if drug.quantityInStock < item.quantity then
        some (Alert.notEnoughStock drug.name item.quantity drug.quantityInStock)
      else checkStock inventory rest

/-- The inventory loop of `fillPrescription` (lines 1221-1226) when `appId` is
bound to a value: one stock update per line, or `none` when reading
`quantityInStock` of an absent record throws. -/
def fillUpdates (appId userId : String) (inventory : List InventoryItem) :
    List PrescriptionItem → Option (List Write)
  | [] => some []
  | item :: rest =>
    match inventory.find? (fun d => d.id == item.drugId) with
    | none => none
    | some drug =>
      match fillUpdates appId userId inventory rest with
      | none => none
      | some writes =>
        some (Write.updateStock
          { collectionPath := "artifacts/" ++ appId ++ "/users/" ++ userId ++ "/inventory",
            id := item.drugId }
          (JSNum.fin (drug.quantityInStock - item.quantity)) :: writes)

/-- What a call of `fillPrescription` leaves behind: the alert, and the batch
handed to `commit` (`none` when no batch reached `commit`). -/
structure FillOutcome where
  alert : Alert
  batch : Option (List Write)

/-- The message of the TypeError thrown by reading a property of `undefined`. -/
def typeErrorMessage : String := "Cannot read properties of undefined (reading 'quantityInStock')"

/-- The function `fillPrescription` (lines 1197-1239) when `appId` is bound to a
value; `fillPrescriptionInScope` is the function as `Prescriptions` runs it. -/
def fillPrescription (appId : String) (userId : Option String) (inventory : List InventoryItem)
    (ext : Store) (prescription : Prescription) : FillOutcome :=
  match userId with
  | none => { alert := Alert.authError, batch := none }
  | some u =>
    if u == "" then { alert := Alert.authError, batch := none }
    else
      match checkStock inventory prescription.items with
      | some alert => { alert := alert, batch := none }
      | none =>
        match fillUpdates appId u inventory prescription.items with
        | none => { alert := Alert.fillError typeErrorMessage, batch := none }
        | some updates =>
          let batch := updates ++
            [Write.updateFilled
              { collectionPath := "artifacts/" ++ appId ++ "/users/" ++ u ++ "/prescriptions",
                id := prescription.id } true ext.now]
          match ext.commit batch with
          | none => { alert := Alert.fillSuccess, batch := some batch }
          | some message => { alert := Alert.fillError message, batch := some batch }

/-! ## The store's view of a batch -/

/-- The `quantityInStock` field of every document of the inventory collection,
by document id, as the store holds it for the snapshot. -/
def stockTable (inventory : List InventoryItem) : List (String × JSNum) :=
  inventory.map (fun d => (d.id, JSNum.fin d.quantityInStock))

/-- The effect of one committed write on the stock fields of the collection at
`inventoryPath`: an update overwrites the field of the addressed document. -/
def applyWrite (inventoryPath : String) (docs : List (String × JSNum)) :
    Write → List (String × JSNum)
  | Write.updateStock ref v =>
    if ref.collectionPath == inventoryPath then
      docs.map (fun doc => if doc.1 == ref.id then (doc.1, v) else doc)
    else docs
  | _ => docs

/-- A committed batch applies its writes in the order they were queued. -/
def applyBatch (inventoryPath : String) (docs : List (String × JSNum)) (batch : List Write) :
    List (String × JSNum) :=
  batch.foldl (applyWrite inventoryPath) docs

/-- The stock values a batch writes, in order. -/
def stockWrites : List Write → List JSNum
  | [] => []
  | Write.updateStock _ v :: rest => v :: stockWrites rest
  | _ :: rest => stockWrites rest

/-! ## Vocabulary of the properties -/

/-- The snapshot's record for an id: `inventory.find(d => d.id === id)`. -/
def lookup (inventory : List InventoryItem) (id : String) : Option InventoryItem :=
  inventory.find? (fun d => d.id == id)

/-- A prescription line passes the check of the specification: its drug id is
present in the snapshot, with a stock at least the line's quantity. -/
def linePasses (inventory : List InventoryItem) (item : PrescriptionItem) : Prop :=
  ∃ d, lookup inventory item.drugId = some d ∧ item.quantity ≤ d.quantityInStock

/-- The stock the snapshot holds for an id (0 when the id is absent). -/
def stockOf (inventory : List InventoryItem) (id : String) : ℚ :=
  match lookup inventory id with
  | some d => d.quantityInStock
  | none => 0

/-- Every stock of the snapshot is a non-negative integer. -/
def NatStock (inventory : List InventoryItem) : Prop :=
  ∀ d ∈ inventory, ∃ n : ℕ, d.quantityInStock = n

/-- A value `parseInt` can return: an integer or NaN. -/
def IsParseInt (n : JSNum) : Prop :=
  n = JSNum.nan ∨ ∃ z : ℤ, n = JSNum.fin z

/-- The carts the `POS` component can hold: the empty cart, and what
`addToCart` (on a record of the current snapshot) and `updateCartQuantity`
(with a `parseInt` result) make of a cart it can hold, each step against a
snapshot of its own with non-negative integer stock. -/
inductive ReachableCart : List CartLine → Prop
  | empty : ReachableCart []
  | add {cart : List CartLine} (inventory : List InventoryItem) (drug : InventoryItem) :
      ReachableCart cart → NatStock inventory → drug ∈ inventory →
      ReachableCart (addToCart cart drug).1
  | update {cart : List CartLine} (inventory : List InventoryItem) (drugId : String)
      (newQuantity : JSNum) (result : List CartLine × Option Alert) :
      ReachableCart cart → NatStock inventory → IsParseInt newQuantity →
      updateCartQuantity inventory cart drugId newQuantity = some result →
      ReachableCart result.1

/-- Some line for `d` in `after` carries a quantity greater than
`d.quantityInStock` and greater than the quantity of every line `d` had in
`before`. -/
def RaisedAboveStock (before after : List CartLine) (d : InventoryItem) : Prop :=
  ∃ l ∈ after, l.id = d.id ∧ JSNum.gt l.quantity (JSNum.fin d.quantityInStock) = true ∧
    ∀ l0 ∈ before, l0.id = d.id → JSNum.gt l.quantity l0.quantity = true

/-- The sum of the quantities of the lines of a prescription that reference `id`. -/
def requested (items : List PrescriptionItem) (id : String) : ℚ :=
  ((items.filter (fun item => item.drugId == id)).map (fun item => item.quantity)).sum

/-! ## Sample data -/

/-- Drug A of the specification's scenarios: stock 10. -/
def drugA : InventoryItem :=
  { id := "A", name := "Drug A", genericName := "", manufacturer := "", batchNumber := "1",
    expiryDate := none, quantityInStock := 10, unitPrice := 100 }

/-- Drug B of the specification's scenarios: stock 1. -/
def drugB : InventoryItem :=
  { id := "B", name := "Drug B", genericName := "", manufacturer := "", batchNumber := "2",
    expiryDate := none, quantityInStock := 1, unitPrice := 50 }

/-- A store that assigns the id "s1" at time 7 and commits every batch. -/
def acceptingStore : Store := { now := 7, autoId := "s1", commit := fun _ => none }

/-- A store that rejects every batch with the message "offline". -/
def rejectingStore : Store := { now := 7, autoId := "s1", commit := fun _ => some "offline" }

/-- A cart with three units of drug A and one of drug B. -/
def sampleCart : List CartLine :=
  [{ toInventoryItem := drugA, quantity := JSNum.fin 3 },
   { toInventoryItem := drugB, quantity := JSNum.fin 1 }]

/-- A `POS` state holding `sampleCart` and no previous sale. -/
def samplePOS : POSState := { cart := sampleCart, lastSale := none, isReceiptOpen := false }

/-- Drug B after a restock: stock 5. -/
def drugBRestocked : InventoryItem := { drugB with quantityInStock := 5 }

/-- The cart after adding drug B (stock 1) and then, once the snapshot shows the
restock, setting its quantity to 5: the line still holds stock 1. -/
def staleCart : List CartLine := [{ toInventoryItem := drugB, quantity := JSNum.fin 5 }]

/-- The prescription of the specification's scenario: 3 of drug A, 2 of drug B. -/
def scenarioPrescription : Prescription :=
  { id := "p1", patientIdentifier := "P-1", doctorName := "Dr X", dateIssued := 1,
    isFilled := false, dateFilled := none,
    items := [{ drugId := "A", dosage := "", quantity := 3, drugName := "Drug A" },
              { drugId := "B", dosage := "", quantity := 2, drugName := "Drug B" }] }

/-- A prescription with two lines for drug A, of 2 and 1 units. -/
def duplicatePrescription : Prescription :=
  { id := "p2", patientIdentifier := "P-1", doctorName := "Dr X", dateIssued := 1,
    isFilled := false, dateFilled := none,
    items := [{ drugId := "A", dosage := "", quantity := 2, drugName := "Drug A" },
              { drugId := "A", dosage := "", quantity := 1, drugName := "Drug A" }] }

/-- A prescription for all 10 units of drug A. -/
def exactPrescription : Prescription :=
  { id := "p3", patientIdentifier := "P-1", doctorName := "Dr X", dateIssued := 1,
    isFilled := false, dateFilled := none,
    items := [{ drugId := "A", dosage := "", quantity := 10, drugName := "Drug A" }] }

/-! ## The cart operations in the specification's words -/

/-- A positive integer. -/
def IsPositiveInt (q : JSNum) : Prop :=
  ∃ z : ℤ, 0 < z ∧ q = JSNum.fin z

/-- The line of the cart with a given id, if one exists (the first one, should
there be several). -/
def lineFor : List CartLine → String → Option CartLine
  | [], _ => none
  | l :: rest, id => if l.id = id then some l else lineFor rest id

/-- The cart with the quantity of the line for `id` incremented by exactly 1 and
every other line unchanged and in place. -/
def incrementLine : List CartLine → String → List CartLine
  | [], _ => []
  | l :: rest, id =>
    (if l.id = id then { l with quantity := l.quantity.add (JSNum.fin 1) } else l)
      :: incrementLine rest id

/-- The cart with the line for `id` removed, the other lines keeping their order
and contents. -/
def removeLine : List CartLine → String → List CartLine
  | [], _ => []
  | l :: rest, id => if l.id = id then removeLine rest id else l :: removeLine rest id

/-- The cart with the quantity of the line for `id` set to exactly `q`, no line
added or removed and every other line unchanged. -/
def setLineQuantity : List CartLine → String → JSNum → List CartLine
  | [], _, _ => []
  | l :: rest, id, q =>
    (if l.id = id then { l with quantity := q } else l) :: setLineQuantity rest id q

/-- The specification's definition of adding `drug` to `cart`: out of stock, the
cart is unchanged and a notice is raised; a line exists and its quantity + 1
exceeds the stock of the drug passed in, the cart is unchanged and a notice is
raised; a line exists, its quantity is incremented by exactly 1; otherwise a new
line with quantity 1 is appended at the end. -/
def addToCartSpec (cart : List CartLine) (drug : InventoryItem) : List CartLine × Option Alert :=
  if drug.quantityInStock ≤ 0 then (cart, some Alert.outOfStock)
  else
    match lineFor cart drug.id with
    | some line =>
      if JSNum.gt (line.quantity.add (JSNum.fin 1)) (JSNum.fin drug.quantityInStock) then
        (cart, some (Alert.onlyInStock drug.quantityInStock))
      else (incrementLine cart drug.id, none)
    | none => (cart ++ [{ toInventoryItem := drug, quantity := JSNum.fin 1 }], none)

/-- The specification's definition of setting the quantity of the line for `id`
to the integer `n`, when the snapshot holds stock `s` for `id`: `n ≤ 0` removes
the line; `n > s` sets the quantity to exactly `s` and raises a notice;
otherwise the quantity becomes exactly `n`. -/
def updateCartQuantitySpec (cart : List CartLine) (id : String) (s : ℚ) (n : ℤ) :
    List CartLine × Option Alert :=
  if n ≤ 0 then (removeLine cart id, none)
  else if s < (n : ℚ) then (setLineQuantity cart id (JSNum.fin s), some (Alert.onlyInStock s))
  else (setLineQuantity cart id (JSNum.fin n), none)

/-- The inventory item of the specification's sale scenario: stock 5, unit price 100. -/
def scenarioDrug : InventoryItem :=
  { id := "X", name := "Drug X", genericName := "", manufacturer := "", batchNumber := "3",
    expiryDate := none, quantityInStock := 5, unitPrice := 100 }

/-- Drug B once the snapshot shows it sold out: stock 0. -/
def drugBSoldOut : InventoryItem := { drugB with quantityInStock := 0 }

/-- The cart after adding drug B (stock 1) and then, once the snapshot shows it
sold out, asking for 2 units: the quantity is clamped to the stock, 0. -/
def clampedCart : List CartLine := [{ toInventoryItem := drugB, quantity := JSNum.fin 0 }]

/-- The cart after adding drug B and then clearing the quantity field, which
hands `parseInt('')`, NaN, to `updateCartQuantity`. -/
def nanCart : List CartLine := [{ toInventoryItem := drugB, quantity := JSNum.nan }]

/-! ## The inventory form and handlers (lines 304-543) -/

/-- The state `formData` of `InventoryForm`.  `id` is present when the form was
opened on an existing drug (`{ ...initialData, expiryDate }`). -/
structure InventoryFormData where
  id : Option String
  name : String
  genericName : String
  manufacturer : String
  batchNumber : String
  expiryDate : String
  quantityInStock : ℚ
  unitPrice : ℚ
  deriving DecidableEq

/-- The fields of an inventory document. -/
structure InventoryFields where
  name : String
  genericName : String
  manufacturer : String
  batchNumber : String
  expiryDate : Nat
  quantityInStock : ℚ
  unitPrice : ℚ
  deriving DecidableEq

/-- The record `dataToSubmit` handed to `onSubmit`: the form data with
`expiryDate` turned into a timestamp. -/
structure SubmittedDrug extends InventoryFields where
  id : Option String
  deriving DecidableEq

/-- The argument of `setAlert` in `InventoryForm` and `Inventory`. -/
inductive InventoryAlert where
  /-- The message 'Quantity and Price cannot be negative.' -/
  | negativeValues
  /-- The message 'Name, Batch Number, and Expiry Date are required.' -/
  | requiredFields
  /-- The message 'Authentication error. Please refresh.' -/
  | authError
  /-- The message 'Drug added successfully!' -/
  | added
  /-- The message 'Error adding drug: (error.message)' -/
  | addError (message : String)
  /-- The message 'Drug updated successfully!' -/
  | updated
  /-- The message 'Error updating drug: (error.message)' -/
  | updateError (message : String)
  /-- The message 'Drug deleted successfully!' -/
  | deleted
  /-- The message 'Error deleting drug: (error.message)' -/
  | deleteError (message : String)
  deriving DecidableEq

/-- A change event of the form: the name and the value of its target.  The type
of the target is the one the form gives the input of that name: `number` for
`quantityInStock` and `unitPrice`, `text` or `date` for the others. -/
structure ChangeEvent where
  name : String
  value : String
  deriving DecidableEq

/-- The blank form (lines 311-319). -/
def InventoryForm.blank : InventoryFormData :=
  { id := none, name := "", genericName := "", manufacturer := "", batchNumber := "",
    expiryDate := "", quantityInStock := 0, unitPrice := 0 }

/-- The expression `value.replace(/[^0-9]/g, '')`. -/
def digitsOnly (value : String) : String :=
  String.mk (value.toList.filter Char.isDigit)

/-- The expression `x || 0` on a number: NaN and 0 give 0. -/
def orZero : JSNum → ℚ
  | JSNum.fin q => q
  | JSNum.nan => 0

/-- The function `handleChange` of `InventoryForm` (lines 342-360).  `parseFloat`
is the JavaScript function of that name. -/
def InventoryForm.handleChange (parseFloat : String → JSNum) (formData : InventoryFormData)
    (e : ChangeEvent) : InventoryFormData :=
  if e.name = "batchNumber" then
    if (digitsOnly e.value).length ≤ 5 then { formData with batchNumber := digitsOnly e.value }
    else formData
  else if e.name = "name" then { formData with name := e.value }
  else if e.name = "genericName" then { formData with genericName := e.value }
  else if e.name = "manufacturer" then { formData with manufacturer := e.value }
  else if e.name = "expiryDate" then { formData with expiryDate := e.value }
  else if e.name = "quantityInStock" then
    { formData with quantityInStock := orZero (parseFloat e.value) }
  else if e.name = "unitPrice" then { formData with unitPrice := orZero (parseFloat e.value) }
  else formData

/-- The function `handleSubmit` of `InventoryForm` (lines 362-380): the
validation notice, or the record handed to `onSubmit`.  `toTimestamp` is
`Timestamp.fromDate(new Date(...))`. -/
def InventoryForm.handleSubmit (toTimestamp : String → Nat) (formData : InventoryFormData) :
    Except InventoryAlert SubmittedDrug :=
  if formData.quantityInStock < 0 ∨ formData.unitPrice < 0 then
    Except.error InventoryAlert.negativeValues
  else if formData.name = "" ∨ formData.batchNumber = "" ∨ formData.expiryDate = "" then
    Except.error InventoryAlert.requiredFields
  else
    Except.ok
      { id := formData.id
        name := formData.name
        genericName := formData.genericName
        manufacturer := formData.manufacturer
        batchNumber := formData.batchNumber
        expiryDate := toTimestamp formData.expiryDate
        quantityInStock := formData.quantityInStock
        unitPrice := formData.unitPrice }

/-- A single-document write of the `Inventory` component. -/
inductive InventoryWrite where
  /-- The call `addDoc(collection(db, collectionPath), formData)`. -/
  | addDoc (collectionPath : String) (data : SubmittedDrug)
  /-- The call `setDoc(doc(db, docPath), dataToUpdate)`: a full replace. -/
  | setDoc (docPath : String) (data : InventoryFields)
  /-- The call `deleteDoc(doc(db, docPath))`. -/
  | deleteDoc (docPath : String)
  deriving DecidableEq

/-- What a handler of `Inventory` leaves behind: the alert, the write it issued
(`none` when it issued none) and the state `editingDrug`. -/
structure InventoryOutcome where
  alert : InventoryAlert
  write : Option InventoryWrite
  editingDrug : Option InventoryItem

/-- The function `handleAddDrug` (lines 497-510) when `appId` is bound to a value.
`reject` is the store's verdict on the write: `none` when it is accepted,
`some message` when it fails. -/
def handleAddDrug (appId : String) (userId : Option String) (editingDrug : Option InventoryItem)
    (reject : InventoryWrite → Option String) (formData : SubmittedDrug) : InventoryOutcome :=
  match userId with
  | none => { alert := InventoryAlert.authError, write := none, editingDrug := editingDrug }
  | some u =>
    if u == "" then
      { alert := InventoryAlert.authError, write := none, editingDrug := editingDrug }
    else
      let write := InventoryWrite.addDoc
        ("artifacts/" ++ appId ++ "/users/" ++ u ++ "/inventory") formData
      match reject write with
      | none => { alert := InventoryAlert.added, write := some write, editingDrug := editingDrug }
      | some message =>
        { alert := InventoryAlert.addError message, write := some write,
          editingDrug := editingDrug }

/-- The function `handleUpdateDrug` (lines 512-528) when `appId` is bound to a
value; `handleUpdateDrugInScope` is the function as `Inventory` runs it. -/
def handleUpdateDrug (appId : String) (userId : Option String)
    (editingDrug : Option InventoryItem) (reject : InventoryWrite → Option String)
    (formData : SubmittedDrug) : InventoryOutcome :=
  match userId, editingDrug with
  | some u, some drug =>
    if u == "" then
      { alert := InventoryAlert.authError, write := none, editingDrug := editingDrug }
    else
      let write := InventoryWrite.setDoc
        ("artifacts/" ++ appId ++ "/users/" ++ u ++ "/inventory/" ++ drug.id)
        formData.toInventoryFields
      match reject write with
      | none => { alert := InventoryAlert.updated, write := some write, editingDrug := none }
      | some message =>
        { alert := InventoryAlert.updateError message, write := some write,
          editingDrug := editingDrug }
  | _, _ => { alert := InventoryAlert.authError, write := none, editingDrug := editingDrug }

/-- The function `handleDeleteDrug` (lines 530-545) when `appId` is bound to a
value. -/
def handleDeleteDrug (appId : String) (userId : Option String)
    (editingDrug : Option InventoryItem) (reject : InventoryWrite → Option String)
    (drugId : String) : InventoryOutcome :=
  match userId with
  | none => { alert := InventoryAlert.authError, write := none, editingDrug := editingDrug }
  | some u =>
    if u == "" then
      { alert := InventoryAlert.authError, write := none, editingDrug := editingDrug }
    else
      let write := InventoryWrite.deleteDoc
        ("artifacts/" ++ appId ++ "/users/" ++ u ++ "/inventory/" ++ drugId)
      match reject write with
      | none => { alert := InventoryAlert.deleted, write := some write, editingDrug := editingDrug }
      | some message =>
        { alert := InventoryAlert.deleteError message, write := some write,
          editingDrug := editingDrug }

/-- Submitting the inventory form: `handleSubmit`, then the handler the component
passes as `onSubmit` (`editingDrug ? handleUpdateDrug : handleAddDrug`, line 647). -/
def submitInventoryForm (appId : String) (userId : Option String)
    (editingDrug : Option InventoryItem) (reject : InventoryWrite → Option String)
    (toTimestamp : String → Nat) (formData : InventoryFormData) : InventoryOutcome :=
  match InventoryForm.handleSubmit toTimestamp formData with
  | Except.error alert => { alert := alert, write := none, editingDrug := editingDrug }
  | Except.ok data =>
    match editingDrug with
    | some _ => handleUpdateDrug appId userId editingDrug reject data
    | none => handleAddDrug appId userId editingDrug reject data

/-- The fields of the record an inventory write carries, when it carries one. -/
def InventoryWrite.fields : InventoryWrite → Option InventoryFields
  | InventoryWrite.addDoc _ data => some data.toInventoryFields
  | InventoryWrite.setDoc _ data => some data
  | InventoryWrite.deleteDoc _ => none

/-! ## The application namespace (lines 1440-1441, 1499-1502) -/

/-- The constant `appId` declared in the body of `App` (line 1441). -/
def App.appId : String := "rxoptima-app"

/-- The collection paths the data subscription effect of `App` listens on for an
identity (lines 1499-1502). -/
def subscribedPaths (userId : String) : List String :=
  ["inventory", "sales", "prescriptions"].map
    (fun colName => "artifacts/" ++ App.appId ++ "/users/" ++ userId ++ "/" ++ colName)

/-- The document reference a batched write addresses. -/
def Write.ref : Write → DocRef
  | Write.set ref _ => ref
  | Write.updateStock ref _ => ref
  | Write.updateFilled ref _ _ => ref

/-- The function `processSale` as it runs inside `POS`.  `POS` is declared at
module level (line 656) and receives `userId`, `inventory` and `setAlert` only
(line 1571); the file declares `appId` nowhere but inside `App`, so in `POS` the
identifier resolves to whatever the enclosing environment binds it to: `scope`
is that binding, `none` when there is none, and evaluating the path (line 743)
then throws a ReferenceError inside the `try`, which the `catch` turns into an
alert. -/
def processSaleInScope (scope : Option String) (userId : Option String) (ext : Store)
    (st : POSState) : SaleOutcome :=
  match scope with
  | some appId => processSale appId userId ext st
  | none =>
    match userId with
    | none => { state := st, alert := Alert.authError, batch := none }
    | some u =>
      if u == "" then { state := st, alert := Alert.authError, batch := none }
      else if st.cart.length == 0 then { state := st, alert := Alert.cartEmpty, batch := none }
      else { state := st, alert := Alert.saleError "appId is not defined", batch := none }

/-! ## The prescription form and card (lines 999-1063, 1182-1195, 1267-1279) -/

/-- One item of the state `items` of `PrescriptionForm`. -/
structure FormItem where
  drugId : String
  dosage : String
  quantity : ℚ
  deriving DecidableEq

/-- The state of `PrescriptionForm`. -/
structure PrescriptionFormState where
  patientId : String
  doctorName : String
  items : List FormItem
  deriving DecidableEq

/-- The record `prescriptionData` (lines 1049-1058).  `dateFilled` is `none`: the
record has no such field. -/
structure PrescriptionData where
  patientIdentifier : String
  doctorName : String
  dateIssued : Nat
  isFilled : Bool
  dateFilled : Option Nat
  items : List PrescriptionItem
  deriving DecidableEq

/-- The argument of `setAlert` on the logging path. -/
inductive PrescriptionAlert where
  /-- The message 'Please fill all required fields.' -/
  | requiredFields
  /-- The message 'Authentication error. Please refresh.' -/
  | authError
  /-- The message 'Prescription added successfully!' -/
  | added
  /-- The message 'Error adding prescription: (error.message)' -/
  | addError (message : String)
  /-- The message 'Only (stock) of (name) in stock.' -/
  | onlyOfInStock (stock : ℚ) (name : String)
  deriving DecidableEq

/-- The expression `inventory.find(d => d.id === item.drugId)?.name || 'Unknown'`. -/
def drugNameOf (inventory : List InventoryItem) (drugId : String) : String :=
  match inventory.find? (fun d => d.id == drugId) with
  | some d => if d.name = "" then "Unknown" else d.name
  | none => "Unknown"

/-- The function `handleSubmit` of `PrescriptionForm` (lines 1042-1063): the
notice, or the record handed to `onSubmit`. -/
def PrescriptionForm.handleSubmit (inventory : List InventoryItem) (now : Nat)
    (form : PrescriptionFormState) : Except PrescriptionAlert PrescriptionData :=
  if form.patientId = "" ∨ form.doctorName = "" ∨ form.items.any (fun item => item.drugId = "")
  then Except.error PrescriptionAlert.requiredFields
  else
    Except.ok
      { patientIdentifier := form.patientId
        doctorName := form.doctorName
        dateIssued := now
        isFilled := false
        dateFilled := none
        items := form.items.map (fun item =>
          { drugId := item.drugId, dosage := item.dosage, quantity := item.quantity,
            drugName := drugNameOf inventory item.drugId }) }

/-- The call `addDoc(collection(db, collectionPath), formData)` of
`handleAddPrescription`: a new document. -/
structure PrescriptionAdd where
  collectionPath : String
  data : PrescriptionData
  deriving DecidableEq

/-- What `handleAddPrescription` leaves behind. -/
structure LogOutcome where
  alert : PrescriptionAlert
  write : Option PrescriptionAdd

/-- The function `handleAddPrescription` (lines 1182-1195) when `appId` is bound
to a value. -/
def handleAddPrescription (appId : String) (userId : Option String)
    (reject : PrescriptionAdd → Option String) (formData : PrescriptionData) : LogOutcome :=
  match userId with
  | none => { alert := PrescriptionAlert.authError, write := none }
  | some u =>
    if u == "" then { alert := PrescriptionAlert.authError, write := none }
    else
      let write : PrescriptionAdd :=
        { collectionPath := "artifacts/" ++ appId ++ "/users/" ++ u ++ "/prescriptions",
          data := formData }
      match reject write with
      | none => { alert := PrescriptionAlert.added, write := some write }
      | some message => { alert := PrescriptionAlert.addError message, write := some write }

/-- The effect of one committed write on a prescription document of the
collection at `prescriptionsPath`: an update of `isFilled` and `dateFilled`
overwrites these two fields of the document it addresses. -/
def applyFilled (prescriptionsPath : String) (p : Prescription) : Write → Prescription
  | Write.updateFilled ref isFilled dateFilled =>
    if ref.collectionPath = prescriptionsPath ∧ ref.id = p.id then
      { p with isFilled := isFilled, dateFilled := some dateFilled }
    else p
  | _ => p

/-- A prescription already filled at time 5: 3 of drug A. -/
def filledPrescription : Prescription :=
  { id := "p4", patientIdentifier := "P-1", doctorName := "Dr X", dateIssued := 1,
    isFilled := true, dateFilled := some 5,
    items := [{ drugId := "A", dosage := "", quantity := 3, drugName := "Drug A" }] }

/-- A filled-in add form for drug A. -/
def sampleForm : InventoryFormData :=
  { id := none, name := "Drug A", genericName := "", manufacturer := "", batchNumber := "12345",
    expiryDate := "2030-01-31", quantityInStock := 10, unitPrice := 100 }

/-- A filled-in prescription form: 3 of drug A. -/
def samplePrescriptionForm : PrescriptionFormState :=
  { patientId := "P-1", doctorName := "Dr X",
    items := [{ drugId := "A", dosage := "", quantity := 3 }] }

/-- Two batch-number inputs: "ab12", then "123456" (six digits). -/
def sixDigitEvents : List ChangeEvent :=
  [{ name := "batchNumber", value := "ab12" }, { name := "batchNumber", value := "123456" }]

/-- Two batch-number inputs: "ab12", then "7-7". -/
def dashEvents : List ChangeEvent :=
  [{ name := "batchNumber", value := "ab12" }, { name := "batchNumber", value := "7-7" }]

/-! ## The items of the prescription form (lines 1008-1040) -/

/-- The field of a form item a change addresses. -/
inductive ItemField where
  | drugId
  | dosage
  | quantity
  deriving DecidableEq

/-- The expression `x || 1` on a number: NaN and 0 give 1. -/
def orOne : JSNum → ℚ
  | JSNum.fin q => if q = 0 then 1 else q
  | JSNum.nan => 1

/-- The initial state `items` (line 1008). -/
def PrescriptionForm.initialItems : List FormItem :=
  [{ drugId := "", dosage := "", quantity := 1 }]

/-- The function `handleItemChange` (lines 1016-1032): the new items and the alert
raised, or `none` when `index` addresses no item (reading `drugId` of
`undefined` throws).  `parseInt` is the JavaScript function of that name. -/
def PrescriptionForm.handleItemChange (parseInt : String → JSNum)
    (inventory : List InventoryItem) (items : List FormItem) (index : Nat) (field : ItemField)
    (value : String) : Option (List FormItem × Option PrescriptionAlert) :=
  match items[index]? with
  | none => none
  | some item =>
    match field with
    | ItemField.quantity =>
      match inventory.find? (fun d => d.id == item.drugId) with
      | some drug =>
        if drug.quantityInStock < orOne (parseInt value) then
          some (items.set index { item with quantity := drug.quantityInStock },
            some (PrescriptionAlert.onlyOfInStock drug.quantityInStock drug.name))
        else
          some (items.set index { item with quantity :=
            if (orOne (parseInt value) < 1) then 1 else orOne (parseInt value) }, none)
      | none =>
        some (items.set index { item with quantity :=
          if (orOne (parseInt value) < 1) then 1 else orOne (parseInt value) }, none)
    | ItemField.drugId => some (items.set index { item with drugId := value }, none)
    | ItemField.dosage => some (items.set index { item with dosage := value }, none)

/-- The function `addItem` (lines 1034-1036). -/
def PrescriptionForm.addItem (items : List FormItem) : List FormItem :=
  items ++ [{ drugId := "", dosage := "", quantity := 1 }]

/-- The function `removeItem` (lines 1038-1040): `items.filter((_, i) => i !== index)`. -/
def PrescriptionForm.removeItem (items : List FormItem) (index : Nat) : List FormItem :=
  items.eraseIdx index

/-- One step on the items of the form, with the snapshot it runs against. -/
inductive FormStep where
  | change (inventory : List InventoryItem) (index : Nat) (field : ItemField) (value : String)
  | addItem
  | removeItem (index : Nat)

/-- The items after a step; a step that throws leaves them as they were. -/
def applyFormStep (parseInt : String → JSNum) (items : List FormItem) : FormStep → List FormItem
  | FormStep.change inventory index field value =>
    match PrescriptionForm.handleItemChange parseInt inventory items index field value with
    | some result => result.1
    | none => items
  | FormStep.addItem => PrescriptionForm.addItem items
  | FormStep.removeItem index => PrescriptionForm.removeItem items index

/-- The snapshots a step runs against hold a stock of at least 1 for every record. -/
def StockAtLeastOne : FormStep → Prop
  | FormStep.change inventory _ _ _ => ∀ d ∈ inventory, 1 ≤ d.quantityInStock
  | _ => True

/-- Selecting drug B while the snapshot shows stock 1, then, once the snapshot
shows it sold out, typing 2 in the quantity field. -/
def soldOutSteps : List FormStep :=
  [FormStep.change [drugB] 0 ItemField.drugId "B",
   FormStep.change [drugBSoldOut] 0 ItemField.quantity "2"]

/-! ## The live collection subscriber (lines 1504-1520) -/

/-- A record of `dataList`: the document id and the two fields the ordering
reads, each the timestamp in milliseconds when the record carries the field. -/
structure StoreDoc where
  id : String
  timestamp : Option Nat
  dateIssued : Option Nat
  deriving DecidableEq

/-- The comparator `(a, b) => b.key.toMillis() - a.key.toMillis()` puts `a` no
later than `b`. -/
def NewerFirst (key : StoreDoc → Option Nat) (a b : StoreDoc) : Prop :=
  (key b).getD 0 ≤ (key a).getD 0

instance (key : StoreDoc → Option Nat) : DecidableRel (NewerFirst key) :=
  fun a b => inferInstanceAs (Decidable ((key b).getD 0 ≤ (key a).getD 0))

instance (key : StoreDoc → Option Nat) : IsTotal StoreDoc (NewerFirst key) :=
  ⟨fun a b => Nat.le_total ((key b).getD 0) ((key a).getD 0)⟩

instance (key : StoreDoc → Option Nat) : IsTrans StoreDoc (NewerFirst key) :=
  ⟨fun _ _ _ hab hbc => Nat.le_trans hbc hab⟩

/-- The call `dataList.sort(comparator)`: a stable sort, newest first.  A list of
at most one record is returned without a comparison; on a longer list every
record is compared, and comparing a record without the key throws (`none`). -/
def sortNewestFirst (key : StoreDoc → Option Nat) (dataList : List StoreDoc) :
    Option (List StoreDoc) :=
  if dataList.length ≤ 1 then some dataList
  else if dataList.all (fun d => (key d).isSome) then
    some (dataList.insertionSort (NewerFirst key))
  else none

/-- The ordering step of the `onSnapshot` callback (lines 1511-1516). -/
def orderSnapshot (dataList : List StoreDoc) : Option (List StoreDoc) :=
  match dataList with
  | [] => some []
  | first :: _ =>
    if first.timestamp.isSome then sortNewestFirst (fun d => d.timestamp) dataList
    else if first.dateIssued.isSome then sortNewestFirst (fun d => d.dateIssued) dataList
    else some dataList

/-- The `onSnapshot` callback (lines 1505-1519) on the list a setter holds: the
list published; when the ordering step throws the setter is not reached and the
held list stays. -/
def onSnapshot (held dataList : List StoreDoc) : List StoreDoc :=
  match orderSnapshot dataList with
  | some ordered => ordered
  | none => held

/-- A list is in the order the step gives it: newest first by the key its first
record selects, every record carrying that key. -/
def AlreadyOrdered (dataList : List StoreDoc) : Prop :=
  match dataList with
  | [] => True
  | first :: _ =>
    if first.timestamp.isSome then
      (∀ d ∈ dataList, d.timestamp.isSome) ∧ dataList.Sorted (NewerFirst (fun d => d.timestamp))
    else if first.dateIssued.isSome then
      (∀ d ∈ dataList, d.dateIssued.isSome) ∧ dataList.Sorted (NewerFirst (fun d => d.dateIssued))
    else True

/-- Three sales in store order, made at times 5, 9 and 7. -/
def saleDocs : List StoreDoc :=
  [{ id := "s1", timestamp := some 5, dateIssued := none },
   { id := "s2", timestamp := some 9, dateIssued := none },
   { id := "s3", timestamp := some 7, dateIssued := none }]

/-- Two inventory records in store order, neither with a timestamp. -/
def inventoryDocs : List StoreDoc :=
  [{ id := "b", timestamp := none, dateIssued := none },
   { id := "a", timestamp := none, dateIssued := none }]

/-- A list whose first record has a timestamp and whose second has none. -/
def mixedDocs : List StoreDoc :=
  [{ id := "s1", timestamp := some 5, dateIssued := none },
   { id := "x", timestamp := none, dateIssued := none }]

/-- A list whose first record has neither field and whose later records have a
timestamp. -/
def plainFirstDocs : List StoreDoc :=
  [{ id := "x", timestamp := none, dateIssued := none },
   { id := "s1", timestamp := some 5, dateIssued := none },
   { id := "s2", timestamp := some 9, dateIssued := none }]

/-! ## The session (lines 1442-1486) -/

/-- The argument of `setAlert` in `App`. -/
inductive AppAlert where
  /-- The message 'Login successful! Welcome.' -/
  | loginSuccess
  /-- The message 'You have been logged out.' -/
  | loggedOut
  deriving DecidableEq

/-- The state of `App` the session reads and writes. -/
structure AppState where
  userId : Option String
  isAuthReady : Bool
  isLogoutModalOpen : Bool
  alert : Option AppAlert
  deriving DecidableEq

/-- The initial state of `App` (lines 1442-1452). -/
def App.initial : AppState :=
  { userId := none, isAuthReady := false, isLogoutModalOpen := false, alert := none }

/-- The callback of `onAuthStateChanged` (lines 1470-1477); `user` is the uid of
the user notified, `none` for `null`. -/
def onAuthStateChanged (st : AppState) (user : Option String) : AppState :=
  { st with userId := user, isAuthReady := true }

/-- The collection paths the data subscription effect opens in a state (lines
1482-1502): none unless `isAuthReady` and `userId` are truthy. -/
def dataSubscriptions (st : AppState) : List String :=
  match st.userId with
  | none => []
  | some u => if !st.isAuthReady || u == "" then [] else subscribedPaths u

/-- The function `handleLogout` (lines 1457-1460), once the call has settled.
`signOutError` is the verdict of `signOut(auth)`: `none` when it completes,
`some message` when it rejects, in which case the rejection propagates and
nothing is set. -/
def handleLogout (signOutError : Option String) (st : AppState) : AppState :=
  match signOutError with
  | none => { st with alert := some AppAlert.loggedOut }
  | some _ => st

/-- The function `requestLogout` (lines 1461-1463). -/
def requestLogout (st : AppState) : AppState :=
  { st with isLogoutModalOpen := true }

/-- The function `confirmLogout` (lines 1464-1467), once the call has settled. -/
def confirmLogout (signOutError : Option String) (st : AppState) : AppState :=
  match signOutError with
  | none => { handleLogout signOutError st with isLogoutModalOpen := false }
  | some _ => handleLogout signOutError st

/-- What can happen to the session. -/
inductive AppEvent where
  | notified (user : Option String)
  | requestLogout
  | confirmLogout (signOutError : Option String)

/-- The state after an event. -/
def App.step (st : AppState) : AppEvent → AppState
  | AppEvent.notified user => onAuthStateChanged st user
  | AppEvent.requestLogout => requestLogout st
  | AppEvent.confirmLogout signOutError => confirmLogout signOutError st

/-- An event other than an identity notification. -/
def AppEvent.isNotification : AppEvent → Bool
  | AppEvent.notified _ => true
  | _ => false

/-- A session signed in as "u1". -/
def signedIn : AppState :=
  { userId := some "u1", isAuthReady := true, isLogoutModalOpen := true, alert := none }

/-! ## The cart after an event handler -/

/-- The cart after the handler of the quantity field ran: when
`updateCartQuantity` throws, `setCart` is not reached and the cart stays. -/
def cartAfterUpdate (inventory : List InventoryItem) (cart : List CartLine) (drugId : String)
    (newQuantity : JSNum) : List CartLine :=
  match updateCartQuantity inventory cart drugId newQuantity with
  | some result => result.1
  | none => cart

/-- A `parseInt` that reads "2" as 2; the other strings used here are not numbers. -/
def parseIntSample (value : String) : JSNum :=
  if value = "2" then JSNum.fin 2 else JSNum.nan

/-- A prescription form asking for 3 of a drug the snapshot holds no stock of. -/
def soldOutForm : PrescriptionFormState :=
  { patientId := "P-1", doctorName := "Dr X",
    items := [{ drugId := "B", dosage := "", quantity := 3 }] }

/-- The ids the stock updates of a batch address, in order. -/
def stockUpdateIds : List Write → List String
  | [] => []
  | Write.updateStock ref _ :: rest => ref.id :: stockUpdateIds rest
  | _ :: rest => stockUpdateIds rest

/-- Two prescriptions in store order, issued at times 1 and 2, the second also
carrying a timestamp. -/
def bothFieldsDocs : List StoreDoc :=
  [{ id := "p1", timestamp := none, dateIssued := some 1 },
   { id := "p2", timestamp := some 9, dateIssued := some 2 }]

/-! ## The components as the file binds `appId` -/

/-- The function `fillPrescription` as it runs inside `Prescriptions`, which is
declared at module level (line 1179) and receives `userId`, `prescriptions`,
`inventory` and `setAlert` only (line 1573): `scope` is the binding of the free
identifier `appId`, `none` when there is none, as in the file as it stands.  The
guard and the stock check (lines 1198-1214) run first; the first path of the
`try` (line 1222, or line 1229 for a prescription without lines) then throws a
ReferenceError, which the `catch` turns into an alert, and nothing is queued. -/
def fillPrescriptionInScope (scope : Option String) (userId : Option String)
    (inventory : List InventoryItem) (ext : Store) (prescription : Prescription) : FillOutcome :=
  match scope with
  | some appId => fillPrescription appId userId inventory ext prescription
  | none =>
    match userId with
    | none => { alert := Alert.authError, batch := none }
    | some u =>
      if u == "" then { alert := Alert.authError, batch := none }
      else
        match checkStock inventory prescription.items with
        | some alert => { alert := alert, batch := none }
        | none => { alert := Alert.fillError "appId is not defined", batch := none }

/-- The prescription card (lines 1267-1279) inside `Prescriptions`: a filled
prescription offers no action, an unfilled one the button whose click calls
`fillPrescription`. -/
def fillButtonInScope (scope : Option String) (userId : Option String)
    (inventory : List InventoryItem) (ext : Store) (p : Prescription) : Option FillOutcome :=
  if p.isFilled then none else some (fillPrescriptionInScope scope userId inventory ext p)

/-- The function `handleUpdateDrug` as it runs inside `Inventory`, which is
declared at module level (line 492) and receives `userId`, `inventory` and
`setAlert` only (line 1569): after the guard, building `docPath` (line 518)
throws a ReferenceError when `appId` has no binding, before `setDoc` (line 521);
the `catch` raises the alert and `editingDrug` stays. -/
def handleUpdateDrugInScope (scope : Option String) (userId : Option String)
    (editingDrug : Option InventoryItem) (reject : InventoryWrite → Option String)
    (formData : SubmittedDrug) : InventoryOutcome :=
  match scope with
  | some appId => handleUpdateDrug appId userId editingDrug reject formData
  | none =>
    match userId, editingDrug with
    | some u, some _ =>
      if u == "" then
        { alert := InventoryAlert.authError, write := none, editingDrug := editingDrug }
      else
        { alert := InventoryAlert.updateError "appId is not defined", write := none,
          editingDrug := editingDrug }
    | _, _ => { alert := InventoryAlert.authError, write := none, editingDrug := editingDrug }

/-! ## Number arithmetic -/

/-- The operators `+` and `*` of JavaScript numbers, as functions on values. -/
structure NumberOps where
  add : JSNum → JSNum → JSNum
  mul : JSNum → JSNum → JSNum

/-- Arithmetic without rounding. -/
def exactOps : NumberOps := { add := JSNum.add, mul := JSNum.mul }

/-- The integer nearest to `m`, a tie going to the even one. -/
def roundHalfEven (m : ℚ) : ℤ :=
  if m - ⌊m⌋ < 1 / 2 then ⌊m⌋
  else if 1 / 2 < m - ⌊m⌋ then ⌊m⌋ + 1
  else if ⌊m⌋ % 2 = 0 then ⌊m⌋ else ⌊m⌋ + 1

/-- The IEEE-754 binary64 value nearest to `q`, ties to even: 53 significant bits,
so the spacing of the values around `q` is `2 ^ (⌊log2 |q|⌋ - 52)`.  The exponent
range is not bounded here (no overflow to Infinity, no subnormals). -/
def round64 (q : ℚ) : ℚ :=
  if q = 0 then 0
  else (roundHalfEven (q / 2 ^ (Int.log 2 |q| - 52)) : ℚ) * 2 ^ (Int.log 2 |q| - 52)

/-- A result rounded to binary64; NaN stays NaN. -/
def JSNum.round : JSNum → JSNum
  | JSNum.fin q => JSNum.fin (round64 q)
  | JSNum.nan => JSNum.nan

/-- The arithmetic of the JavaScript engine: the exact result, rounded. -/
def ieeeOps : NumberOps :=
  { add := fun a b => JSNum.round (a.add b), mul := fun a b => JSNum.round (a.mul b) }

/-- The function `addToCart` (lines 673-695) with `+` taken from `ops`;
`addToCart` is `addToCartWith exactOps`. -/
def addToCartWith (ops : NumberOps) (prevCart : List CartLine) (drug : InventoryItem) :
    List CartLine × Option Alert :=
  if drug.quantityInStock ≤ 0 then
    (prevCart, some Alert.outOfStock)
  else
    match prevCart.find? (fun item => item.id == drug.id) with
    | some existingItem =>
      if JSNum.gt (ops.add existingItem.quantity (JSNum.fin 1)) (JSNum.fin drug.quantityInStock) then
        (prevCart, some (Alert.onlyInStock drug.quantityInStock))
      else
        (prevCart.map (fun item =>
          if item.id == drug.id then { item with quantity := ops.add item.quantity (JSNum.fin 1) }
          else item), none)
    | none => (prevCart ++ [{ toInventoryItem := drug, quantity := JSNum.fin 1 }], none)

/-- The carts the `POS` component can hold when `+` is `ops.add`: the empty cart,
and what `addToCart` (on a record of the current snapshot) and
`updateCartQuantity` (with a `parseInt` result) make of a cart it can hold, each
step against a snapshot of its own with non-negative integer stock.
`ReachableCart` is `ReachableCartWith exactOps`. -/
inductive ReachableCartWith (ops : NumberOps) : List CartLine → Prop
  | empty : ReachableCartWith ops []
  | add {cart : List CartLine} (inventory : List InventoryItem) (drug : InventoryItem) :
      ReachableCartWith ops cart → NatStock inventory → drug ∈ inventory →
      ReachableCartWith ops (addToCartWith ops cart drug).1
  | update {cart : List CartLine} (inventory : List InventoryItem) (drugId : String)
      (newQuantity : JSNum) (result : List CartLine × Option Alert) :
      ReachableCartWith ops cart → NatStock inventory → IsParseInt newQuantity →
      updateCartQuantity inventory cart drugId newQuantity = some result →
      ReachableCartWith ops result.1

/-- The cart after `n` calls of `addToCart` with the same record. -/
def addTimesWith (ops : NumberOps) : Nat → List CartLine → InventoryItem → List CartLine
  | 0, cart, _ => cart
  | n + 1, cart, drug => (addToCartWith ops (addTimesWith ops n cart drug) drug).1

/-- The memo `totalAmount` (lines 714-716) with `+` and `*` taken from `ops`. -/
def totalAmountWith (ops : NumberOps) (cart : List CartLine) : JSNum :=
  cart.foldl (fun acc item => ops.add acc (ops.mul (JSNum.fin item.unitPrice) item.quantity))
    (JSNum.fin 0)

/-- The record `saleData` (lines 732-742) with `+` and `*` taken from `ops`. -/
def saleDataWith (ops : NumberOps) (now : Nat) (cart : List CartLine) : SaleData :=
  { timestamp := now
    items := cart.map (fun item =>
      { drugId := item.id
        name := item.name
        quantity := item.quantity
        unitPrice := item.unitPrice
        totalPrice := ops.mul item.quantity (JSNum.fin item.unitPrice) })
    totalAmount := totalAmountWith ops cart }

/-- The record `saleData` a call of `processSale` builds, `none` when a guard
returns before the `try` (lines 719-726).  The record is complete (line 742)
before the first document path is evaluated (line 743), so it is built whatever
`appId` is bound to. -/
def processSaleRecord (ops : NumberOps) (userId : Option String) (ext : Store) (st : POSState) :
    Option SaleData :=
  match userId with
  | none => none
  | some u =>
    if u == "" then none
    else if st.cart.length == 0 then none
    else some (saleDataWith ops ext.now st.cart)

/-! ## Further sample data -/

/-- A drug stocked at 2 ^ 53 units. -/
def bigDrug : InventoryItem :=
  { id := "G", name := "Drug G", genericName := "", manufacturer := "", batchNumber := "4",
    expiryDate := none, quantityInStock := 9007199254740992, unitPrice := 1 }

/-- The cart after adding `bigDrug` and typing 9007199254740992 in its quantity
field. -/
def bigCart : List CartLine :=
  [{ toInventoryItem := bigDrug, quantity := JSNum.fin 9007199254740992 }]

/-- A prescription every line of which finds its stock: 3 of drug A, 1 of drug B. -/
def passingPrescription : Prescription :=
  { id := "p5", patientIdentifier := "P-1", doctorName := "Dr X", dateIssued := 1,
    isFilled := false, dateFilled := none,
    items := [{ drugId := "A", dosage := "", quantity := 3, drugName := "Drug A" },
              { drugId := "B", dosage := "", quantity := 1, drugName := "Drug B" }] }

/-- Drug A with 2 units left. -/
def drugALow : InventoryItem := { drugA with quantityInStock := 2 }

/-- The record the inventory form submits after drug A is edited to a stock of 4. -/
def editedDrugA : SubmittedDrug :=
  { id := some "A", name := "Drug A", genericName := "", manufacturer := "", batchNumber := "1",
    expiryDate := 42, quantityInStock := 4, unitPrice := 100 }

/-- Two prescriptions, each with a `dateIssued`, the first also carrying a
`timestamp`. -/
def stampedFirstDocs : List StoreDoc :=
  [{ id := "p2", timestamp := some 9, dateIssued := some 2 },
   { id := "p1", timestamp := none, dateIssued := some 1 }]

/-! ## Arithmetic of `JSNum` -/

theorem jsnum_mul_comm (a b : JSNum) : a.mul b = b.mul a := by
  cases a <;> cases b <;> simp [JSNum.mul, mul_comm]

/-- IEEE-754 multiplication is commutative. -/
theorem ieeeOps_mul_comm (a b : JSNum) : ieeeOps.mul a b = ieeeOps.mul b a := by
  simp only [ieeeOps, jsnum_mul_comm]

theorem roundHalfEven_intCast (k : ℤ) : roundHalfEven (k : ℚ) = k := by
  simp [roundHalfEven]

/-- The natural numbers up to 2 ^ 53 are binary64 values. -/
theorem round64_natCast (n : ℕ) (h : n ≤ 2 ^ 53) : round64 (n : ℚ) = n := by
  rcases Nat.eq_zero_or_pos n with h0 | hpos
  · subst h0
    simp [round64]
  · have hne : (n : ℚ) ≠ 0 := by positivity
    have habs : |(n : ℚ)| = (n : ℚ) := abs_of_nonneg (by positivity)
    unfold round64
    rw [if_neg hne, habs, Int.log_natCast]
    have hle : 2 ^ Nat.log 2 n ≤ n := Nat.pow_log_le_self 2 (by omega)
    have he53 : Nat.log 2 n ≤ 53 := by
      by_contra hc
      push_neg at hc
      have h54 : 2 ^ 54 ≤ 2 ^ Nat.log 2 n := Nat.pow_le_pow_right (by norm_num) hc
      omega
    generalize Nat.log 2 n = e at hle he53
    by_cases h52 : e ≤ 52
    · have hulp : (2 : ℚ) ^ ((e : ℤ) - 52) = (((2 ^ (52 - e) : ℕ) : ℤ) : ℚ)⁻¹ := by
        rw [show ((e : ℤ) - 52) = -((52 - e : ℕ) : ℤ) by omega, zpow_neg, zpow_natCast]
        push_cast
        rfl
      rw [hulp, div_inv_eq_mul]
      have hm : (n : ℚ) * (((2 ^ (52 - e) : ℕ) : ℤ) : ℚ)
          = (((n * 2 ^ (52 - e) : ℕ) : ℤ) : ℚ) := by
        push_cast
        ring
      rw [hm, roundHalfEven_intCast]
      have hpos2 : ((2 : ℚ) ^ (52 - e)) ≠ 0 := by positivity
      push_cast
      field_simp
    · have he : e = 53 := by omega
      subst he
      have hn : n = 2 ^ 53 := by omega
      subst hn
      have hm : (((2 ^ 53 : ℕ) : ℚ)) / 2 ^ (((53 : ℕ) : ℤ) - 52) = (((2 ^ 52 : ℕ) : ℤ) : ℚ) := by
        norm_num
      rw [hm, roundHalfEven_intCast]
      norm_num

/-- The sum 2 ^ 53 + 1 lies half way between two binary64 values and rounds to
the even one, 2 ^ 53. -/
theorem round64_two_pow_53_add_one : round64 (2 ^ 53 + 1) = 2 ^ 53 := by
  have hlog : Int.log 2 |(2 ^ 53 + 1 : ℚ)| = 53 := by
    have h : |(2 ^ 53 + 1 : ℚ)| = ((2 ^ 53 + 1 : ℕ) : ℚ) := by norm_num
    rw [h, Int.log_natCast]
    norm_cast
    exact Nat.log_eq_of_pow_le_of_lt_pow (by norm_num) (by norm_num)
  have hne : (2 ^ 53 + 1 : ℚ) ≠ 0 := by norm_num
  have hfl : ⌊((2 ^ 53 + 1 : ℚ) / 2)⌋ = 2 ^ 52 := by
    rw [Int.floor_eq_iff]
    constructor <;> norm_num
  unfold round64
  rw [if_neg hne, hlog]
  norm_num [roundHalfEven, hfl]

/-- In binary64 arithmetic `n + 1` is exact for every natural number `n` below
2 ^ 53. -/
theorem ieeeOps_add_one (n : ℕ) (h : n < 2 ^ 53) :
    ieeeOps.add (JSNum.fin n) (JSNum.fin 1) = (JSNum.fin n).add (JSNum.fin 1) := by
  have hr := round64_natCast (n + 1) (by omega)
  simp only [ieeeOps, JSNum.add, JSNum.round]
  push_cast at hr
  rw [hr]

/-- In binary64 arithmetic the product of two natural numbers is exact when it is
at most 2 ^ 53. -/
theorem ieeeOps_mul_nat (a b : ℕ) (h : a * b ≤ 2 ^ 53) :
    ieeeOps.mul (JSNum.fin a) (JSNum.fin b) = JSNum.fin ((a * b : ℕ) : ℚ) := by
  have hr := round64_natCast (a * b) h
  simp only [ieeeOps, JSNum.mul, JSNum.round]
  push_cast at hr ⊢
  rw [hr]

/-- In binary64 arithmetic the sum of two natural numbers is exact when it is at
most 2 ^ 53. -/
theorem ieeeOps_add_nat (a b : ℕ) (h : a + b ≤ 2 ^ 53) :
    ieeeOps.add (JSNum.fin a) (JSNum.fin b) = JSNum.fin ((a + b : ℕ) : ℚ) := by
  have hr := round64_natCast (a + b) h
  simp only [ieeeOps, JSNum.add, JSNum.round]
  push_cast at hr ⊢
  rw [hr]

/-- Without rounding, the functions with the arithmetic as a parameter are the
functions of the cart and of the sale. -/
theorem with_exactOps (cart : List CartLine) (drug : InventoryItem) (now : Nat) :
    addToCartWith exactOps cart drug = addToCart cart drug ∧
    totalAmountWith exactOps cart = totalAmount cart ∧
    saleDataWith exactOps now cart = saleData now cart :=
  ⟨rfl, rfl, rfl⟩

/-! ## The sale commit -/

/-- With an identity and a non-empty cart, `processSale` hands `saleBatch` to `commit`. -/
theorem processSale_batch (appId u : String) (ext : Store) (st : POSState)
    (hu : u ≠ "") (hcart : st.cart ≠ []) :
    (processSale appId (some u) ext st).batch = some (saleBatch appId u ext st.cart) := by
  have hlen : st.cart.length ≠ 0 := by
    intro h
    exact hcart (List.length_eq_zero.mp h)
  unfold processSale
  simp only [beq_iff_eq, hu, hlen, if_false]
  cases ext.commit (saleBatch appId u ext st.cart) <;> rfl

/-- With an identity and a non-empty cart, `processSale` reaches line 732 and
builds the record. -/
theorem processSaleRecord_built (ops : NumberOps) (u : String) (ext : Store) (st : POSState)
    (hu : u ≠ "") (hcart : st.cart ≠ []) :
    processSaleRecord ops (some u) ext st = some (saleDataWith ops ext.now st.cart) := by
  have hlen : st.cart.length ≠ 0 := by
    intro h
    exact hcart (List.length_eq_zero.mp h)
  unfold processSaleRecord
  simp only [beq_iff_eq, hu, hlen, if_false]

/-- C1: for every non-empty cart (and an identity), `processSale` builds a sale
record, and that record has exactly one item per cart line, in cart order, with
`drugId`, `name`, `quantity` and `unitPrice` copied from the line and
`totalPrice = quantity * unitPrice`; its `totalAmount` is the sum of
`quantity * unitPrice` over its items, which is the sum of their `totalPrice`.
The sums are taken in item order, as `reduce` takes them, in the arithmetic of
the engine: nothing is assumed of `+`, and of `*` only that it is commutative,
as IEEE-754 multiplication is. -/
theorem processSale_sale_record (ops : NumberOps) (hcomm : ∀ a b, ops.mul a b = ops.mul b a)
    (u : String) (ext : Store) (st : POSState) (hu : u ≠ "") (hcart : st.cart ≠ []) :
    ∃ sale, processSaleRecord ops (some u) ext st = some sale ∧
      List.Forall₂ (fun (it : SaleItem) (l : CartLine) =>
        it.drugId = l.id ∧ it.name = l.name ∧ it.quantity = l.quantity ∧
        it.unitPrice = l.unitPrice ∧ it.totalPrice = ops.mul it.quantity (JSNum.fin it.unitPrice))
        sale.items st.cart ∧
      sale.totalAmount
        = sale.items.foldl
            (fun acc it => ops.add acc (ops.mul it.quantity (JSNum.fin it.unitPrice)))
            (JSNum.fin 0) ∧
      sale.totalAmount
        = sale.items.foldl (fun acc it => ops.add acc it.totalPrice) (JSNum.fin 0) := by
  refine ⟨_, processSaleRecord_built ops u ext st hu hcart, ?_, ?_, ?_⟩
  · simp only [saleDataWith]
    generalize st.cart = cart
    induction cart with
    | nil => exact List.Forall₂.nil
    | cons x xs ih => exact List.Forall₂.cons ⟨rfl, rfl, rfl, rfl, rfl⟩ ih
  · simp only [saleDataWith, totalAmountWith, List.foldl_map]
    congr 1
    funext acc item
    rw [hcomm]
  · simp only [saleDataWith, totalAmountWith, List.foldl_map]
    congr 1
    funext acc item
    rw [hcomm]

/-- C1, on the sample cart in binary64 arithmetic: the sale of 3 of drug A at 100
and 1 of drug B at 50. -/
theorem processSale_sale_record_witness :
    ∃ sale, processSaleRecord ieeeOps (some "u1") acceptingStore samplePOS = some sale ∧
      List.Forall₂ (fun (it : SaleItem) (l : CartLine) =>
        it.drugId = l.id ∧ it.name = l.name ∧ it.quantity = l.quantity ∧
        it.unitPrice = l.unitPrice ∧
        it.totalPrice = ieeeOps.mul it.quantity (JSNum.fin it.unitPrice))
        sale.items samplePOS.cart ∧
      sale.totalAmount
        = sale.items.foldl
            (fun acc it => ieeeOps.add acc (ieeeOps.mul it.quantity (JSNum.fin it.unitPrice)))
            (JSNum.fin 0) ∧
      sale.totalAmount
        = sale.items.foldl (fun acc it => ieeeOps.add acc it.totalPrice) (JSNum.fin 0) :=
  processSale_sale_record ieeeOps ieeeOps_mul_comm "u1" acceptingStore samplePOS
    (by decide) (by decide)

/-- In the file as it stands `processSale` hands no batch to `commit`, whatever
the identity, the store and the state. -/
theorem processSaleInScope_none_batch (userId : Option String) (ext : Store) (st : POSState) :
    (processSaleInScope none userId ext st).batch = none := by
  unfold processSaleInScope
  cases userId with
  | none => rfl
  | some u =>
    simp only
    split
    · rfl
    · split <;> rfl

/-- The stale cart is one the component can hold, in whatever arithmetic: drug B
is added while its stock is 1; the snapshot then shows a restock to 5 and the
quantity is set to 5, which `updateCartQuantity` accepts against the snapshot. -/
theorem staleCart_reachable (ops : NumberOps) : ReachableCartWith ops staleCart := by
  have hB : NatStock [drugB] := by
    intro d hd
    rw [List.mem_singleton] at hd
    subst hd
    exact ⟨1, by norm_num [drugB]⟩
  have hR : NatStock [drugBRestocked] := by
    intro d hd
    rw [List.mem_singleton] at hd
    subst hd
    exact ⟨5, by norm_num [drugBRestocked]⟩
  have h1 : ReachableCartWith ops (addToCartWith ops [] drugB).1 :=
    ReachableCartWith.add [drugB] drugB ReachableCartWith.empty hB (List.mem_singleton.mpr rfl)
  have hadd : (addToCartWith ops [] drugB).1
      = [{ toInventoryItem := drugB, quantity := JSNum.fin 1 }] := by
    have hs : ¬ drugB.quantityInStock ≤ 0 := by norm_num [drugB]
    unfold addToCartWith
    rw [if_neg hs]
    rfl
  have h2 : updateCartQuantity [drugBRestocked]
      [{ toInventoryItem := drugB, quantity := JSNum.fin 1 }] "B" (JSNum.fin 5)
      = some (staleCart, none) := by decide!
  rw [hadd] at h1
  exact ReachableCartWith.update [drugBRestocked] "B" (JSNum.fin 5) (staleCart, none) h1 hR
    (Or.inr ⟨5, by norm_num⟩) h2

/-- C2: for every cart reachable from the empty cart by `addToCart` and
`updateCartQuantity` steps against snapshots with non-negative integer stock,
every `quantityInStock` value `processSale` puts into its batch is at least 0.
In the file as it stands the first document path (line 743) throws before
`batch.update` (line 751) is reached: `processSale` queues no stock value at
all, so none is negative. -/
theorem processSale_writes_no_negative_stock (ops : NumberOps) (st : POSState)
    (h : ReachableCartWith ops st.cart) (userId : Option String) (ext : Store) :
    (processSaleInScope none userId ext st).batch = none ∧
    ∀ v ∈ stockWrites ((processSaleInScope none userId ext st).batch.getD []),
      JSNum.ge v (JSNum.fin 0) = true := by
  have _hreach := h
  refine ⟨processSaleInScope_none_batch userId ext st, ?_⟩
  intro v hv
  rw [processSaleInScope_none_batch] at hv
  simp [stockWrites] at hv

/-- C2, on the stale cart (a line of drug B holding stock 1 and quantity 5): no
stock value is queued. -/
theorem processSale_writes_no_negative_stock_witness :
    ReachableCartWith ieeeOps staleCart ∧
    (processSaleInScope none (some "u1") acceptingStore
      { cart := staleCart, lastSale := none, isReceiptOpen := false }).batch = none ∧
    ∀ v ∈ stockWrites ((processSaleInScope none (some "u1") acceptingStore
        { cart := staleCart, lastSale := none, isReceiptOpen := false }).batch.getD []),
      JSNum.ge v (JSNum.fin 0) = true :=
  ⟨staleCart_reachable ieeeOps,
   processSale_writes_no_negative_stock ieeeOps
     { cart := staleCart, lastSale := none, isReceiptOpen := false }
     (staleCart_reachable ieeeOps) (some "u1") acceptingStore⟩

/-- C3 (fails on the code): with an identity and a non-empty cart the component
can hold (one line, for drug B), `processSale` as it runs in `POS` ends in its
`catch` before `batch.set` (line 745) and `batch.update` (line 751): no batch
exists, so there is no sale insert and no inventory update for the line, the
cart stays and the alert carries the ReferenceError. -/
theorem processSale_queues_no_update :
    ReachableCartWith ieeeOps staleCart ∧
    staleCart.map (fun l => l.id) = ["B"] ∧
    (processSaleInScope none (some "u1") acceptingStore
      { cart := staleCart, lastSale := none, isReceiptOpen := false }).batch = none ∧
    stockUpdateIds ((processSaleInScope none (some "u1") acceptingStore
      { cart := staleCart, lastSale := none, isReceiptOpen := false }).batch.getD []) = [] ∧
    (processSaleInScope none (some "u1") acceptingStore
      { cart := staleCart, lastSale := none, isReceiptOpen := false }).alert
      = Alert.saleError "appId is not defined" ∧
    (processSaleInScope none (some "u1") acceptingStore
      { cart := staleCart, lastSale := none, isReceiptOpen := false }).state.cart = staleCart := by
  refine ⟨staleCart_reachable ieeeOps, by decide!, by decide!, by decide!, by decide!, by decide!⟩

/-- C8: `processSale` is atomic with respect to the cart.  With an identity and a
non-empty cart a batch is handed to `commit`; if `commit` rejects it the
component state (cart and last sale) is what it was and an error alert carrying
the rejection message is raised; if `commit` accepts it the cart is empty and
the last sale is the sale record of the batch together with the id of the
document it was written to. -/
theorem processSale_atomic (appId u : String) (ext : Store) (st : POSState)
    (hu : u ≠ "") (hcart : st.cart ≠ []) :
    ∃ ref sale updates,
      (processSale appId (some u) ext st).batch = some (Write.set ref sale :: updates) ∧
      (∀ message, ext.commit (Write.set ref sale :: updates) = some message →
        (processSale appId (some u) ext st).state = st ∧
        (processSale appId (some u) ext st).alert = Alert.saleError message) ∧
      (ext.commit (Write.set ref sale :: updates) = none →
        (processSale appId (some u) ext st).state.cart = [] ∧
        (processSale appId (some u) ext st).state.lastSale
          = some { toSaleData := sale, id := ref.id } ∧
        (processSale appId (some u) ext st).alert = Alert.saleSuccess) := by
  have hlen : st.cart.length ≠ 0 := fun h => hcart (List.length_eq_zero.mp h)
  refine ⟨_, saleData ext.now st.cart, _, processSale_batch appId u ext st hu hcart, ?_, ?_⟩
  · intro message hm
    have hm2 : ext.commit (saleBatch appId u ext st.cart) = some message := hm
    unfold processSale
    simp only [beq_iff_eq, hu, hlen, if_false, hm2, and_self]
  · intro hm
    have hm2 : ext.commit (saleBatch appId u ext st.cart) = none := hm
    unfold processSale
    simp only [beq_iff_eq, hu, hlen, if_false, hm2, and_self]

/-- C8, on the sample cart: a rejected batch leaves the state as it was, an
accepted batch empties the cart and records the sale under the id "s1". -/
theorem processSale_atomic_witness :
    ((processSale "rxoptima-app" (some "u1") rejectingStore samplePOS).state = samplePOS ∧
     (processSale "rxoptima-app" (some "u1") rejectingStore samplePOS).alert
       = Alert.saleError "offline") ∧
    ((processSale "rxoptima-app" (some "u1") acceptingStore samplePOS).state.cart = [] ∧
     (processSale "rxoptima-app" (some "u1") acceptingStore samplePOS).state.lastSale
       = some { toSaleData := saleData 7 sampleCart, id := "s1" }) := by
  obtain ⟨r1, s1, w1, -, hfail, -⟩ :=
    processSale_atomic "rxoptima-app" "u1" rejectingStore samplePOS (by decide) (by decide)
  obtain ⟨r2, s2, w2, hb, -, hok⟩ :=
    processSale_atomic "rxoptima-app" "u1" acceptingStore samplePOS (by decide) (by decide)
  refine ⟨hfail "offline" rfl, (hok rfl).1, ?_⟩
  rw [(hok rfl).2.1]
  have hb2 : (processSale "rxoptima-app" (some "u1") acceptingStore samplePOS).batch
      = some (saleBatch "rxoptima-app" "u1" acceptingStore samplePOS.cart) :=
    processSale_batch "rxoptima-app" "u1" acceptingStore samplePOS (by decide) (by decide)
  rw [hb2] at hb
  simp only [saleBatch, Option.some.injEq, List.cons.injEq, Write.set.injEq] at hb
  obtain ⟨⟨href, hsale⟩, -⟩ := hb
  subst href
  subst hsale
  rfl

/-- C9: `processSale` hands no batch to `commit` and leaves the component state
unchanged when there is no identity (an authentication alert, whatever the cart
holds) and when there is an identity but the cart is empty (an empty-cart
alert); a batch is built exactly when an identity is present and the cart is
non-empty. -/
theorem processSale_guards (appId : String) (userId : Option String) (ext : Store)
    (st : POSState) :
    ((userId = none ∨ userId = some "") →
      (processSale appId userId ext st).batch = none ∧
      (processSale appId userId ext st).state = st ∧
      (processSale appId userId ext st).alert = Alert.authError) ∧
    ((∃ u, userId = some u ∧ u ≠ "") → st.cart = [] →
      (processSale appId userId ext st).batch = none ∧
      (processSale appId userId ext st).state = st ∧
      (processSale appId userId ext st).alert = Alert.cartEmpty) ∧
    ((processSale appId userId ext st).batch ≠ none ↔
      (∃ u, userId = some u ∧ u ≠ "") ∧ st.cart ≠ []) := by
  refine ⟨?_, ?_, ?_⟩
  · rintro (h | h) <;> subst h <;> simp [processSale]
  · rintro ⟨u, h, hu⟩ hc
    subst h
    simp [processSale, hu, hc]
  · constructor
    · intro hb
      cases userId with
      | none => simp [processSale] at hb
      | some u =>
        by_cases hu : u = ""
        · subst hu
          simp [processSale] at hb
        · refine ⟨⟨u, rfl, hu⟩, ?_⟩
          intro hc
          simp [processSale, hu, hc] at hb
    · rintro ⟨⟨u, h, hu⟩, hc⟩
      subst h
      rw [processSale_batch appId u ext st hu hc]
      simp

/-- C9, on the sample data: no identity with a full cart, and an identity with an
empty cart, both end without a batch and with the state unchanged. -/
theorem processSale_guards_witness :
    ((processSale "rxoptima-app" none acceptingStore samplePOS).batch = none ∧
     (processSale "rxoptima-app" none acceptingStore samplePOS).state = samplePOS ∧
     (processSale "rxoptima-app" none acceptingStore samplePOS).alert = Alert.authError) ∧
    ((processSale "rxoptima-app" (some "u1") acceptingStore
        { cart := [], lastSale := none, isReceiptOpen := false }).batch = none ∧
     (processSale "rxoptima-app" (some "u1") acceptingStore
        { cart := [], lastSale := none, isReceiptOpen := false }).state
        = { cart := [], lastSale := none, isReceiptOpen := false } ∧
     (processSale "rxoptima-app" (some "u1") acceptingStore
        { cart := [], lastSale := none, isReceiptOpen := false }).alert = Alert.cartEmpty) :=
  ⟨(processSale_guards "rxoptima-app" none acceptingStore samplePOS).1 (Or.inl rfl),
   (processSale_guards "rxoptima-app" (some "u1") acceptingStore
      { cart := [], lastSale := none, isReceiptOpen := false }).2.1
      ⟨"u1", rfl, by decide⟩ rfl⟩

/-! ## The cart -/

theorem jsnum_gt_irrefl (a : JSNum) : JSNum.gt a a = false := by
  cases a <;> simp [JSNum.gt]

/-- An operation that leaves the cart as it was raises no line. -/
theorem not_raised_of_unchanged (cart : List CartLine) (d : InventoryItem) :
    ¬ RaisedAboveStock cart cart d := by
  rintro ⟨l, hl, hid, -, hall⟩
  have h := hall l hl hid
  rw [jsnum_gt_irrefl] at h
  exact Bool.noConfusion h

/-- When the cart holds at most one line for an id, a line with that id is the
line `find` returns. -/
theorem eq_of_find_of_filter_le_one (cart : List CartLine) (id : String) (e l : CartLine)
    (hone : (cart.filter (fun x => x.id == id)).length ≤ 1)
    (he : cart.find? (fun x => x.id == id) = some e) (hl : l ∈ cart) (hid : l.id = id) :
    l = e := by
  have hemem : e ∈ cart.filter (fun x => x.id == id) := by
    rw [List.mem_filter]
    have hp := List.find?_some he
    exact ⟨List.mem_of_find?_eq_some he, hp⟩
  have hlmem : l ∈ cart.filter (fun x => x.id == id) := by
    rw [List.mem_filter]
    exact ⟨hl, by simp [hid]⟩
  have hlen := hone
  cases hf : cart.filter (fun x => x.id == id) with
  | nil => rw [hf] at hemem; simp at hemem
  | cons x xs =>
    cases xs with
    | nil =>
      rw [hf] at hemem hlmem
      rw [List.mem_singleton] at hemem hlmem
      rw [hemem, hlmem]
    | cons y ys =>
      rw [hf] at hlen
      simp only [List.length_cons] at hlen
      omega

/-- Under a binding of `appId`, the batch of the stale cart: `processSale`
subtracts from the stock held in the line, 1, not from the stock of the
snapshot, 5, and the value queued for drug B is 1 - 5 = -4. -/
theorem saleBatch_stale_line :
    saleBatch "rxoptima-app" "u1" acceptingStore staleCart
      = [Write.set { collectionPath := "artifacts/rxoptima-app/users/u1/sales", id := "s1" }
           (saleData 7 staleCart),
         Write.updateStock
           { collectionPath := "artifacts/rxoptima-app/users/u1/inventory", id := "B" }
           (JSNum.fin (-4))] := by
  decide!

/-- On a cart holding at most one line for `d`, a record of the snapshot with an
integer stock, neither `addToCart d` nor `updateCartQuantity d.id n` yields a
line for `d` whose quantity is both greater than it was before the step and
greater than `d.quantityInStock`; and `updateCartQuantity d.id 0` yields a cart
with no line for `d`. -/
theorem cart_quantity_clamp_of_unique (inventory : List InventoryItem) (cart : List CartLine)
    (d : InventoryItem) (n : JSNum)
    (hd : lookup inventory d.id = some d)
    (hint : ∃ z : ℤ, d.quantityInStock = z)
    (hone : (cart.filter (fun l => l.id == d.id)).length ≤ 1) :
    ¬ RaisedAboveStock cart (addToCart cart d).1 d ∧
    (∃ r, updateCartQuantity inventory cart d.id n = some r ∧ ¬ RaisedAboveStock cart r.1 d) ∧
    (∃ r, updateCartQuantity inventory cart d.id (JSNum.fin 0) = some r ∧
      ∀ l ∈ r.1, l.id ≠ d.id) := by
  have hd2 : inventory.find? (fun x => x.id == d.id) = some d := hd
  refine ⟨?_, ?_, ?_⟩
  · unfold addToCart
    by_cases hs : d.quantityInStock ≤ 0
    · simp only [hs, if_true]
      exact not_raised_of_unchanged cart d
    · simp only [hs, if_false]
      cases hf : cart.find? (fun item => item.id == d.id) with
      | none =>
        simp only
        rintro ⟨l, hl, hid, hgt, -⟩
        rw [List.mem_append, List.mem_singleton] at hl
        rcases hl with hl | hl
        · have := List.find?_eq_none.mp hf l hl
          simp [hid] at this
        · subst hl
          obtain ⟨z, hz⟩ := hint
          simp only [JSNum.gt, decide_eq_true_eq] at hgt
          rw [hz] at hs hgt
          have h1 : (0 : ℤ) < z := by
            by_contra hc
            exact hs (by exact_mod_cast not_lt.mp hc)
          have h2 : z < 1 := by exact_mod_cast hgt
          omega
      | some e =>
        simp only
        by_cases hg : JSNum.gt (e.quantity.add (JSNum.fin 1)) (JSNum.fin d.quantityInStock) = true
        · simp only [hg, if_true]
          exact not_raised_of_unchanged cart d
        · rw [if_neg hg]
          rintro ⟨l, hl, hid, hgt, -⟩
          rw [List.mem_map] at hl
          obtain ⟨l1, hl1, hl1eq⟩ := hl
          by_cases h1 : l1.id = d.id
          · have he : l1 = e := eq_of_find_of_filter_le_one cart d.id e l1 hone hf hl1 h1
            subst he
            simp only [h1, beq_self_eq_true, if_true] at hl1eq
            subst hl1eq
            exact hg hgt
          · have hb : (l1.id == d.id) = false := by simpa using h1
            simp only [hb] at hl1eq
            subst hl1eq
            exact h1 hid
  · unfold updateCartQuantity
    simp only [hd2]
    by_cases hle : JSNum.le n (JSNum.fin 0) = true
    · simp only [hle, if_true]
      refine ⟨_, rfl, ?_⟩
      rintro ⟨l, hl, hid, -, -⟩
      rw [List.mem_filter] at hl
      simp [hid] at hl
    · rw [if_neg hle]
      by_cases hg : JSNum.gt n (JSNum.fin d.quantityInStock) = true
      · simp only [hg, if_true]
        refine ⟨_, rfl, ?_⟩
        rintro ⟨l, hl, hid, hgt, -⟩
        rw [List.mem_map] at hl
        obtain ⟨l1, hl1, hl1eq⟩ := hl
        by_cases h1 : l1.id = d.id
        · simp only [h1, beq_self_eq_true, if_true] at hl1eq
          subst hl1eq
          rw [jsnum_gt_irrefl] at hgt
          exact Bool.noConfusion hgt
        · have hb : (l1.id == d.id) = false := by simpa using h1
          simp only [hb] at hl1eq
          subst hl1eq
          exact h1 hid
      · rw [if_neg hg]
        refine ⟨_, rfl, ?_⟩
        rintro ⟨l, hl, hid, hgt, -⟩
        rw [List.mem_map] at hl
        obtain ⟨l1, hl1, hl1eq⟩ := hl
        by_cases h1 : l1.id = d.id
        · simp only [h1, beq_self_eq_true, if_true] at hl1eq
          subst hl1eq
          exact hg hgt
        · have hb : (l1.id == d.id) = false := by simpa using h1
          simp only [hb] at hl1eq
          subst hl1eq
          exact h1 hid
  · unfold updateCartQuantity
    have hle : JSNum.le (JSNum.fin 0) (JSNum.fin 0) = true := by simp [JSNum.le]
    simp only [hle, if_true]
    refine ⟨_, rfl, ?_⟩
    intro l hl
    rw [List.mem_filter] at hl
    simpa using hl.2

/-! ## The prescription fill -/

/-- The stock check runs to its end exactly when every line passes. -/
theorem checkStock_eq_none_iff (inventory : List InventoryItem) (items : List PrescriptionItem) :
    checkStock inventory items = none ↔ ∀ item ∈ items, linePasses inventory item := by
  induction items with
  | nil => simp [checkStock]
  | cons item rest ih =>
    unfold checkStock
    cases hf : inventory.find? (fun d => d.id == item.drugId) with
    | none =>
      simp only [List.mem_cons, forall_eq_or_imp, linePasses, lookup, hf]
      simp
    | some drug =>
      simp only [List.mem_cons, forall_eq_or_imp, linePasses, lookup, hf, Option.some.injEq,
        exists_eq_left']
      by_cases hlt : drug.quantityInStock < item.quantity
      · simp only [hlt, if_true]
        constructor
        · intro h
          exact Option.noConfusion h
        · rintro ⟨hle, -⟩
          exact absurd hlt (not_lt.mpr hle)
      · simp only [hlt, if_false]
        rw [ih]
        constructor
        · intro h
          exact ⟨not_lt.mp hlt, h⟩
        · rintro ⟨-, h⟩
          exact h

/-- After a stock check that ran to its end, the inventory loop queues one update
per line, in line order, writing the snapshot's stock minus the line's quantity. -/
theorem fillUpdates_of_checkStock (appId u : String) (inventory : List InventoryItem)
    (items : List PrescriptionItem) (h : checkStock inventory items = none) :
    ∃ updates, fillUpdates appId u inventory items = some updates ∧
      List.Forall₂ (fun (w : Write) (item : PrescriptionItem) =>
        ∃ d, lookup inventory item.drugId = some d ∧ item.quantity ≤ d.quantityInStock ∧
          w = Write.updateStock
            { collectionPath := "artifacts/" ++ appId ++ "/users/" ++ u ++ "/inventory",
              id := item.drugId }
            (JSNum.fin (d.quantityInStock - item.quantity))) updates items := by
  induction items with
  | nil => exact ⟨[], rfl, List.Forall₂.nil⟩
  | cons item rest ih =>
    have hall := (checkStock_eq_none_iff inventory (item :: rest)).mp h
    have hrest : checkStock inventory rest = none :=
      (checkStock_eq_none_iff inventory rest).mpr (fun x hx => hall x (List.mem_cons_of_mem _ hx))
    obtain ⟨d, hd, hle⟩ := hall item (List.mem_cons_self _ _)
    obtain ⟨ws, hws, hf2⟩ := ih hrest
    have hd2 : inventory.find? (fun x => x.id == item.drugId) = some d := hd
    refine ⟨_ :: ws, ?_, List.Forall₂.cons ⟨d, hd, hle, rfl⟩ hf2⟩
    unfold fillUpdates
    simp only [hd2, hws]

/-- With an identity, `fillPrescription` hands a batch to `commit` exactly when the
stock check runs to its end; the batch is the stock updates, then the update of
the prescription. -/
theorem fillPrescription_batch (appId u : String) (inventory : List InventoryItem)
    (ext : Store) (prescription : Prescription) (hu : u ≠ "") :
    (checkStock inventory prescription.items = none →
      ∃ updates, fillUpdates appId u inventory prescription.items = some updates ∧
        (fillPrescription appId (some u) inventory ext prescription).batch
          = some (updates ++
              [Write.updateFilled
                { collectionPath := "artifacts/" ++ appId ++ "/users/" ++ u ++ "/prescriptions",
                  id := prescription.id } true ext.now])) ∧
    (∀ alert, checkStock inventory prescription.items = some alert →
      (fillPrescription appId (some u) inventory ext prescription).batch = none ∧
      (fillPrescription appId (some u) inventory ext prescription).alert = alert) := by
  constructor
  · intro h
    obtain ⟨ws, hws, -⟩ := fillUpdates_of_checkStock appId u inventory prescription.items h
    refine ⟨ws, hws, ?_⟩
    unfold fillPrescription
    simp only [beq_iff_eq, hu, if_false, h, hws]
    cases ext.commit _ <;> rfl
  · intro alert h
    unfold fillPrescription
    simp only [beq_iff_eq, hu, if_false, h, and_self]

/-- In the file as it stands `fillPrescription` hands no batch to `commit`,
whatever the identity, the snapshot, the store and the prescription. -/
theorem fillPrescriptionInScope_none_batch (userId : Option String)
    (inventory : List InventoryItem) (ext : Store) (prescription : Prescription) :
    (fillPrescriptionInScope none userId inventory ext prescription).batch = none := by
  unfold fillPrescriptionInScope
  cases userId with
  | none => rfl
  | some u =>
    simp only
    split
    · rfl
    · split <;> rfl

/-- C4 (fails on the code): an identity, a snapshot with 10 of drug A and 1 of drug
B, and a prescription for 3 of A and 1 of B.  Every line references a drug of
the snapshot with a stock at least its quantity and the stock check passes, yet
`fillPrescription` as it runs in `Prescriptions` ends in its `catch` at the
first document path (line 1222): no write is put into a batch. -/
theorem fillPrescription_passing_lines_no_write :
    (∀ item ∈ passingPrescription.items, linePasses [drugA, drugB] item) ∧
    checkStock [drugA, drugB] passingPrescription.items = none ∧
    (fillPrescriptionInScope none (some "u1") [drugA, drugB] acceptingStore
      passingPrescription).batch = none ∧
    (fillPrescriptionInScope none (some "u1") [drugA, drugB] acceptingStore
      passingPrescription).alert = Alert.fillError "appId is not defined" := by
  have hcheck : checkStock [drugA, drugB] passingPrescription.items = none := by decide!
  exact ⟨(checkStock_eq_none_iff _ _).mp hcheck, hcheck, by decide!, by decide!⟩

/-- Lines that pass are skipped by the stock check. -/
theorem checkStock_append (inventory : List InventoryItem) (pre rest : List PrescriptionItem)
    (hpre : ∀ x ∈ pre, linePasses inventory x) :
    checkStock inventory (pre ++ rest) = checkStock inventory rest := by
  induction pre with
  | nil => rfl
  | cons x xs ih =>
    obtain ⟨d, hd, hle⟩ := hpre x (List.mem_cons_self _ _)
    have hd2 : inventory.find? (fun y => y.id == x.drugId) = some d := hd
    have hnlt : ¬ d.quantityInStock < x.quantity := not_lt.mpr hle
    rw [List.cons_append, checkStock]
    simp only [hd2, hnlt, if_false]
    exact ih (fun y hy => hpre y (List.mem_cons_of_mem _ hy))

/-- C5: when `fillPrescription` fails validation, the failure it reports is that
of the first line, in item order, that fails: no batch exists, and the alert is
the not-found alert (with the line's drug name and id) if the line's drug id is
absent from the snapshot, otherwise the insufficient-stock alert naming the
snapshot's drug and carrying the line's quantity and the snapshot's stock. -/
theorem fillPrescription_first_failure (appId u : String) (inventory : List InventoryItem)
    (ext : Store) (prescription : Prescription) (pre post : List PrescriptionItem)
    (item : PrescriptionItem) (hu : u ≠ "")
    (hitems : prescription.items = pre ++ item :: post)
    (hpre : ∀ x ∈ pre, linePasses inventory x)
    (hfail : ¬ linePasses inventory item) :
    (fillPrescription appId (some u) inventory ext prescription).batch = none ∧
    (lookup inventory item.drugId = none →
      (fillPrescription appId (some u) inventory ext prescription).alert
        = Alert.itemNotFound item.drugName item.drugId) ∧
    (∀ d, lookup inventory item.drugId = some d →
      (fillPrescription appId (some u) inventory ext prescription).alert
        = Alert.notEnoughStock d.name item.quantity d.quantityInStock) := by
  obtain ⟨-, hbad⟩ := fillPrescription_batch appId u inventory ext prescription hu
  have hcs : checkStock inventory prescription.items = checkStock inventory (item :: post) := by
    rw [hitems]
    exact checkStock_append inventory pre (item :: post) hpre
  cases hf : lookup inventory item.drugId with
  | none =>
    have hf2 : inventory.find? (fun y => y.id == item.drugId) = none := hf
    have hc : checkStock inventory prescription.items
        = some (Alert.itemNotFound item.drugName item.drugId) := by
      rw [hcs, checkStock]
      simp only [hf2]
    refine ⟨(hbad _ hc).1, fun _ => (hbad _ hc).2, ?_⟩
    intro d hd
    exact Option.noConfusion hd
  | some d0 =>
    have hf2 : inventory.find? (fun y => y.id == item.drugId) = some d0 := hf
    have hlt : d0.quantityInStock < item.quantity := by
      by_contra hn
      exact hfail ⟨d0, hf, not_lt.mp hn⟩
    have hc : checkStock inventory prescription.items
        = some (Alert.notEnoughStock d0.name item.quantity d0.quantityInStock) := by
      rw [hcs, checkStock]
      simp only [hf2, hlt, if_true]
    refine ⟨(hbad _ hc).1, ?_, ?_⟩
    · intro hn
      exact Option.noConfusion hn
    · intro d hd
      injection hd with hd
      subst hd
      exact (hbad _ hc).2

/-- C5, on the scenario: drug A (stock 10, need 3) passes, drug B (stock 1, need 2)
fails; the fill reports insufficient stock for drug B, required 2, available 1,
and no batch exists, so the stock of drug A stays 10. -/
theorem fillPrescription_first_failure_witness :
    (fillPrescription "rxoptima-app" (some "u1") [drugA, drugB] acceptingStore
      scenarioPrescription).alert = Alert.notEnoughStock "Drug B" 2 1 ∧
    (fillPrescription "rxoptima-app" (some "u1") [drugA, drugB] acceptingStore
      scenarioPrescription).batch = none ∧
    applyBatch "artifacts/rxoptima-app/users/u1/inventory" (stockTable [drugA, drugB])
      ((fillPrescription "rxoptima-app" (some "u1") [drugA, drugB] acceptingStore
        scenarioPrescription).batch.getD [])
      = [("A", JSNum.fin 10), ("B", JSNum.fin 1)] := by
  have hpassA : ∀ x ∈ [({ drugId := "A", dosage := "", quantity := 3, drugName := "Drug A" } :
      PrescriptionItem)], linePasses [drugA, drugB] x := by
    intro x hx
    rw [List.mem_singleton] at hx
    subst hx
    exact ⟨drugA, by decide!, by norm_num [drugA]⟩
  have hlookB : lookup [drugA, drugB]
      ({ drugId := "B", dosage := "", quantity := 2, drugName := "Drug B" } :
        PrescriptionItem).drugId = some drugB := by decide!
  have hfailB : ¬ linePasses [drugA, drugB]
      { drugId := "B", dosage := "", quantity := 2, drugName := "Drug B" } := by
    rintro ⟨d, hd, hle⟩
    rw [hlookB] at hd
    injection hd with hd
    subst hd
    norm_num [drugB] at hle
  obtain ⟨hb, -, ha⟩ := fillPrescription_first_failure "rxoptima-app" "u1" [drugA, drugB]
    acceptingStore scenarioPrescription
    [{ drugId := "A", dosage := "", quantity := 3, drugName := "Drug A" }] []
    { drugId := "B", dosage := "", quantity := 2, drugName := "Drug B" }
    (by decide) rfl hpassA hfailB
  refine ⟨ha drugB hlookB, hb, ?_⟩
  rw [hb]
  decide!

/-- C7 (fails on the code): a snapshot with 10 of drug A and a prescription for all
10.  The line's quantity equals the stock and the check accepts it, but
`fillPrescription` as it runs in `Prescriptions` ends in its `catch` at line
1222 before `batch.update` (line 1225): no `quantityInStock` is queued, so the 0
of the claim is not written. -/
theorem fillPrescription_exact_stock_no_write :
    checkStock [drugA, drugB] exactPrescription.items = none ∧
    (fillPrescriptionInScope none (some "u1") [drugA, drugB] acceptingStore
      exactPrescription).batch = none ∧
    stockWrites ((fillPrescriptionInScope none (some "u1") [drugA, drugB] acceptingStore
      exactPrescription).batch.getD []) = [] ∧
    (fillPrescriptionInScope none (some "u1") [drugA, drugB] acceptingStore
      exactPrescription).alert = Alert.fillError "appId is not defined" := by
  refine ⟨by decide!, by decide!, by decide!, by decide!⟩

/-- C6 (fails on the code): a snapshot with 2 of drug A and a prescription with two
lines for drug A, of 2 and 1 units.  Each line passes the check on its own,
though 3 units are asked of a stock of 2; `fillPrescription` as it runs in
`Prescriptions` then ends in its `catch` at line 1222 in the first iteration:
no batch exists, and the store's stock of drug A stays 2. -/
theorem fillPrescription_no_decrement :
    checkStock [drugALow] duplicatePrescription.items = none ∧
    requested duplicatePrescription.items "A" = 3 ∧
    stockOf [drugALow] "A" = 2 ∧
    (fillPrescriptionInScope none (some "u1") [drugALow] acceptingStore
      duplicatePrescription).batch = none ∧
    (fillPrescriptionInScope none (some "u1") [drugALow] acceptingStore
      duplicatePrescription).alert = Alert.fillError "appId is not defined" ∧
    applyBatch "artifacts/rxoptima-app/users/u1/inventory" (stockTable [drugALow])
      ((fillPrescriptionInScope none (some "u1") [drugALow] acceptingStore
        duplicatePrescription).batch.getD [])
      = [("A", JSNum.fin 2)] := by
  refine ⟨by decide!, by decide!, by decide!, by decide!, by decide!, by decide!⟩

theorem requested_cons (item : PrescriptionItem) (rest : List PrescriptionItem) (id : String) :
    requested (item :: rest) id
      = (if item.drugId = id then item.quantity else 0) + requested rest id := by
  unfold requested
  by_cases h : item.drugId = id
  · simp [List.filter_cons, h]
  · simp [List.filter_cons, h]

theorem requested_eq_zero (rest : List PrescriptionItem) (id : String)
    (h : id ∉ rest.map (fun item => item.drugId)) : requested rest id = 0 := by
  unfold requested
  have hf : rest.filter (fun item => item.drugId == id) = [] := by
    rw [List.filter_eq_nil_iff]
    intro x hx hxid
    apply h
    rw [List.mem_map]
    exact ⟨x, hx, by simpa using hxid⟩
  rw [hf]
  rfl

/-- Applying the fill's stock updates for lines with pairwise distinct drug ids:
every document a line references ends at the snapshot's stock minus the quantity
requested for it, every other document keeps its value. -/
theorem applyBatch_fill_updates (appId u : String) (inventory : List InventoryItem)
    (items : List PrescriptionItem) (updates : List Write)
    (hall : List.Forall₂ (fun (w : Write) (item : PrescriptionItem) =>
        ∃ d, lookup inventory item.drugId = some d ∧ item.quantity ≤ d.quantityInStock ∧
          w = Write.updateStock
            { collectionPath := "artifacts/" ++ appId ++ "/users/" ++ u ++ "/inventory",
              id := item.drugId }
            (JSNum.fin (d.quantityInStock - item.quantity))) updates items)
    (hnodup : (items.map (fun item => item.drugId)).Nodup) (docs : List (String × JSNum)) :
    applyBatch ("artifacts/" ++ appId ++ "/users/" ++ u ++ "/inventory") docs updates
      = docs.map (fun doc =>
          if doc.1 ∈ items.map (fun item => item.drugId) then
            (doc.1, JSNum.fin (stockOf inventory doc.1 - requested items doc.1))
          else doc) := by
  induction hall generalizing docs with
  | nil => simp [applyBatch]
  | @cons w item ws rest hhead _ ih =>
    obtain ⟨d, hd, -, hw⟩ := hhead
    subst hw
    rw [List.map_cons, List.nodup_cons] at hnodup
    obtain ⟨hnot, hnd⟩ := hnodup
    have hstep : applyBatch ("artifacts/" ++ appId ++ "/users/" ++ u ++ "/inventory") docs
        (Write.updateStock
          { collectionPath := "artifacts/" ++ appId ++ "/users/" ++ u ++ "/inventory",
            id := item.drugId } (JSNum.fin (d.quantityInStock - item.quantity)) :: ws)
        = applyBatch ("artifacts/" ++ appId ++ "/users/" ++ u ++ "/inventory")
            (docs.map (fun doc =>
              if doc.1 == item.drugId then
                (doc.1, JSNum.fin (d.quantityInStock - item.quantity)) else doc)) ws := by
      simp [applyBatch, applyWrite]
    rw [hstep, ih hnd, List.map_map]
    apply List.map_congr_left
    intro doc _
    obtain ⟨id, v⟩ := doc
    by_cases hdoc : id = item.drugId
    · subst hdoc
      have hreq : requested rest item.drugId = 0 := requested_eq_zero rest item.drugId hnot
      have hso : stockOf inventory item.drugId = d.quantityInStock := by
        simp [stockOf, hd]
      have hmem : item.drugId ∈ item.drugId :: rest.map (fun item => item.drugId) :=
        List.mem_cons_self _ _
      simp only [Function.comp, beq_self_eq_true, if_true, if_neg hnot, List.map_cons,
        if_pos hmem, requested_cons, hreq, hso, add_zero]
    · have hne : ¬ item.drugId = id := fun h => hdoc h.symm
      have hb : (id == item.drugId) = false := by simpa using hdoc
      simp only [Function.comp, hb, List.map_cons, List.mem_cons, hdoc, false_or,
        requested_cons, hne, if_false, zero_add, Bool.false_eq_true]

/-- For a prescription whose lines reference pairwise distinct drugs and pass the
stock check, applying the batch of `fillPrescription` to the snapshot's stock
table decrements every referenced record by the quantity of its line and leaves
every other record unchanged. -/
theorem fillPrescription_distinct_lines (appId u : String) (inventory : List InventoryItem)
    (ext : Store) (prescription : Prescription) (hu : u ≠ "")
    (hpass : checkStock inventory prescription.items = none)
    (hnodup : (prescription.items.map (fun item => item.drugId)).Nodup) :
    ∃ b, (fillPrescription appId (some u) inventory ext prescription).batch = some b ∧
      applyBatch ("artifacts/" ++ appId ++ "/users/" ++ u ++ "/inventory") (stockTable inventory) b
        = (stockTable inventory).map (fun doc =>
            if doc.1 ∈ prescription.items.map (fun item => item.drugId) then
              (doc.1, JSNum.fin (stockOf inventory doc.1 - requested prescription.items doc.1))
            else doc) := by
  obtain ⟨ws, hws, hb⟩ := (fillPrescription_batch appId u inventory ext prescription hu).1 hpass
  obtain ⟨ws2, hws2, hall⟩ := fillUpdates_of_checkStock appId u inventory prescription.items hpass
  rw [hws] at hws2
  injection hws2 with hws2
  subst hws2
  refine ⟨_, hb, ?_⟩
  have happ : applyBatch ("artifacts/" ++ appId ++ "/users/" ++ u ++ "/inventory")
      (stockTable inventory)
      (ws ++ [Write.updateFilled
        { collectionPath := "artifacts/" ++ appId ++ "/users/" ++ u ++ "/prescriptions",
          id := prescription.id } true ext.now])
      = applyBatch ("artifacts/" ++ appId ++ "/users/" ++ u ++ "/inventory")
          (stockTable inventory) ws := by
    simp [applyBatch, List.foldl_append, applyWrite]
  rw [happ]
  exact applyBatch_fill_updates appId u inventory prescription.items ws hall hnodup _

/-! ## Reachable carts -/

theorem natStock_singleton (d : InventoryItem) (n : ℕ) (h : d.quantityInStock = n) :
    NatStock [d] := by
  intro x hx
  rw [List.mem_singleton] at hx
  subst hx
  exact ⟨n, h⟩

/-- C11 (fails on the code): two carts the component can hold with a line whose
quantity is not a positive integer.  Drug B is added while its stock is 1; once
the snapshot shows stock 0, asking for 2 units clamps the quantity to 0 and the
line stays in the cart.  And clearing the quantity field hands NaN to
`updateCartQuantity`, which fails both comparisons and becomes the quantity. -/
theorem reachable_quantity_not_positive :
    (ReachableCart clampedCart ∧ ∃ l ∈ clampedCart, ¬ IsPositiveInt l.quantity) ∧
    (ReachableCart nanCart ∧ ∃ l ∈ nanCart, ¬ IsPositiveInt l.quantity) := by
  have hB : NatStock [drugB] := natStock_singleton drugB 1 (by norm_num [drugB])
  have h0 : NatStock [drugBSoldOut] :=
    natStock_singleton drugBSoldOut 0 (by norm_num [drugBSoldOut])
  have h1 : ReachableCart (addToCart [] drugB).1 :=
    ReachableCart.add [drugB] drugB ReachableCart.empty hB (List.mem_singleton.mpr rfl)
  have hc : updateCartQuantity [drugBSoldOut] (addToCart [] drugB).1 "B" (JSNum.fin 2)
      = some (clampedCart, some (Alert.onlyInStock 0)) := by decide!
  have hn : updateCartQuantity [drugB] (addToCart [] drugB).1 "B" JSNum.nan
      = some (nanCart, none) := by decide!
  refine ⟨⟨?_, ?_⟩, ⟨?_, ?_⟩⟩
  · exact ReachableCart.update [drugBSoldOut] "B" (JSNum.fin 2) (clampedCart, _) h1 h0
      (Or.inr ⟨2, by norm_num⟩) hc
  · refine ⟨_, List.mem_singleton.mpr rfl, ?_⟩
    rintro ⟨z, hz, hq⟩
    have hq2 : (0 : ℚ) = (z : ℚ) := by
      have := hq
      simp only [JSNum.fin.injEq] at this
      exact this
    have : z = 0 := by exact_mod_cast hq2.symm
    omega
  · exact ReachableCart.update [drugB] "B" JSNum.nan (nanCart, none) h1 hB (Or.inl rfl) hn
  · refine ⟨_, List.mem_singleton.mpr rfl, ?_⟩
    rintro ⟨z, -, hq⟩
    exact JSNum.noConfusion hq

/-- Every line of every cart the component can hold has a quantity that is NaN or
a non-negative integer. -/
theorem reachable_quantity_nan_or_nat (cart : List CartLine) (h : ReachableCart cart) :
    ∀ l ∈ cart, l.quantity = JSNum.nan ∨ ∃ n : ℕ, l.quantity = JSNum.fin n := by
  induction h with
  | empty => intro l hl; simp at hl
  | @add cart inventory drug _ hnat hmem ih =>
    unfold addToCart
    split
    · exact ih
    · split
      · split
        · exact ih
        · intro l hl
          rw [List.mem_map] at hl
          obtain ⟨l1, hl1, rfl⟩ := hl
          split
          · rcases ih l1 hl1 with hq | ⟨n, hq⟩
            · left
              simp [hq, JSNum.add]
            · right
              refine ⟨n + 1, ?_⟩
              simp [hq, JSNum.add]
          · exact ih l1 hl1
      · intro l hl
        rw [List.mem_append, List.mem_singleton] at hl
        rcases hl with hl | hl
        · exact ih l hl
        · subst hl
          exact Or.inr ⟨1, by simp⟩
  | @update cart inventory drugId newQuantity result _ hnat hparse hres ih =>
    unfold updateCartQuantity at hres
    dsimp only at hres
    split at hres
    · injection hres with hres
      subst hres
      intro l hl
      exact ih l (List.mem_of_mem_filter hl)
    · next hle =>
      split at hres
      · exact Option.noConfusion hres
      · next d hd =>
        have hdmem : d ∈ inventory := List.mem_of_find?_eq_some hd
        obtain ⟨s, hs⟩ := hnat d hdmem
        split at hres
        · injection hres with hres
          subst hres
          intro l hl
          rw [List.mem_map] at hl
          obtain ⟨l1, hl1, rfl⟩ := hl
          split
          · exact Or.inr ⟨s, by simp [hs]⟩
          · exact ih l1 hl1
        · injection hres with hres
          subst hres
          intro l hl
          rw [List.mem_map] at hl
          obtain ⟨l1, hl1, rfl⟩ := hl
          split
          · rcases hparse with hq | ⟨z, hq⟩
            · exact Or.inl hq
            · right
              subst hq
              have hz : 0 < z := by
                by_contra hc
                apply hle
                simp only [JSNum.le, decide_eq_true_eq]
                exact_mod_cast not_lt.mp hc
              refine ⟨z.toNat, ?_⟩
              simp only [JSNum.fin.injEq]
              have : ((z.toNat : ℤ) : ℚ) = (z : ℚ) := by
                rw [Int.toNat_of_nonneg hz.le]
              exact_mod_cast this.symm
          · exact ih l1 hl1

/-! ## The cart operations against the specification's definitions -/

theorem find_eq_lineFor (cart : List CartLine) (id : String) :
    cart.find? (fun item => item.id == id) = lineFor cart id := by
  induction cart with
  | nil => rfl
  | cons l rest ih =>
    by_cases h : l.id = id
    · simp [List.find?_cons, lineFor, h]
    · have hb : (l.id == id) = false := by simpa using h
      simp [List.find?_cons, lineFor, h, hb, ih]

theorem map_eq_incrementLine (cart : List CartLine) (id : String) :
    cart.map (fun item =>
      if item.id == id then { item with quantity := item.quantity.add (JSNum.fin 1) } else item)
      = incrementLine cart id := by
  induction cart with
  | nil => rfl
  | cons l rest ih =>
    by_cases h : l.id = id
    · simp [incrementLine, h, ← ih]
    · simp [incrementLine, h, ← ih]

theorem filter_eq_removeLine (cart : List CartLine) (id : String) :
    cart.filter (fun item => item.id != id) = removeLine cart id := by
  induction cart with
  | nil => rfl
  | cons l rest ih =>
    by_cases h : l.id = id
    · simp [List.filter_cons, removeLine, h, ← ih]
    · simp [List.filter_cons, removeLine, h, ← ih]

theorem map_eq_setLineQuantity (cart : List CartLine) (id : String) (q : JSNum) :
    cart.map (fun item => if item.id == id then { item with quantity := q } else item)
      = setLineQuantity cart id q := by
  induction cart with
  | nil => rfl
  | cons l rest ih =>
    by_cases h : l.id = id
    · simp [setLineQuantity, h, ← ih]
    · simp [setLineQuantity, h, ← ih]

/-- Incrementing keeps every line in place: a line for `id` gains exactly 1, every
other line is the line it was. -/
theorem incrementLine_in_place (cart : List CartLine) (id : String) :
    List.Forall₂ (fun (after before : CartLine) =>
      (before.id = id →
        after = { before with quantity := before.quantity.add (JSNum.fin 1) }) ∧
      (before.id ≠ id → after = before)) (incrementLine cart id) cart := by
  induction cart with
  | nil => exact List.Forall₂.nil
  | cons l rest ih =>
    refine List.Forall₂.cons ⟨?_, ?_⟩ ih
    · intro h
      simp [h]
    · intro h
      simp [h]

/-- Setting a quantity keeps every line in place: a line for `id` gets exactly
`q`, every other line is the line it was. -/
theorem setLineQuantity_in_place (cart : List CartLine) (id : String) (q : JSNum) :
    List.Forall₂ (fun (after before : CartLine) =>
      (before.id = id → after = { before with quantity := q }) ∧
      (before.id ≠ id → after = before)) (setLineQuantity cart id q) cart := by
  induction cart with
  | nil => exact List.Forall₂.nil
  | cons l rest ih =>
    refine List.Forall₂.cons ⟨?_, ?_⟩ ih
    · intro h
      simp [h]
    · intro h
      simp [h]

/-- Without rounding, `addToCart cart drug` is the specification's definition, and
in the increment case the result is the cart line by line, the drug's line
gaining exactly 1. -/
theorem addToCart_eq_addToCartSpec (cart : List CartLine) (drug : InventoryItem) :
    addToCart cart drug = addToCartSpec cart drug ∧
    (∀ line, ¬ drug.quantityInStock ≤ 0 → lineFor cart drug.id = some line →
      JSNum.gt (line.quantity.add (JSNum.fin 1)) (JSNum.fin drug.quantityInStock) = false →
      (addToCart cart drug).2 = none ∧
      List.Forall₂ (fun (after before : CartLine) =>
        (before.id = drug.id →
          after = { before with quantity := before.quantity.add (JSNum.fin 1) }) ∧
        (before.id ≠ drug.id → after = before)) (addToCart cart drug).1 cart) := by
  have heq : addToCart cart drug = addToCartSpec cart drug := by
    unfold addToCart addToCartSpec
    rw [find_eq_lineFor, map_eq_incrementLine]
  refine ⟨heq, ?_⟩
  intro line hs hl hg
  rw [heq]
  unfold addToCartSpec
  simp only [hs, if_false, hl, hg, Bool.false_eq_true, true_and]
  exact incrementLine_in_place cart drug.id

/-- Where the engine computes `quantity + 1` without rounding on every line of the
drug, `addToCart` in the engine's arithmetic is `addToCart` without rounding. -/
theorem addToCartWith_of_exact (ops : NumberOps) (cart : List CartLine) (drug : InventoryItem)
    (hexact : ∀ l ∈ cart, l.id = drug.id →
      ops.add l.quantity (JSNum.fin 1) = l.quantity.add (JSNum.fin 1)) :
    addToCartWith ops cart drug = addToCart cart drug := by
  have hmap : cart.map (fun item =>
        if item.id == drug.id then { item with quantity := ops.add item.quantity (JSNum.fin 1) }
        else item)
      = cart.map (fun item =>
        if item.id == drug.id then { item with quantity := item.quantity.add (JSNum.fin 1) }
        else item) := by
    apply List.map_congr_left
    intro l hl
    by_cases hid : l.id = drug.id
    · simp only [hid, beq_self_eq_true, if_true, hexact l hl hid]
    · have hb : (l.id == drug.id) = false := by simpa using hid
      simp only [hb, Bool.false_eq_true, if_false]
  unfold addToCartWith addToCart
  rw [hmap]
  cases hf : cart.find? (fun item => item.id == drug.id) with
  | none => rfl
  | some e =>
    have hp := List.find?_some hf
    have hid : e.id = drug.id := by simpa using hp
    simp only [hexact e (List.mem_of_find?_eq_some hf) hid]

/-- C12 (as stated, fails): a cart whose line for the drug holds quantity 2 ^ 53,
the drug stocked at 2 ^ 53.  In the engine `quantity + 1` rounds back to 2 ^ 53,
which is not greater than the stock: `addToCart` raises no notice and stores
2 ^ 53 again, incrementing nothing, while by the definition quantity + 1 exceeds
the stock and a notice is raised. -/
theorem addToCart_rounds_at_two_pow_53 :
    addToCartWith ieeeOps bigCart bigDrug = (bigCart, none) ∧
    addToCartSpec bigCart bigDrug
      = (bigCart, some (Alert.onlyInStock 9007199254740992)) ∧
    addToCartWith ieeeOps bigCart bigDrug ≠ addToCartSpec bigCart bigDrug := by
  have hadd : ieeeOps.add (JSNum.fin 9007199254740992) (JSNum.fin 1)
      = JSNum.fin 9007199254740992 := by
    have hr := round64_two_pow_53_add_one
    norm_num at hr
    simp only [ieeeOps, JSNum.add, JSNum.round]
    norm_num
    exact hr
  have hcode : addToCartWith ieeeOps bigCart bigDrug = (bigCart, none) := by
    have hs : ¬ bigDrug.quantityInStock ≤ 0 := by norm_num [bigDrug]
    have hf : bigCart.find? (fun item => item.id == bigDrug.id)
        = some { toInventoryItem := bigDrug, quantity := JSNum.fin 9007199254740992 } := by
      decide!
    unfold addToCartWith
    rw [if_neg hs, hf]
    simp only [hadd]
    have hg : JSNum.gt (JSNum.fin 9007199254740992) (JSNum.fin bigDrug.quantityInStock)
        = false := by decide!
    simp only [hg, Bool.false_eq_true, if_false]
    simp only [bigCart, List.map_cons, List.map_nil, hadd]
    decide!
  have hspec : addToCartSpec bigCart bigDrug
      = (bigCart, some (Alert.onlyInStock 9007199254740992)) := by decide!
  refine ⟨hcode, hspec, ?_⟩
  rw [hcode, hspec]
  decide!

/-- C12 (amended): wherever the engine computes `quantity + 1` without rounding on
the lines of the drug (in binary64, on every natural quantity below 2 ^ 53),
`addToCart cart drug` equals the specification's definition: out of stock
(`quantityInStock ≤ 0`), the cart is unchanged and the out-of-stock notice is
raised; else a line with the drug's id exists and its quantity + 1 exceeds the
stock of the drug passed in, the cart is unchanged and a notice is raised; else
a line exists, its quantity is incremented by exactly 1 and every other line is
unchanged and in place; else a new line with quantity 1 is appended at the end. -/
theorem addToCart_eq_spec (ops : NumberOps) (cart : List CartLine) (drug : InventoryItem)
    (hexact : ∀ l ∈ cart, l.id = drug.id →
      ops.add l.quantity (JSNum.fin 1) = l.quantity.add (JSNum.fin 1)) :
    addToCartWith ops cart drug = addToCartSpec cart drug ∧
    (∀ line, ¬ drug.quantityInStock ≤ 0 → lineFor cart drug.id = some line →
      JSNum.gt (line.quantity.add (JSNum.fin 1)) (JSNum.fin drug.quantityInStock) = false →
      (addToCartWith ops cart drug).2 = none ∧
      List.Forall₂ (fun (after before : CartLine) =>
        (before.id = drug.id →
          after = { before with quantity := before.quantity.add (JSNum.fin 1) }) ∧
        (before.id ≠ drug.id → after = before)) (addToCartWith ops cart drug).1 cart) := by
  rw [addToCartWith_of_exact ops cart drug hexact]
  exact addToCart_eq_addToCartSpec cart drug

/-- C12 (amended), on the sample cart in binary64 arithmetic: adding drug A (stock
10) raises its line from 3 to 4 and leaves the line of drug B as it was. -/
theorem addToCart_eq_spec_witness :
    addToCartWith ieeeOps sampleCart drugA
      = ([{ toInventoryItem := drugA, quantity := JSNum.fin 4 },
          { toInventoryItem := drugB, quantity := JSNum.fin 1 }], none) := by
  have hexact : ∀ l ∈ sampleCart, l.id = drugA.id →
      ieeeOps.add l.quantity (JSNum.fin 1) = l.quantity.add (JSNum.fin 1) := by
    intro l hl _
    simp only [sampleCart, List.mem_cons, List.mem_singleton, List.not_mem_nil, or_false] at hl
    rcases hl with hl | hl
    · subst hl
      exact ieeeOps_add_one 3 (by norm_num)
    · subst hl
      exact ieeeOps_add_one 1 (by norm_num)
  rw [(addToCart_eq_spec ieeeOps sampleCart drugA hexact).1]
  decide!

/-- C13: for every cart, every id the snapshot holds with stock `s` and every
integer `n`, `updateCartQuantity id n` completes and equals the specification's
definition: `n ≤ 0` removes the line for `id`, the other lines keeping their
order and contents; `n > s` sets the line's quantity to exactly `s` and raises a
notice; otherwise the line's quantity becomes exactly `n`; in the last two
cases no line is added or removed and every other line is unchanged. -/
theorem updateCartQuantity_eq_spec (inventory : List InventoryItem) (cart : List CartLine)
    (id : String) (d : InventoryItem) (n : ℤ) (hd : lookup inventory id = some d) :
    updateCartQuantity inventory cart id (JSNum.fin n)
      = some (updateCartQuantitySpec cart id d.quantityInStock n) ∧
    (n ≤ 0 →
      (∀ l ∈ (updateCartQuantitySpec cart id d.quantityInStock n).1, l.id ≠ id) ∧
      (updateCartQuantitySpec cart id d.quantityInStock n).1.Sublist cart ∧
      (∀ l ∈ cart, l.id ≠ id → l ∈ (updateCartQuantitySpec cart id d.quantityInStock n).1)) ∧
    (0 < n →
      List.Forall₂ (fun (after before : CartLine) =>
        (before.id = id → after = { before with quantity :=
          if d.quantityInStock < (n : ℚ) then JSNum.fin d.quantityInStock else JSNum.fin n }) ∧
        (before.id ≠ id → after = before))
        (updateCartQuantitySpec cart id d.quantityInStock n).1 cart) := by
  have hd2 : inventory.find? (fun x => x.id == id) = some d := hd
  refine ⟨?_, ?_, ?_⟩
  · unfold updateCartQuantity updateCartQuantitySpec
    simp only [hd2]
    by_cases hn : n ≤ 0
    · have hle : JSNum.le (JSNum.fin n) (JSNum.fin 0) = true := by
        simp only [JSNum.le, decide_eq_true_eq]
        exact_mod_cast hn
      simp only [hle, hn, if_true, filter_eq_removeLine]
    · have hle : ¬ JSNum.le (JSNum.fin n) (JSNum.fin 0) = true := by
        simp only [JSNum.le, decide_eq_true_eq]
        exact_mod_cast hn
      rw [if_neg hle, if_neg hn]
      by_cases hs : d.quantityInStock < (n : ℚ)
      · have hg : JSNum.gt (JSNum.fin n) (JSNum.fin d.quantityInStock) = true := by
          simp only [JSNum.gt, decide_eq_true_eq]
          exact hs
        simp only [hg, hs, if_true, map_eq_setLineQuantity]
      · have hg : ¬ JSNum.gt (JSNum.fin n) (JSNum.fin d.quantityInStock) = true := by
          simp only [JSNum.gt, decide_eq_true_eq]
          exact hs
        rw [if_neg hg, if_neg hs, map_eq_setLineQuantity]
  · intro hn
    unfold updateCartQuantitySpec
    simp only [hn, if_true]
    rw [← filter_eq_removeLine]
    refine ⟨?_, List.filter_sublist _, ?_⟩
    · intro l hl
      rw [List.mem_filter] at hl
      simpa using hl.2
    · intro l hl hne
      rw [List.mem_filter]
      exact ⟨hl, by simpa using hne⟩
  · intro hn
    have hn2 : ¬ n ≤ 0 := not_le.mpr hn
    unfold updateCartQuantitySpec
    rw [if_neg hn2]
    by_cases hs : d.quantityInStock < (n : ℚ)
    · simp only [hs, if_true]
      exact setLineQuantity_in_place cart id _
    · simp only [hs, if_false]
      exact setLineQuantity_in_place cart id _

/-- C13, on the sample cart with drug A at stock 10: asking for 20 clamps the line
to 10 with a notice, asking for 4 sets it to 4, asking for 0 removes it. -/
theorem updateCartQuantity_eq_spec_witness :
    updateCartQuantity [drugA, drugB] sampleCart "A" (JSNum.fin 20)
      = some ([{ toInventoryItem := drugA, quantity := JSNum.fin 10 },
               { toInventoryItem := drugB, quantity := JSNum.fin 1 }],
              some (Alert.onlyInStock 10)) ∧
    updateCartQuantity [drugA, drugB] sampleCart "A" (JSNum.fin 4)
      = some ([{ toInventoryItem := drugA, quantity := JSNum.fin 4 },
               { toInventoryItem := drugB, quantity := JSNum.fin 1 }], none) ∧
    updateCartQuantity [drugA, drugB] sampleCart "A" (JSNum.fin 0)
      = some ([{ toInventoryItem := drugB, quantity := JSNum.fin 1 }], none) := by
  have h20 := (updateCartQuantity_eq_spec [drugA, drugB] sampleCart "A" drugA 20 (by decide!)).1
  have h4 := (updateCartQuantity_eq_spec [drugA, drugB] sampleCart "A" drugA 4 (by decide!)).1
  have h0 := (updateCartQuantity_eq_spec [drugA, drugB] sampleCart "A" drugA 0 (by decide!)).1
  refine ⟨?_, ?_, ?_⟩
  · rw [show (JSNum.fin 20) = JSNum.fin ((20 : ℤ) : ℚ) by norm_num, h20]
    decide!
  · rw [show (JSNum.fin 4) = JSNum.fin ((4 : ℤ) : ℚ) by norm_num, h4]
    decide!
  · rw [show (JSNum.fin 0) = JSNum.fin ((0 : ℤ) : ℚ) by norm_num, h0]
    decide!

/-! ## The sale scenario -/

/-- The engine's `quantity + 1` on a cart line is exact below 2 ^ 53. -/
theorem addToCartWith_ieee_small (cart : List CartLine) (drug : InventoryItem)
    (hsmall : ∀ l ∈ cart, ∃ n : ℕ, n < 2 ^ 53 ∧ l.quantity = JSNum.fin n) :
    addToCartWith ieeeOps cart drug = addToCart cart drug := by
  apply addToCartWith_of_exact
  intro l hl _
  obtain ⟨n, hn, hq⟩ := hsmall l hl
  rw [hq]
  exact ieeeOps_add_one n hn

/-- One add of the scenario's item on a cart holding `k` units of it, in the
engine's arithmetic: the sum is exact for `k` below 2 ^ 53. -/
theorem scenario_step (k : ℕ) (hk : k < 2 ^ 53) :
    addToCartWith ieeeOps [{ toInventoryItem := scenarioDrug, quantity := JSNum.fin k }]
        scenarioDrug
      = addToCart [{ toInventoryItem := scenarioDrug, quantity := JSNum.fin k }] scenarioDrug :=
  addToCartWith_ieee_small _ scenarioDrug (by
    intro l hl
    rw [List.mem_singleton] at hl
    subst hl
    exact ⟨k, hk, rfl⟩)

/-- The carts of the scenario: the line's quantity after 0 to 7 adds is 1, 2, 3,
4, 5, 5 and 5. -/
theorem scenario_carts :
    addTimesWith ieeeOps 3 [] scenarioDrug
      = [{ toInventoryItem := scenarioDrug, quantity := JSNum.fin 3 }] ∧
    addTimesWith ieeeOps 4 [] scenarioDrug
      = [{ toInventoryItem := scenarioDrug, quantity := JSNum.fin 4 }] ∧
    addTimesWith ieeeOps 5 [] scenarioDrug
      = [{ toInventoryItem := scenarioDrug, quantity := JSNum.fin 5 }] ∧
    addTimesWith ieeeOps 6 [] scenarioDrug
      = [{ toInventoryItem := scenarioDrug, quantity := JSNum.fin 5 }] ∧
    addTimesWith ieeeOps 7 [] scenarioDrug
      = [{ toInventoryItem := scenarioDrug, quantity := JSNum.fin 5 }] := by
  have s1 := scenario_step 1 (by norm_num)
  have s2 := scenario_step 2 (by norm_num)
  have s3 := scenario_step 3 (by norm_num)
  have s4 := scenario_step 4 (by norm_num)
  have s5 := scenario_step 5 (by norm_num)
  norm_num at s1 s2 s3 s4 s5
  have e1 : addTimesWith ieeeOps 1 [] scenarioDrug
      = [{ toInventoryItem := scenarioDrug, quantity := JSNum.fin 1 }] := by decide!
  have e2 : addTimesWith ieeeOps 2 [] scenarioDrug
      = [{ toInventoryItem := scenarioDrug, quantity := JSNum.fin 2 }] := by
    show (addToCartWith ieeeOps (addTimesWith ieeeOps 1 [] scenarioDrug) scenarioDrug).1 = _
    rw [e1, s1]
    decide!
  have e3 : addTimesWith ieeeOps 3 [] scenarioDrug
      = [{ toInventoryItem := scenarioDrug, quantity := JSNum.fin 3 }] := by
    show (addToCartWith ieeeOps (addTimesWith ieeeOps 2 [] scenarioDrug) scenarioDrug).1 = _
    rw [e2, s2]
    decide!
  have e4 : addTimesWith ieeeOps 4 [] scenarioDrug
      = [{ toInventoryItem := scenarioDrug, quantity := JSNum.fin 4 }] := by
    show (addToCartWith ieeeOps (addTimesWith ieeeOps 3 [] scenarioDrug) scenarioDrug).1 = _
    rw [e3, s3]
    decide!
  have e5 : addTimesWith ieeeOps 5 [] scenarioDrug
      = [{ toInventoryItem := scenarioDrug, quantity := JSNum.fin 5 }] := by
    show (addToCartWith ieeeOps (addTimesWith ieeeOps 4 [] scenarioDrug) scenarioDrug).1 = _
    rw [e4, s4]
    decide!
  have e6 : addTimesWith ieeeOps 6 [] scenarioDrug
      = [{ toInventoryItem := scenarioDrug, quantity := JSNum.fin 5 }] := by
    show (addToCartWith ieeeOps (addTimesWith ieeeOps 5 [] scenarioDrug) scenarioDrug).1 = _
    rw [e5, s5]
    decide!
  have e7 : addTimesWith ieeeOps 7 [] scenarioDrug
      = [{ toInventoryItem := scenarioDrug, quantity := JSNum.fin 5 }] := by
    show (addToCartWith ieeeOps (addTimesWith ieeeOps 6 [] scenarioDrug) scenarioDrug).1 = _
    rw [e6, s5]
    decide!
  exact ⟨e3, e4, e5, e6, e7⟩

/-- C14 (as stated, fails): after adding the scenario's item (stock 5, unit price
100) 3 times and then 4 more times, the cart line does not hold quantity 3: it
holds 5. -/
theorem scenario_not_three :
    addTimesWith ieeeOps 7 [] scenarioDrug
      = [{ toInventoryItem := scenarioDrug, quantity := JSNum.fin 5 }] ∧
    addTimesWith ieeeOps 7 [] scenarioDrug
      ≠ [{ toInventoryItem := scenarioDrug, quantity := JSNum.fin 3 }] := by
  have hcart := scenario_carts.2.2.2.2
  refine ⟨hcart, ?_⟩
  rw [hcart]
  decide!

/-- C14 (amended): starting from an empty cart and an item with stock 5 and unit
price 100, three adds give a line of quantity 3; of four further adds the first
two are accepted (quantity 4, then 5) and the last two are rejected with a
notice, so the line's quantity is 5. -/
theorem scenario_add_seven :
    addTimesWith ieeeOps 3 [] scenarioDrug
      = [{ toInventoryItem := scenarioDrug, quantity := JSNum.fin 3 }] ∧
    addToCartWith ieeeOps (addTimesWith ieeeOps 3 [] scenarioDrug) scenarioDrug
      = ([{ toInventoryItem := scenarioDrug, quantity := JSNum.fin 4 }], none) ∧
    addToCartWith ieeeOps (addTimesWith ieeeOps 4 [] scenarioDrug) scenarioDrug
      = ([{ toInventoryItem := scenarioDrug, quantity := JSNum.fin 5 }], none) ∧
    addToCartWith ieeeOps (addTimesWith ieeeOps 5 [] scenarioDrug) scenarioDrug
      = ([{ toInventoryItem := scenarioDrug, quantity := JSNum.fin 5 }],
         some (Alert.onlyInStock 5)) ∧
    addToCartWith ieeeOps (addTimesWith ieeeOps 6 [] scenarioDrug) scenarioDrug
      = ([{ toInventoryItem := scenarioDrug, quantity := JSNum.fin 5 }],
         some (Alert.onlyInStock 5)) ∧
    addTimesWith ieeeOps 4 (addTimesWith ieeeOps 3 [] scenarioDrug) scenarioDrug
      = [{ toInventoryItem := scenarioDrug, quantity := JSNum.fin 5 }] := by
  obtain ⟨e3, e4, e5, e6, -⟩ := scenario_carts
  have s3 := scenario_step 3 (by norm_num)
  have s4 := scenario_step 4 (by norm_num)
  have s5 := scenario_step 5 (by norm_num)
  norm_num at s3 s4 s5
  have a3 : addToCartWith ieeeOps [{ toInventoryItem := scenarioDrug, quantity := JSNum.fin 3 }]
      scenarioDrug = ([{ toInventoryItem := scenarioDrug, quantity := JSNum.fin 4 }], none) := by
    rw [s3]
    decide!
  have a4 : addToCartWith ieeeOps [{ toInventoryItem := scenarioDrug, quantity := JSNum.fin 4 }]
      scenarioDrug = ([{ toInventoryItem := scenarioDrug, quantity := JSNum.fin 5 }], none) := by
    rw [s4]
    decide!
  have a5 : addToCartWith ieeeOps [{ toInventoryItem := scenarioDrug, quantity := JSNum.fin 5 }]
      scenarioDrug = ([{ toInventoryItem := scenarioDrug, quantity := JSNum.fin 5 }],
        some (Alert.onlyInStock 5)) := by
    rw [s5]
    decide!
  refine ⟨e3, ?_, ?_, ?_, ?_, ?_⟩
  · rw [e3, a3]
  · rw [e4, a4]
  · rw [e5, a5]
  · rw [e6, a5]
  · rw [e3]
    simp only [addTimesWith, a3, a4, a5]

/-! ## The inventory form -/

/-- The form hands a record to `onSubmit` exactly when the two numbers are not
negative and the three required strings are not empty; the record carries the
form's values. -/
theorem handleSubmit_ok_iff (toTimestamp : String → Nat) (formData : InventoryFormData) :
    (∃ data, InventoryForm.handleSubmit toTimestamp formData = Except.ok data) ↔
      0 ≤ formData.quantityInStock ∧ 0 ≤ formData.unitPrice ∧ formData.name ≠ "" ∧
      formData.batchNumber ≠ "" ∧ formData.expiryDate ≠ "" := by
  unfold InventoryForm.handleSubmit
  by_cases h1 : formData.quantityInStock < 0 ∨ formData.unitPrice < 0
  · rw [if_pos h1]
    constructor
    · rintro ⟨data, h⟩
      exact Except.noConfusion h
    · rintro ⟨hq, hp, -⟩
      rcases h1 with h | h
      · exact absurd h (not_lt.mpr hq)
      · exact absurd h (not_lt.mpr hp)
  · rw [if_neg h1]
    rw [not_or, not_lt, not_lt] at h1
    by_cases h2 : formData.name = "" ∨ formData.batchNumber = "" ∨ formData.expiryDate = ""
    · rw [if_pos h2]
      constructor
      · rintro ⟨data, h⟩
        exact Except.noConfusion h
      · rintro ⟨-, -, hn, hb, he⟩
        rcases h2 with h | h | h
        · exact absurd h hn
        · exact absurd h hb
        · exact absurd h he
    · rw [if_neg h2]
      rw [not_or, not_or] at h2
      exact ⟨fun _ => ⟨h1.1, h1.2, h2.1, h2.2.1, h2.2.2⟩, fun _ => ⟨_, rfl⟩⟩

theorem handleSubmit_ok_fields (toTimestamp : String → Nat) (formData : InventoryFormData)
    (data : SubmittedDrug) (h : InventoryForm.handleSubmit toTimestamp formData = Except.ok data) :
    data.quantityInStock = formData.quantityInStock ∧ data.unitPrice = formData.unitPrice ∧
    data.batchNumber = formData.batchNumber := by
  unfold InventoryForm.handleSubmit at h
  split at h
  · exact Except.noConfusion h
  · split at h
    · exact Except.noConfusion h
    · injection h with h
      subst h
      exact ⟨rfl, rfl, rfl⟩

/-- A handler of `Inventory` writes the record it is handed, or nothing. -/
theorem handler_write_fields (appId : String) (userId : Option String)
    (editingDrug : Option InventoryItem) (reject : InventoryWrite → Option String)
    (data : SubmittedDrug) (w : InventoryWrite) (fields : InventoryFields) :
    ((handleAddDrug appId userId editingDrug reject data).write = some w →
      w.fields = some fields → fields = data.toInventoryFields) ∧
    ((handleUpdateDrug appId userId editingDrug reject data).write = some w →
      w.fields = some fields → fields = data.toInventoryFields) := by
  constructor
  · intro hw hf
    unfold handleAddDrug at hw
    split at hw
    · exact Option.noConfusion hw
    · split at hw
      · exact Option.noConfusion hw
      · dsimp only at hw
        split at hw <;>
        · injection hw with hw
          subst hw
          injection hf with hf
          exact hf.symm
  · intro hw hf
    unfold handleUpdateDrug at hw
    split at hw
    · split at hw
      · exact Option.noConfusion hw
      · dsimp only at hw
        split at hw <;>
        · injection hw with hw
          subst hw
          injection hf with hf
          exact hf.symm
    · exact Option.noConfusion hw

/-- C15: the inventory form's submit hands a record to the create/update write if
and only if `quantityInStock ≥ 0`, `unitPrice ≥ 0` and `name`, `batchNumber` and
`expiryDate` are all non-empty; otherwise it raises a validation notice and no
write is issued.  Hence every record written through the form by create or
update has `quantityInStock ≥ 0` and `unitPrice ≥ 0`. -/
theorem inventoryForm_submit_validation (appId : String) (userId : Option String)
    (editingDrug : Option InventoryItem) (reject : InventoryWrite → Option String)
    (toTimestamp : String → Nat) (formData : InventoryFormData) :
    ((∃ data, InventoryForm.handleSubmit toTimestamp formData = Except.ok data) ↔
      0 ≤ formData.quantityInStock ∧ 0 ≤ formData.unitPrice ∧ formData.name ≠ "" ∧
      formData.batchNumber ≠ "" ∧ formData.expiryDate ≠ "") ∧
    (¬ (0 ≤ formData.quantityInStock ∧ 0 ≤ formData.unitPrice ∧ formData.name ≠ "" ∧
        formData.batchNumber ≠ "" ∧ formData.expiryDate ≠ "") →
      (InventoryForm.handleSubmit toTimestamp formData
          = Except.error InventoryAlert.negativeValues ∨
        InventoryForm.handleSubmit toTimestamp formData
          = Except.error InventoryAlert.requiredFields) ∧
      (submitInventoryForm appId userId editingDrug reject toTimestamp formData).write = none) ∧
    (∀ w fields,
      (submitInventoryForm appId userId editingDrug reject toTimestamp formData).write = some w →
      w.fields = some fields → 0 ≤ fields.quantityInStock ∧ 0 ≤ fields.unitPrice) := by
  have hiff := handleSubmit_ok_iff toTimestamp formData
  refine ⟨hiff, ?_, ?_⟩
  · intro hn
    cases hs : InventoryForm.handleSubmit toTimestamp formData with
    | ok data => exact absurd (hiff.mp ⟨data, hs⟩) hn
    | error alert =>
      constructor
      · unfold InventoryForm.handleSubmit at hs
        split at hs
        · injection hs with hs
          subst hs
          exact Or.inl rfl
        · split at hs
          · injection hs with hs
            subst hs
            exact Or.inr rfl
          · exact Except.noConfusion hs
      · unfold submitInventoryForm
        simp only [hs]
  · intro w fields hw hf
    cases hs : InventoryForm.handleSubmit toTimestamp formData with
    | error alert =>
      unfold submitInventoryForm at hw
      simp only [hs] at hw
      exact Option.noConfusion hw
    | ok data =>
      obtain ⟨hq, hp, -⟩ := hiff.mp ⟨data, hs⟩
      obtain ⟨hdq, hdp, -⟩ := handleSubmit_ok_fields toTimestamp formData data hs
      have hfields : fields = data.toInventoryFields := by
        unfold submitInventoryForm at hw
        simp only [hs] at hw
        cases editingDrug with
        | none => exact (handler_write_fields appId userId none reject data w fields).1 hw hf
        | some d => exact (handler_write_fields appId userId (some d) reject data w fields).2 hw hf
      subst hfields
      exact ⟨by rw [hdq]; exact hq, by rw [hdp]; exact hp⟩

/-- C15, on two forms: a complete form is written by create with its values, a
form with a negative quantity raises the notice and writes nothing. -/
theorem inventoryForm_submit_validation_witness :
    (submitInventoryForm "rxoptima-app" (some "u1") none (fun _ => none) (fun _ => 42)
        sampleForm).write
      = some (InventoryWrite.addDoc "artifacts/rxoptima-app/users/u1/inventory"
          { id := none, name := "Drug A", genericName := "", manufacturer := "",
            batchNumber := "12345", expiryDate := 42, quantityInStock := 10,
            unitPrice := 100 }) ∧
    (submitInventoryForm "rxoptima-app" (some "u1") none (fun _ => none) (fun _ => 42)
        { sampleForm with quantityInStock := -1 }).write = none := by
  refine ⟨by decide!, ?_⟩
  refine ((inventoryForm_submit_validation "rxoptima-app" (some "u1") none (fun _ => none)
    (fun _ => 42) { sampleForm with quantityInStock := -1 }).2.1 ?_).2
  rintro ⟨hq, -⟩
  norm_num at hq

/-- C17 (fails on the code): an identity, drug A being edited and the form's record
with a new stock of 4.  `handleUpdateDrug` as it runs in `Inventory` ends in its
`catch` when it builds `docPath` (line 518), before `setDoc` (line 521): no
record is written to the id of the drug being edited, the alert carries the
ReferenceError and the drug stays in edit. -/
theorem handleUpdateDrug_writes_nothing :
    (handleUpdateDrugInScope none (some "u1") (some drugA) (fun _ => none) editedDrugA).write
      = none ∧
    (handleUpdateDrugInScope none (some "u1") (some drugA) (fun _ => none) editedDrugA).alert
      = InventoryAlert.updateError "appId is not defined" ∧
    (handleUpdateDrugInScope none (some "u1") (some drugA) (fun _ => none)
      editedDrugA).editingDrug = some drugA := by
  refine ⟨by decide!, by decide!, by decide!⟩

theorem string_length_pos_of_ne_empty (s : String) (h : s ≠ "") : 1 ≤ s.length := by
  cases s with
  | mk l =>
    cases l with
    | nil => exact absurd rfl h
    | cons c cs => simp [String.length]

theorem digitsOnly_isDigit (value : String) :
    ∀ c ∈ (digitsOnly value).toList, c.isDigit = true := by
  intro c hc
  have hc2 : c ∈ value.toList.filter Char.isDigit := hc
  rw [List.mem_filter] at hc2
  exact hc2.2

/-- One change event keeps the batch number a string of at most 5 ASCII digits. -/
theorem handleChange_batchNumber (parseFloat : String → JSNum) (formData : InventoryFormData)
    (e : ChangeEvent)
    (h : formData.batchNumber.length ≤ 5 ∧ ∀ c ∈ formData.batchNumber.toList, c.isDigit = true) :
    (InventoryForm.handleChange parseFloat formData e).batchNumber.length ≤ 5 ∧
    ∀ c ∈ (InventoryForm.handleChange parseFloat formData e).batchNumber.toList,
      c.isDigit = true := by
  unfold InventoryForm.handleChange
  split
  · split
    · next hlen => exact ⟨hlen, digitsOnly_isDigit e.value⟩
    · exact h
  · repeat' split
    all_goals exact h

/-- C18: for every sequence of change events applied to the blank add form, the
form's `batchNumber` is a string of at most 5 ASCII digits; an input whose
digits-only part is longer than 5 leaves the form unchanged; so every record
the add form hands to the write has a `batchNumber` of 1 to 5 ASCII digits. -/
theorem batchNumber_at_most_five_digits (parseFloat : String → JSNum)
    (events : List ChangeEvent) :
    ((events.foldl (InventoryForm.handleChange parseFloat) InventoryForm.blank).batchNumber.length
        ≤ 5 ∧
      ∀ c ∈ (events.foldl (InventoryForm.handleChange parseFloat)
          InventoryForm.blank).batchNumber.toList, c.isDigit = true) ∧
    (∀ (formData : InventoryFormData) (value : String), 5 < (digitsOnly value).length →
      InventoryForm.handleChange parseFloat formData { name := "batchNumber", value := value }
        = formData) ∧
    (∀ (toTimestamp : String → Nat) (data : SubmittedDrug),
      InventoryForm.handleSubmit toTimestamp
        (events.foldl (InventoryForm.handleChange parseFloat) InventoryForm.blank)
        = Except.ok data →
      1 ≤ data.batchNumber.length ∧ data.batchNumber.length ≤ 5 ∧
      ∀ c ∈ data.batchNumber.toList, c.isDigit = true) := by
  have hinv : ∀ (evs : List ChangeEvent) (fd : InventoryFormData),
      (fd.batchNumber.length ≤ 5 ∧ ∀ c ∈ fd.batchNumber.toList, c.isDigit = true) →
      ((evs.foldl (InventoryForm.handleChange parseFloat) fd).batchNumber.length ≤ 5 ∧
        ∀ c ∈ (evs.foldl (InventoryForm.handleChange parseFloat) fd).batchNumber.toList,
          c.isDigit = true) := by
    intro evs
    induction evs with
    | nil => intro fd h; exact h
    | cons e rest ih =>
      intro fd h
      exact ih _ (handleChange_batchNumber parseFloat fd e h)
  have hblank : InventoryForm.blank.batchNumber.length ≤ 5 ∧
      ∀ c ∈ InventoryForm.blank.batchNumber.toList, c.isDigit = true := by
    constructor
    · decide
    · intro c hc
      simp [InventoryForm.blank] at hc
  have hform := hinv events InventoryForm.blank hblank
  refine ⟨hform, ?_, ?_⟩
  · intro formData value hlen
    unfold InventoryForm.handleChange
    simp only [if_true, not_le.mpr hlen, if_false]
  · intro toTimestamp data hs
    obtain ⟨-, -, hb⟩ := handleSubmit_ok_fields toTimestamp _ data hs
    obtain ⟨-, -, -, hne, -⟩ := (handleSubmit_ok_iff toTimestamp _).mp ⟨data, hs⟩
    rw [hb]
    exact ⟨string_length_pos_of_ne_empty _ hne, hform.1, hform.2⟩

/-- C18, on three inputs: "ab12" gives "12", "123456" is refused, "7-7" gives
"77". -/
theorem batchNumber_at_most_five_digits_witness :
    (sixDigitEvents.foldl (InventoryForm.handleChange (fun _ => JSNum.nan))
        InventoryForm.blank).batchNumber = "12" ∧
    (dashEvents.foldl (InventoryForm.handleChange (fun _ => JSNum.nan))
        InventoryForm.blank).batchNumber = "77" ∧
    (sixDigitEvents.foldl (InventoryForm.handleChange (fun _ => JSNum.nan))
        InventoryForm.blank).batchNumber.length ≤ 5 :=
  ⟨by decide, by decide,
   (batchNumber_at_most_five_digits (fun _ => JSNum.nan) sixDigitEvents).1.1⟩

/-! ## The application namespace -/

/-- C16 (fails on the code): `appId` is bound inside `App` only.  In the file as it
stands `POS` has no binding for it: with an identity and a non-empty cart,
`processSale` ends in its `catch` with the alert 'Error processing sale: appId
is not defined' and hands no batch to `commit`.  Under an outer binding other
than the constant of `App`, every document of the sale batch is addressed
outside the collections the subscriber listens on. -/
theorem processSale_appId_not_in_scope :
    ((processSaleInScope none (some "u1") acceptingStore samplePOS).batch = none ∧
     (processSaleInScope none (some "u1") acceptingStore samplePOS).alert
       = Alert.saleError "appId is not defined" ∧
     (processSaleInScope none (some "u1") acceptingStore samplePOS).state = samplePOS) ∧
    (∃ b, (processSaleInScope (some "other-app") (some "u1") acceptingStore samplePOS).batch
        = some b ∧
      ∀ w ∈ b, (Write.ref w).collectionPath ∉ subscribedPaths "u1") := by
  refine ⟨⟨by decide!, by decide!, by decide!⟩, ?_⟩
  refine ⟨saleBatch "other-app" "u1" acceptingStore sampleCart, by decide!, by decide!⟩

/-- When the identifier `appId` of the components is bound to the constant of
`App`, every document of a sale batch and of a fill batch is addressed in a
collection the subscriber listens on for the same identity. -/
theorem writes_under_subscribed_paths (u : String) (ext : Store) (cart : List CartLine)
    (inventory : List InventoryItem) (items : List PrescriptionItem) (updates : List Write)
    (h : fillUpdates App.appId u inventory items = some updates) :
    (∀ w ∈ saleBatch App.appId u ext cart, (Write.ref w).collectionPath ∈ subscribedPaths u) ∧
    (∀ w ∈ updates, (Write.ref w).collectionPath ∈ subscribedPaths u) ∧
    "artifacts/" ++ App.appId ++ "/users/" ++ u ++ "/prescriptions" ∈ subscribedPaths u := by
  have hinv : "artifacts/" ++ App.appId ++ "/users/" ++ u ++ "/inventory" ∈ subscribedPaths u := by
    simp [subscribedPaths, String.append_assoc]
  have hsales : "artifacts/" ++ App.appId ++ "/users/" ++ u ++ "/sales" ∈ subscribedPaths u := by
    simp [subscribedPaths, String.append_assoc]
  have hpres : "artifacts/" ++ App.appId ++ "/users/" ++ u ++ "/prescriptions"
      ∈ subscribedPaths u := by
    simp [subscribedPaths, String.append_assoc]
  refine ⟨?_, ?_, hpres⟩
  · intro w hw
    unfold saleBatch at hw
    rw [List.mem_cons, List.mem_map] at hw
    rcases hw with hw | ⟨l, -, hw⟩
    · subst hw
      exact hsales
    · subst hw
      exact hinv
  · induction items generalizing updates with
    | nil =>
      injection h with h
      subst h
      intro w hw
      simp at hw
    | cons item rest ih =>
      unfold fillUpdates at h
      split at h
      · exact Option.noConfusion h
      · split at h
        · exact Option.noConfusion h
        · next ws hws =>
          injection h with h
          subst h
          intro w hw
          rw [List.mem_cons] at hw
          rcases hw with hw | hw
          · subst hw
            exact hinv
          · exact ih ws hws w hw

/-! ## Filled prescriptions -/

/-- C19: a filled prescription has no further transitions.  For every prescription
with `isFilled = true`, every snapshot, identity and store: its card offers no
fill action, whatever `appId` is bound to, so `fillPrescription` is not called
on it; and `fillPrescription` as it runs in `Prescriptions` hands no batch to
`commit`: no inventory decrement and no change to the prescription is issued. -/
theorem filled_prescription_no_write (userId : Option String) (inventory : List InventoryItem)
    (ext : Store) (p : Prescription) (h : p.isFilled = true) :
    (∀ scope, (fillButtonInScope scope userId inventory ext p).isNone = true) ∧
    (fillPrescriptionInScope none userId inventory ext p).batch = none := by
  refine ⟨?_, fillPrescriptionInScope_none_batch userId inventory ext p⟩
  intro scope
  simp [fillButtonInScope, h]

/-- C19, on the sample prescription filled at time 5, whose line finds its stock:
no action is offered and no batch exists. -/
theorem filled_prescription_no_write_witness :
    filledPrescription.isFilled = true ∧
    checkStock [drugA, drugB] filledPrescription.items = none ∧
    (∀ scope, (fillButtonInScope scope (some "u1") [drugA, drugB] acceptingStore
      filledPrescription).isNone = true) ∧
    (fillPrescriptionInScope none (some "u1") [drugA, drugB] acceptingStore
      filledPrescription).batch = none :=
  ⟨rfl, by decide!,
   filled_prescription_no_write (some "u1") [drugA, drugB] acceptingStore filledPrescription rfl⟩

/-! ## Prescription writes -/

theorem fillUpdates_are_stock_updates (appId u : String) (inventory : List InventoryItem)
    (items : List PrescriptionItem) (updates : List Write)
    (h : fillUpdates appId u inventory items = some updates) :
    ∀ w ∈ updates, ∃ ref v, w = Write.updateStock ref v := by
  induction items generalizing updates with
  | nil =>
    injection h with h
    subst h
    intro w hw
    simp at hw
  | cons item rest ih =>
    unfold fillUpdates at h
    split at h
    · exact Option.noConfusion h
    · split at h
      · exact Option.noConfusion h
      · next ws hws =>
        injection h with h
        subst h
        intro w hw
        rw [List.mem_cons] at hw
        rcases hw with hw | hw
        · exact ⟨_, _, hw⟩
        · exact ih ws hws w hw

/-- A batch of `fillPrescription` is stock updates followed by one update of the
prescription. -/
theorem fillPrescription_batch_shape (appId u : String) (inventory : List InventoryItem)
    (ext : Store) (prescription : Prescription) (b : List Write) (hu : u ≠ "")
    (hb : (fillPrescription appId (some u) inventory ext prescription).batch = some b) :
    ∃ updates, (∀ w ∈ updates, ∃ ref v, w = Write.updateStock ref v) ∧
      b = updates ++
        [Write.updateFilled
          { collectionPath := "artifacts/" ++ appId ++ "/users/" ++ u ++ "/prescriptions",
            id := prescription.id } true ext.now] := by
  obtain ⟨hok, hbad⟩ := fillPrescription_batch appId u inventory ext prescription hu
  cases hc : checkStock inventory prescription.items with
  | some alert =>
    rw [(hbad alert hc).1] at hb
    exact Option.noConfusion hb
  | none =>
    obtain ⟨updates, hup, hbatch⟩ := hok hc
    rw [hbatch] at hb
    injection hb with hb
    exact ⟨updates, fillUpdates_are_stock_updates appId u inventory _ updates hup, hb.symm⟩

theorem foldl_applyFilled_stock_updates (path : String) (p : Prescription)
    (updates : List Write) (h : ∀ w ∈ updates, ∃ ref v, w = Write.updateStock ref v) :
    updates.foldl (applyFilled path) p = p := by
  induction updates with
  | nil => rfl
  | cons w ws ih =>
    obtain ⟨ref, v, hw⟩ := h w (List.mem_cons_self _ _)
    subst hw
    rw [List.foldl_cons]
    exact ih (fun x hx => h x (List.mem_cons_of_mem _ hx))

/-- C20: every prescription write keeps 'dateFilled is present iff isFilled is
true' and none sets `isFilled` to false on an existing record.  The log path
writes a new document with `isFilled = false` and no `dateFilled`; in a fill
batch the only write to a prescription addresses the prescription being filled
and sets `isFilled = true` together with `dateFilled`, and applying the batch
changes no other field of it. -/
theorem prescription_writes_keep_invariant (appId u : String) (inventory : List InventoryItem)
    (ext : Store) (prescription : Prescription) (now : Nat) (form : PrescriptionFormState)
    (reject : PrescriptionAdd → Option String) (hu : u ≠ "") :
    (∀ data, PrescriptionForm.handleSubmit inventory now form = Except.ok data →
      data.isFilled = false ∧ data.dateFilled = none ∧
      (handleAddPrescription appId (some u) reject data).write
        = some { collectionPath := "artifacts/" ++ appId ++ "/users/" ++ u ++ "/prescriptions",
                 data := data }) ∧
    (∀ b, (fillPrescription appId (some u) inventory ext prescription).batch = some b →
      (∀ w ∈ b, ∀ ref isFilled dateFilled, w = Write.updateFilled ref isFilled dateFilled →
        isFilled = true ∧ dateFilled = ext.now ∧ ref.id = prescription.id ∧
        ref.collectionPath = "artifacts/" ++ appId ++ "/users/" ++ u ++ "/prescriptions") ∧
      b.foldl (applyFilled ("artifacts/" ++ appId ++ "/users/" ++ u ++ "/prescriptions"))
          prescription
        = { prescription with isFilled := true, dateFilled := some ext.now }) := by
  constructor
  · intro data hs
    have hdata : data.isFilled = false ∧ data.dateFilled = none := by
      unfold PrescriptionForm.handleSubmit at hs
      split at hs
      · exact Except.noConfusion hs
      · injection hs with hs
        subst hs
        exact ⟨rfl, rfl⟩
    refine ⟨hdata.1, hdata.2, ?_⟩
    unfold handleAddPrescription
    simp only [beq_iff_eq, hu, if_false]
    cases reject _ <;> rfl
  · intro b hb
    obtain ⟨updates, hup, hshape⟩ :=
      fillPrescription_batch_shape appId u inventory ext prescription b hu hb
    subst hshape
    constructor
    · intro w hw ref isFilled dateFilled hweq
      rw [List.mem_append, List.mem_singleton] at hw
      rcases hw with hw | hw
      · obtain ⟨r, v, hr⟩ := hup w hw
        rw [hr] at hweq
        exact Write.noConfusion hweq
      · rw [hw] at hweq
        injection hweq with h1 h2 h3
        subst h1 h2 h3
        exact ⟨rfl, rfl, rfl, rfl⟩
    · rw [List.foldl_append, foldl_applyFilled_stock_updates _ _ _ hup]
      simp [applyFilled]

/-- C20, on the sample form and the scenario's prescription with drug B
restocked: the logged record is unfilled without a fill date, and applying the
fill batch marks the prescription filled at the time of the fill. -/
theorem prescription_writes_keep_invariant_witness :
    (∀ data, PrescriptionForm.handleSubmit [drugA, drugB] 7 samplePrescriptionForm
        = Except.ok data → data.isFilled = false ∧ data.dateFilled = none) ∧
    ((fillPrescription "rxoptima-app" (some "u1") [drugA, drugBRestocked] acceptingStore
        scenarioPrescription).batch.getD []).foldl
        (applyFilled "artifacts/rxoptima-app/users/u1/prescriptions") scenarioPrescription
      = { scenarioPrescription with isFilled := true, dateFilled := some 7 } := by
  refine ⟨?_, by decide!⟩
  intro data hs
  have h2 := (prescription_writes_keep_invariant "rxoptima-app" "u1" [drugA, drugB]
    acceptingStore scenarioPrescription 7 samplePrescriptionForm (fun _ => none)
    (by decide)).1 data hs
  exact ⟨h2.1, h2.2.1⟩

/-! ## Logging a prescription -/

theorem prescription_handleSubmit_ok_iff (inventory : List InventoryItem) (now : Nat)
    (form : PrescriptionFormState) :
    (∃ data, PrescriptionForm.handleSubmit inventory now form = Except.ok data) ↔
      form.patientId ≠ "" ∧ form.doctorName ≠ "" ∧ ∀ item ∈ form.items, item.drugId ≠ "" := by
  unfold PrescriptionForm.handleSubmit
  by_cases h : form.patientId = "" ∨ form.doctorName = "" ∨
      form.items.any (fun item => item.drugId = "") = true
  · rw [if_pos h]
    constructor
    · rintro ⟨data, hd⟩
      exact Except.noConfusion hd
    · rintro ⟨hp, hdn, hall⟩
      rcases h with h | h | h
      · exact absurd h hp
      · exact absurd h hdn
      · rw [List.any_eq_true] at h
        obtain ⟨item, hmem, hitem⟩ := h
        exact absurd (of_decide_eq_true hitem) (hall item hmem)
  · rw [if_neg h]
    rw [not_or, not_or] at h
    refine ⟨fun _ => ⟨h.1, h.2.1, ?_⟩, fun _ => ⟨_, rfl⟩⟩
    intro item hmem hitem
    apply h.2.2
    rw [List.any_eq_true]
    exact ⟨item, hmem, decide_eq_true hitem⟩

/-- C21: logging a prescription is accepted if and only if `patientIdentifier` and
`doctorName` are non-empty and every line has a non-empty `drugId`, whatever
the snapshot holds; the record handed to the store has `isFilled = false` and
the lines in form order, each with the drug name of the snapshot. -/
theorem prescription_log_accepted (inventory : List InventoryItem) (now : Nat)
    (form : PrescriptionFormState) :
    ((∃ data, PrescriptionForm.handleSubmit inventory now form = Except.ok data) ↔
      form.patientId ≠ "" ∧ form.doctorName ≠ "" ∧ ∀ item ∈ form.items, item.drugId ≠ "") ∧
    (∀ other : List InventoryItem,
      (∃ data, PrescriptionForm.handleSubmit inventory now form = Except.ok data) ↔
      (∃ data, PrescriptionForm.handleSubmit other now form = Except.ok data)) ∧
    (∀ data, PrescriptionForm.handleSubmit inventory now form = Except.ok data →
      data.isFilled = false ∧ data.patientIdentifier = form.patientId ∧
      data.doctorName = form.doctorName ∧
      List.Forall₂ (fun (line : PrescriptionItem) (item : FormItem) =>
        line.drugId = item.drugId ∧ line.dosage = item.dosage ∧
        line.quantity = item.quantity ∧ line.drugName = drugNameOf inventory item.drugId)
        data.items form.items ∧
      ∀ (appId u : String) (reject : PrescriptionAdd → Option String), u ≠ "" →
        (handleAddPrescription appId (some u) reject data).write
          = some { collectionPath := "artifacts/" ++ appId ++ "/users/" ++ u ++ "/prescriptions",
                   data := data }) := by
  refine ⟨prescription_handleSubmit_ok_iff inventory now form, ?_, ?_⟩
  · intro other
    rw [prescription_handleSubmit_ok_iff, prescription_handleSubmit_ok_iff]
  · intro data hs
    unfold PrescriptionForm.handleSubmit at hs
    split at hs
    · exact Except.noConfusion hs
    · injection hs with hs
      subst hs
      refine ⟨rfl, rfl, rfl, ?_, ?_⟩
      · simp only
        generalize form.items = items
        induction items with
        | nil => exact List.Forall₂.nil
        | cons x xs ih => exact List.Forall₂.cons ⟨rfl, rfl, rfl, rfl⟩ ih
      · intro appId u reject hu
        unfold handleAddPrescription
        simp only [beq_iff_eq, hu, if_false]
        cases reject _ <;> rfl

/-- C21, on a form asking for 3 of drug B while the snapshot shows it sold out:
the prescription is logged, unfilled, with the snapshot's drug name. -/
theorem prescription_log_accepted_witness :
    (PrescriptionForm.handleSubmit [drugA, drugBSoldOut] 7 soldOutForm).toOption
      = some
          { patientIdentifier := "P-1", doctorName := "Dr X", dateIssued := 7, isFilled := false,
            dateFilled := none,
            items := [{ drugId := "B", dosage := "", quantity := 3, drugName := "Drug B" }] } ∧
    ∃ data, PrescriptionForm.handleSubmit [drugA, drugBSoldOut] 7 soldOutForm = Except.ok data :=
  ⟨by decide!,
   (prescription_log_accepted [drugA, drugBSoldOut] 7 soldOutForm).1.mpr
     ⟨by decide, by decide, by decide⟩⟩

/-! ## The quantities of the prescription form -/

/-- C22 (fails on the code): the form can hold a line of quantity 0.  Drug B is
selected while the snapshot shows stock 1; once the snapshot shows stock 0,
typing 2 in the quantity field exceeds the stock and the quantity is set to the
stock, 0. -/
theorem form_quantity_zero :
    NatStock [drugB] ∧ NatStock [drugBSoldOut] ∧
    soldOutSteps.foldl (applyFormStep parseIntSample) PrescriptionForm.initialItems
      = [{ drugId := "B", dosage := "", quantity := 0 }] ∧
    ∃ item ∈ soldOutSteps.foldl (applyFormStep parseIntSample) PrescriptionForm.initialItems,
      ¬ 1 ≤ item.quantity := by
  have hB : NatStock [drugB] := natStock_singleton drugB 1 (by norm_num [drugB])
  have h0 : NatStock [drugBSoldOut] :=
    natStock_singleton drugBSoldOut 0 (by norm_num [drugBSoldOut])
  have hitems : soldOutSteps.foldl (applyFormStep parseIntSample) PrescriptionForm.initialItems
      = [{ drugId := "B", dosage := "", quantity := 0 }] := by decide!
  refine ⟨hB, h0, hitems, ?_⟩
  rw [hitems]
  exact ⟨_, List.mem_singleton.mpr rfl, by norm_num⟩

/-- A change against a snapshot with a stock of at least 1 keeps every quantity at
least 1. -/
theorem handleItemChange_quantity (parseInt : String → JSNum) (inventory : List InventoryItem)
    (items : List FormItem) (index : Nat) (field : ItemField) (value : String)
    (result : List FormItem × Option PrescriptionAlert)
    (hres : PrescriptionForm.handleItemChange parseInt inventory items index field value
      = some result)
    (hstock : ∀ d ∈ inventory, 1 ≤ d.quantityInStock)
    (h : ∀ item ∈ items, 1 ≤ item.quantity) :
    ∀ item ∈ result.1, 1 ≤ item.quantity := by
  have hset : ∀ (new : FormItem), 1 ≤ new.quantity →
      ∀ item ∈ items.set index new, 1 ≤ item.quantity := by
    intro new hnew item hmem
    rcases List.mem_or_eq_of_mem_set hmem with hm | hm
    · exact h item hm
    · subst hm
      exact hnew
  have hmax : ∀ q : ℚ, 1 ≤ (if q < 1 then 1 else q) := by
    intro q
    split
    · exact le_refl _
    · next hlt => exact not_lt.mp hlt
  unfold PrescriptionForm.handleItemChange at hres
  cases hget : items[index]? with
  | none =>
    simp only [hget] at hres
    exact Option.noConfusion hres
  | some old =>
    have hold : 1 ≤ old.quantity := h old (List.getElem?_mem hget)
    simp only [hget] at hres
    cases field with
    | drugId =>
      simp only at hres
      injection hres with hres
      subst hres
      exact hset _ hold
    | dosage =>
      simp only at hres
      injection hres with hres
      subst hres
      exact hset _ hold
    | quantity =>
      simp only at hres
      cases hfind : inventory.find? (fun d => d.id == old.drugId) with
      | none =>
        simp only [hfind] at hres
        injection hres with hres
        subst hres
        exact hset _ (hmax _)
      | some drug =>
        simp only [hfind] at hres
        have hdrug : 1 ≤ drug.quantityInStock := hstock drug (List.mem_of_find?_eq_some hfind)
        split at hres
        · injection hres with hres
          subst hres
          exact hset _ hdrug
        · injection hres with hres
          subst hres
          exact hset _ (hmax _)

/-- One step against snapshots with a stock of at least 1 keeps every quantity at
least 1. -/
theorem applyFormStep_quantity (parseInt : String → JSNum) (items : List FormItem)
    (step : FormStep) (hstep : StockAtLeastOne step)
    (h : ∀ item ∈ items, 1 ≤ item.quantity) :
    ∀ item ∈ applyFormStep parseInt items step, 1 ≤ item.quantity := by
  cases step with
  | addItem =>
    intro item hmem
    simp only [applyFormStep, PrescriptionForm.addItem, List.mem_append,
      List.mem_singleton] at hmem
    rcases hmem with hmem | hmem
    · exact h item hmem
    · subst hmem
      exact le_refl _
  | removeItem index =>
    intro item hmem
    exact h item (List.mem_of_mem_eraseIdx hmem)
  | change inventory index field value =>
    have hstock : ∀ d ∈ inventory, 1 ≤ d.quantityInStock := hstep
    cases hres : PrescriptionForm.handleItemChange parseInt inventory items index field value with
    | none =>
      intro item hmem
      simp only [applyFormStep, hres] at hmem
      exact h item hmem
    | some result =>
      intro item hmem
      simp only [applyFormStep, hres] at hmem
      exact handleItemChange_quantity parseInt inventory items index field value result hres
        hstock h item hmem

/-- Starting from the initial form, steps against snapshots whose stocks are all
at least 1 keep every line's quantity at least 1. -/
theorem form_quantity_at_least_one (parseInt : String → JSNum) (steps : List FormStep)
    (hsteps : ∀ step ∈ steps, StockAtLeastOne step) :
    ∀ item ∈ steps.foldl (applyFormStep parseInt) PrescriptionForm.initialItems,
      1 ≤ item.quantity := by
  have hgen : ∀ (steps : List FormStep) (items : List FormItem),
      (∀ step ∈ steps, StockAtLeastOne step) → (∀ item ∈ items, 1 ≤ item.quantity) →
      ∀ item ∈ steps.foldl (applyFormStep parseInt) items, 1 ≤ item.quantity := by
    intro steps
    induction steps with
    | nil => intro items _ h; exact h
    | cons step rest ih =>
      intro items hs h
      exact ih _ (fun x hx => hs x (List.mem_cons_of_mem _ hx))
        (applyFormStep_quantity parseInt items step (hs step (List.mem_cons_self _ _)) h)
  apply hgen steps _ hsteps
  intro item hmem
  simp only [PrescriptionForm.initialItems, List.mem_singleton] at hmem
  subst hmem
  exact le_refl _

/-! ## The live collection subscriber -/

/-- When every record carries the key, the sort completes with a permutation of
the list, newest first. -/
theorem sortNewestFirst_spec (key : StoreDoc → Option Nat) (dataList : List StoreDoc)
    (hall : ∀ d ∈ dataList, (key d).isSome = true) :
    ∃ sorted, sortNewestFirst key dataList = some sorted ∧ sorted.Perm dataList ∧
      sorted.Sorted (NewerFirst key) := by
  unfold sortNewestFirst
  by_cases hlen : dataList.length ≤ 1
  · rw [if_pos hlen]
    refine ⟨dataList, rfl, List.Perm.refl _, ?_⟩
    cases dataList with
    | nil => exact List.sorted_nil
    | cons a rest =>
      cases rest with
      | nil => exact List.sorted_singleton a
      | cons b rest =>
        simp only [List.length_cons] at hlen
        omega
  · rw [if_neg hlen]
    have hall2 : dataList.all (fun d => (key d).isSome) = true := by
      rw [List.all_eq_true]
      exact hall
    rw [if_pos hall2]
    exact ⟨_, rfl, List.perm_insertionSort _ _, List.sorted_insertionSort _ _⟩

/-- A list already newest first, every record carrying the key, is returned as it
is. -/
theorem sortNewestFirst_of_sorted (key : StoreDoc → Option Nat) (dataList : List StoreDoc)
    (hall : ∀ d ∈ dataList, (key d).isSome = true)
    (hsorted : dataList.Sorted (NewerFirst key)) :
    sortNewestFirst key dataList = some dataList := by
  unfold sortNewestFirst
  by_cases hlen : dataList.length ≤ 1
  · rw [if_pos hlen]
  · rw [if_neg hlen]
    have hall2 : dataList.all (fun d => (key d).isSome) = true := by
      rw [List.all_eq_true]
      exact hall
    rw [if_pos hall2, List.Sorted.insertionSort_eq hsorted]

/-- On two records or more, one of them without the key, the sort throws. -/
theorem sortNewestFirst_throws (key : StoreDoc → Option Nat) (first : StoreDoc)
    (rest : List StoreDoc) (hrest : rest ≠ [])
    (hmiss : ∃ d ∈ first :: rest, key d = none) :
    sortNewestFirst key (first :: rest) = none := by
  unfold sortNewestFirst
  have hlen : ¬ (first :: rest).length ≤ 1 := by
    cases rest with
    | nil => exact absurd rfl hrest
    | cons b rest =>
      simp only [List.length_cons]
      omega
  rw [if_neg hlen]
  have hall : ¬ (first :: rest).all (fun d => (key d).isSome) = true := by
    rw [List.all_eq_true]
    intro h
    obtain ⟨d, hd, hnone⟩ := hmiss
    have := h d hd
    rw [hnone] at this
    exact Bool.noConfusion this
  rw [if_neg hall]

theorem onSnapshot_of_order (held dataList ordered : List StoreDoc)
    (h : orderSnapshot dataList = some ordered) : onSnapshot held dataList = ordered := by
  unfold onSnapshot
  rw [h]

/-- The ordering step on records that all carry a timestamp. -/
theorem orderSnapshot_timestamps (dataList : List StoreDoc)
    (hall : ∀ d ∈ dataList, d.timestamp.isSome = true) :
    ∃ ordered, orderSnapshot dataList = some ordered ∧ ordered.Perm dataList ∧
      ordered.Sorted (NewerFirst (fun d => d.timestamp)) := by
  cases dataList with
  | nil => exact ⟨[], rfl, List.Perm.refl _, List.sorted_nil⟩
  | cons first rest =>
    have hfirst : first.timestamp.isSome = true := hall first (List.mem_cons_self _ _)
    unfold orderSnapshot
    simp only [hfirst, if_true]
    exact sortNewestFirst_spec (fun d => d.timestamp) (first :: rest) hall

/-- The ordering step on records that carry a `dateIssued` and no timestamp. -/
theorem orderSnapshot_datesIssued (dataList : List StoreDoc)
    (hall : ∀ d ∈ dataList, d.timestamp = none ∧ d.dateIssued.isSome = true) :
    ∃ ordered, orderSnapshot dataList = some ordered ∧ ordered.Perm dataList ∧
      ordered.Sorted (NewerFirst (fun d => d.dateIssued)) := by
  cases dataList with
  | nil => exact ⟨[], rfl, List.Perm.refl _, List.sorted_nil⟩
  | cons first rest =>
    obtain ⟨hts, hdi⟩ := hall first (List.mem_cons_self _ _)
    unfold orderSnapshot
    simp only [hts, Option.isSome_none, Bool.false_eq_true, if_false, hdi, if_true]
    exact sortNewestFirst_spec (fun d => d.dateIssued) (first :: rest) (fun d hd => (hall d hd).2)

/-- The ordering step on records that carry neither field. -/
theorem orderSnapshot_plain (dataList : List StoreDoc)
    (hall : ∀ d ∈ dataList, d.timestamp = none ∧ d.dateIssued = none) :
    orderSnapshot dataList = some dataList := by
  cases dataList with
  | nil => rfl
  | cons first rest =>
    obtain ⟨hts, hdi⟩ := hall first (List.mem_cons_self _ _)
    unfold orderSnapshot
    simp only [hts, hdi, Option.isSome_none, Bool.false_eq_true, if_false]

/-- The ordering step on records that all carry a `dateIssued`, the first without
a timestamp. -/
theorem orderSnapshot_datesIssued_first (dataList : List StoreDoc)
    (hfirst : ∀ first ∈ dataList.head?, first.timestamp = none)
    (hall : ∀ d ∈ dataList, d.dateIssued.isSome = true) :
    ∃ ordered, orderSnapshot dataList = some ordered ∧ ordered.Perm dataList ∧
      ordered.Sorted (NewerFirst (fun d => d.dateIssued)) := by
  cases dataList with
  | nil => exact ⟨[], rfl, List.Perm.refl _, List.sorted_nil⟩
  | cons first rest =>
    have hts : first.timestamp = none := hfirst first (by simp)
    have hdi : first.dateIssued.isSome = true := hall first (List.mem_cons_self _ _)
    unfold orderSnapshot
    simp only [hts, Option.isSome_none, Bool.false_eq_true, if_false, hdi, if_true]
    exact sortNewestFirst_spec (fun d => d.dateIssued) (first :: rest) hall

/-- C23 (as stated, fails): two prescriptions, each carrying its creation
timestamp `dateIssued`, the first also a `timestamp`.  The step sorts by
`timestamp`, the comparison throws on the second record, and the subscriber
publishes nothing: the list held before stays, which is no permutation of the
store's records. -/
theorem subscriber_throws_on_stamped_first :
    stampedFirstDocs.all (fun d => d.dateIssued.isSome) = true ∧
    orderSnapshot stampedFirstDocs = none ∧
    onSnapshot inventoryDocs stampedFirstDocs = inventoryDocs ∧
    ¬ (onSnapshot inventoryDocs stampedFirstDocs).Perm stampedFirstDocs := by
  refine ⟨by decide, by decide, by decide, by decide⟩

/-- C23 (amended): for every notification whose records all carry a `timestamp`,
the list the subscriber publishes is a permutation of the store's records
ordered by `timestamp`, newest first; for every notification whose records all
carry a `dateIssued` and whose first record carries no `timestamp`, it is a
permutation of the store's records ordered by `dateIssued`, newest first; for
every notification whose records carry neither, the published list is the
store's list, in store order. -/
theorem subscriber_publishes_newest_first (held dataList : List StoreDoc) :
    ((∀ d ∈ dataList, d.timestamp.isSome = true) →
      (onSnapshot held dataList).Perm dataList ∧
      (onSnapshot held dataList).Sorted (NewerFirst (fun d => d.timestamp))) ∧
    ((∀ first ∈ dataList.head?, first.timestamp = none) →
      (∀ d ∈ dataList, d.dateIssued.isSome = true) →
      (onSnapshot held dataList).Perm dataList ∧
      (onSnapshot held dataList).Sorted (NewerFirst (fun d => d.dateIssued))) ∧
    ((∀ d ∈ dataList, d.timestamp = none ∧ d.dateIssued = none) →
      onSnapshot held dataList = dataList) := by
  refine ⟨?_, ?_, ?_⟩
  · intro hall
    obtain ⟨ordered, ho, hp, hs⟩ := orderSnapshot_timestamps dataList hall
    rw [onSnapshot_of_order held dataList ordered ho]
    exact ⟨hp, hs⟩
  · intro hfirst hall
    obtain ⟨ordered, ho, hp, hs⟩ := orderSnapshot_datesIssued_first dataList hfirst hall
    rw [onSnapshot_of_order held dataList ordered ho]
    exact ⟨hp, hs⟩
  · intro hall
    exact onSnapshot_of_order held dataList dataList (orderSnapshot_plain dataList hall)

/-- C23 (amended), on three sales made at times 5, 9 and 7, on two prescriptions
the second of which also carries a timestamp, and on two inventory records: the
sales are published in the order 9, 7, 5, the prescriptions by date of issue,
the inventory in store order. -/
theorem subscriber_publishes_newest_first_witness :
    onSnapshot [] saleDocs
      = [{ id := "s2", timestamp := some 9, dateIssued := none },
         { id := "s3", timestamp := some 7, dateIssued := none },
         { id := "s1", timestamp := some 5, dateIssued := none }] ∧
    (onSnapshot [] saleDocs).Perm saleDocs ∧
    (onSnapshot [] bothFieldsDocs).Sorted (NewerFirst (fun d => d.dateIssued)) ∧
    onSnapshot saleDocs inventoryDocs = inventoryDocs :=
  ⟨by decide,
   ((subscriber_publishes_newest_first [] saleDocs).1 (by decide)).1,
   ((subscriber_publishes_newest_first [] bothFieldsDocs).2.1 (by decide) (by decide)).2,
   (subscriber_publishes_newest_first saleDocs inventoryDocs).2.2 (by decide)⟩

/-- A list in the order the step gives it is returned as it is. -/
theorem orderSnapshot_of_alreadyOrdered (dataList : List StoreDoc)
    (h : AlreadyOrdered dataList) : orderSnapshot dataList = some dataList := by
  cases dataList with
  | nil => rfl
  | cons first rest =>
    unfold AlreadyOrdered at h
    unfold orderSnapshot
    dsimp only at h ⊢
    by_cases hts : first.timestamp.isSome = true
    · rw [if_pos hts] at h ⊢
      exact sortNewestFirst_of_sorted _ _ h.1 h.2
    · rw [if_neg hts] at h ⊢
      by_cases hdi : first.dateIssued.isSome = true
      · rw [if_pos hdi] at h ⊢
        exact sortNewestFirst_of_sorted _ _ h.1 h.2
      · rw [if_neg hdi]

/-- C24 (as stated, fails): the ordering step is not idempotent on every list.  The
first of two records has a `dateIssued` only, so the list is sorted by
`dateIssued` and the second record, which also has a timestamp, comes first;
applied to its own result the step sorts by timestamp and throws on the record
that has none. -/
theorem ordering_not_idempotent_on_mixed :
    orderSnapshot bothFieldsDocs
      = some [{ id := "p2", timestamp := some 9, dateIssued := some 2 },
              { id := "p1", timestamp := none, dateIssued := some 1 }] ∧
    orderSnapshot [{ id := "p2", timestamp := some 9, dateIssued := some 2 },
                   { id := "p1", timestamp := none, dateIssued := some 1 }] = none := by
  refine ⟨by decide, by decide⟩

/-- C24 (amended): the subscriber's snapshot transform is deterministic, and
idempotent on records that all carry the same creation-timestamp field.
Delivering the same store snapshot a second time publishes the same list as
the first time; whenever the ordering step completes, its list does not depend
on the list previously held; applying the ordering step to a list already in
its order returns that list unchanged, and so does applying it to its own
result on records that all carry a timestamp, or all a `dateIssued` and no
timestamp, or neither. -/
theorem subscriber_deterministic_idempotent (held other dataList : List StoreDoc) :
    onSnapshot (onSnapshot held dataList) dataList = onSnapshot held dataList ∧
    (∀ ordered, orderSnapshot dataList = some ordered →
      onSnapshot held dataList = ordered ∧ onSnapshot other dataList = ordered) ∧
    (AlreadyOrdered dataList →
      orderSnapshot dataList = some dataList ∧ onSnapshot held dataList = dataList) ∧
    (((∀ d ∈ dataList, d.timestamp.isSome = true) ∨
      (∀ d ∈ dataList, d.timestamp = none ∧ d.dateIssued.isSome = true) ∨
      (∀ d ∈ dataList, d.timestamp = none ∧ d.dateIssued = none)) →
      ∃ ordered, orderSnapshot dataList = some ordered ∧
        orderSnapshot ordered = some ordered) := by
  refine ⟨?_, ?_, ?_, ?_⟩
  · unfold onSnapshot
    cases h : orderSnapshot dataList with
    | none => simp only [h]
    | some ordered => simp only [h]
  · intro ordered h
    exact ⟨onSnapshot_of_order held dataList ordered h,
      onSnapshot_of_order other dataList ordered h⟩
  · intro h
    have ho := orderSnapshot_of_alreadyOrdered dataList h
    exact ⟨ho, onSnapshot_of_order held dataList dataList ho⟩
  · rintro (hall | hall | hall)
    · obtain ⟨ordered, ho, hp, hs⟩ := orderSnapshot_timestamps dataList hall
      refine ⟨ordered, ho, orderSnapshot_of_alreadyOrdered ordered ?_⟩
      have hall2 : ∀ d ∈ ordered, d.timestamp.isSome = true :=
        fun d hd => hall d (hp.subset hd)
      cases ordered with
      | nil => trivial
      | cons first rest =>
        unfold AlreadyOrdered
        simp only [hall2 first (List.mem_cons_self _ _), if_true]
        exact ⟨hall2, hs⟩
    · obtain ⟨ordered, ho, hp, hs⟩ := orderSnapshot_datesIssued dataList hall
      refine ⟨ordered, ho, orderSnapshot_of_alreadyOrdered ordered ?_⟩
      have hall2 : ∀ d ∈ ordered, d.timestamp = none ∧ d.dateIssued.isSome = true :=
        fun d hd => hall d (hp.subset hd)
      cases ordered with
      | nil => trivial
      | cons first rest =>
        obtain ⟨hts, hdi⟩ := hall2 first (List.mem_cons_self _ _)
        unfold AlreadyOrdered
        simp only [hts, Option.isSome_none, Bool.false_eq_true, if_false, hdi, if_true]
        exact ⟨fun d hd => (hall2 d hd).2, hs⟩
    · exact ⟨dataList, orderSnapshot_plain dataList hall,
        orderSnapshot_plain dataList hall⟩

/-- C24 (amended), on the three sales: whatever list is held, the sales are published in
the order 9, 7, 5, and ordering that list again returns it. -/
theorem subscriber_deterministic_idempotent_witness :
    onSnapshot inventoryDocs saleDocs = onSnapshot [] saleDocs ∧
    ∃ ordered, orderSnapshot saleDocs = some ordered ∧ orderSnapshot ordered = some ordered := by
  have h := subscriber_deterministic_idempotent inventoryDocs [] saleDocs
  obtain ⟨ordered, ho, hoo⟩ := h.2.2.2 (Or.inl (by decide))
  obtain ⟨h1, h2⟩ := h.2.1 ordered ho
  exact ⟨by rw [h1, h2], ordered, ho, hoo⟩

/-- C29 (as stated, fails): the first record of the list has a timestamp and the
second has none; the comparison reads the timestamp of the second record and
throws, so no sorted list results and the list held before stays. -/
theorem ordering_throws_on_missing_key :
    (∃ first rest, mixedDocs = first :: rest ∧ first.timestamp.isSome = true) ∧
    orderSnapshot mixedDocs = none ∧
    onSnapshot inventoryDocs mixedDocs = inventoryDocs := by
  refine ⟨⟨_, _, rfl, rfl⟩, by decide, by decide⟩

/-- C29 (amended): which ordering the subscriber applies is decided from the first
record of the store's list only.  If it has a timestamp and every record has
one, the whole list is sorted by timestamp, newest first; if it has no
timestamp but a `dateIssued` and every record has one, the whole list is sorted
by `dateIssued`, newest first; if it has neither (and for the empty list) the
list is left in store order, whatever the later records carry.  When the first
record has the deciding field and another record lacks it, the comparison
throws and no list results. -/
theorem ordering_decided_by_first_record (first : StoreDoc) (rest : List StoreDoc) :
    orderSnapshot [] = some [] ∧
    (first.timestamp.isSome = true → (∀ d ∈ rest, d.timestamp.isSome = true) →
      ∃ ordered, orderSnapshot (first :: rest) = some ordered ∧
        ordered.Perm (first :: rest) ∧ ordered.Sorted (NewerFirst (fun d => d.timestamp))) ∧
    (first.timestamp = none → first.dateIssued.isSome = true →
      (∀ d ∈ rest, d.dateIssued.isSome = true) →
      ∃ ordered, orderSnapshot (first :: rest) = some ordered ∧
        ordered.Perm (first :: rest) ∧ ordered.Sorted (NewerFirst (fun d => d.dateIssued))) ∧
    (first.timestamp = none → first.dateIssued = none →
      orderSnapshot (first :: rest) = some (first :: rest)) ∧
    (first.timestamp.isSome = true → (∃ d ∈ rest, d.timestamp = none) →
      orderSnapshot (first :: rest) = none) ∧
    (first.timestamp = none → first.dateIssued.isSome = true →
      (∃ d ∈ rest, d.dateIssued = none) → orderSnapshot (first :: rest) = none) := by
  refine ⟨rfl, ?_, ?_, ?_, ?_, ?_⟩
  · intro hts hall
    unfold orderSnapshot
    simp only [hts, if_true]
    apply sortNewestFirst_spec
    intro d hd
    rw [List.mem_cons] at hd
    rcases hd with hd | hd
    · subst hd
      exact hts
    · exact hall d hd
  · intro hts hdi hall
    unfold orderSnapshot
    simp only [hts, Option.isSome_none, Bool.false_eq_true, if_false, hdi, if_true]
    apply sortNewestFirst_spec
    intro d hd
    rw [List.mem_cons] at hd
    rcases hd with hd | hd
    · subst hd
      exact hdi
    · exact hall d hd
  · intro hts hdi
    unfold orderSnapshot
    simp only [hts, hdi, Option.isSome_none, Bool.false_eq_true, if_false]
  · rintro hts ⟨d, hd, hnone⟩
    unfold orderSnapshot
    simp only [hts, if_true]
    apply sortNewestFirst_throws
    · intro hnil
      rw [hnil] at hd
      simp at hd
    · exact ⟨d, List.mem_cons_of_mem _ hd, hnone⟩
  · rintro hts hdi ⟨d, hd, hnone⟩
    unfold orderSnapshot
    simp only [hts, Option.isSome_none, Bool.false_eq_true, if_false, hdi, if_true]
    apply sortNewestFirst_throws
    · intro hnil
      rw [hnil] at hd
      simp at hd
    · exact ⟨d, List.mem_cons_of_mem _ hd, hnone⟩

/-- C29 (amended), on a list whose first record has neither field and whose later
records have timestamps 5 and 9: the list is left in store order. -/
theorem ordering_decided_by_first_record_witness :
    orderSnapshot plainFirstDocs = some plainFirstDocs :=
  (ordering_decided_by_first_record { id := "x", timestamp := none, dateIssued := none }
    [{ id := "s1", timestamp := some 5, dateIssued := none },
     { id := "s2", timestamp := some 9, dateIssued := none }]).2.2.2.1 rfl rfl

/-! ## The session -/

theorem step_keeps_ready (st : AppState) (e : AppEvent) (h : st.isAuthReady = true) :
    (App.step st e).isAuthReady = true := by
  cases e with
  | notified user => rfl
  | requestLogout => exact h
  | confirmLogout signOutError =>
    cases signOutError with
    | none => exact h
    | some message => exact h

theorem step_keeps_not_ready (st : AppState) (e : AppEvent) (he : e.isNotification = false)
    (h : st.isAuthReady = false) : (App.step st e).isAuthReady = false := by
  cases e with
  | notified user => exact Bool.noConfusion he
  | requestLogout => exact h
  | confirmLogout signOutError =>
    cases signOutError with
    | none => exact h
    | some message => exact h

/-- C25: no data access before ready.  In every state reached from the initial one
before the first identity notification, `isAuthReady` is false and the data
subscription effect opens no subscription; subscriptions are open only in
states where `isAuthReady` is true and an identity is present; and a
notification sets `isAuthReady` to true, which it then stays, and `userId` to
the uid notified or to absent. -/
theorem no_data_access_before_ready (st : AppState) (events : List AppEvent)
    (user : Option String) :
    ((∀ e ∈ events, e.isNotification = false) →
      (events.foldl App.step App.initial).isAuthReady = false ∧
      dataSubscriptions (events.foldl App.step App.initial) = []) ∧
    (dataSubscriptions st ≠ [] →
      st.isAuthReady = true ∧ ∃ u, st.userId = some u ∧ u ≠ "" ∧
        dataSubscriptions st = subscribedPaths u) ∧
    ((onAuthStateChanged st user).isAuthReady = true ∧
      (onAuthStateChanged st user).userId = user) ∧
    (st.isAuthReady = true → (events.foldl App.step st).isAuthReady = true) := by
  have hnot : ∀ (evs : List AppEvent) (s0 : AppState),
      (∀ e ∈ evs, e.isNotification = false) → s0.isAuthReady = false →
      (evs.foldl App.step s0).isAuthReady = false := by
    intro evs
    induction evs with
    | nil => intro s0 _ h; exact h
    | cons e rest ih =>
      intro s0 hall h
      exact ih _ (fun x hx => hall x (List.mem_cons_of_mem _ hx))
        (step_keeps_not_ready s0 e (hall e (List.mem_cons_self _ _)) h)
  have hready : ∀ (evs : List AppEvent) (s0 : AppState), s0.isAuthReady = true →
      (evs.foldl App.step s0).isAuthReady = true := by
    intro evs
    induction evs with
    | nil => intro s0 h; exact h
    | cons e rest ih =>
      intro s0 h
      exact ih _ (step_keeps_ready s0 e h)
  have hsub : ∀ s0 : AppState, s0.isAuthReady = false → dataSubscriptions s0 = [] := by
    intro s0 h
    unfold dataSubscriptions
    cases s0.userId with
    | none => rfl
    | some u => simp [h]
  refine ⟨?_, ?_, ⟨rfl, rfl⟩, hready events st⟩
  · intro hall
    have h := hnot events App.initial hall rfl
    exact ⟨h, hsub _ h⟩
  · intro hne
    unfold dataSubscriptions at hne ⊢
    cases hu : st.userId with
    | none =>
      rw [hu] at hne
      exact absurd rfl hne
    | some u =>
      rw [hu] at hne
      simp only at hne ⊢
      by_cases hc : (!st.isAuthReady || u == "") = true
      · rw [if_pos hc] at hne
        exact absurd rfl hne
      · rw [if_neg hc]
        simp only [Bool.or_eq_true, Bool.not_eq_true', beq_iff_eq, not_or,
          Bool.not_eq_false] at hc
        exact ⟨hc.1, u, rfl, hc.2, rfl⟩

/-- C25, on three sessions: no subscription while no notification has arrived, the
three collections of "u1" once it is notified, none once absence is notified. -/
theorem no_data_access_before_ready_witness :
    dataSubscriptions ([AppEvent.requestLogout].foldl App.step App.initial) = [] ∧
    dataSubscriptions (onAuthStateChanged App.initial (some "u1"))
      = ["artifacts/rxoptima-app/users/u1/inventory", "artifacts/rxoptima-app/users/u1/sales",
         "artifacts/rxoptima-app/users/u1/prescriptions"] ∧
    dataSubscriptions (onAuthStateChanged signedIn none) = [] :=
  ⟨((no_data_access_before_ready App.initial [AppEvent.requestLogout] none).1
      (by decide)).2,
   by decide, by decide⟩

/-- C26 (as stated, fails): signed in as "u1", `confirmLogout` with a `signOut` that
fails to complete leaves `userId` at "u1" (and raises no notice); and with a
`signOut` that completes `userId` is still "u1" when `confirmLogout` is done. -/
theorem confirmLogout_keeps_userId :
    (confirmLogout (some "network error") signedIn).userId = some "u1" ∧
    (confirmLogout (some "network error") signedIn).alert = none ∧
    (confirmLogout none signedIn).userId = some "u1" := by
  refine ⟨rfl, rfl, rfl⟩

/-- C26 (amended): `handleLogout` and `confirmLogout` leave `userId` as it was,
whether `signOut` completes or not; `userId` becomes absent when the identity
provider's notification of absence is processed.  When `signOut` fails the
whole state is what it was. -/
theorem logout_clears_on_notification (st : AppState) (signOutError : Option String) :
    (handleLogout signOutError st).userId = st.userId ∧
    (confirmLogout signOutError st).userId = st.userId ∧
    (onAuthStateChanged (confirmLogout signOutError st) none).userId = none ∧
    (signOutError ≠ none →
      handleLogout signOutError st = st ∧ confirmLogout signOutError st = st) := by
  cases signOutError with
  | none => exact ⟨rfl, rfl, rfl, fun h => absurd rfl h⟩
  | some message => exact ⟨rfl, rfl, rfl, fun _ => ⟨rfl, rfl⟩⟩

/-- C26 (amended), signed in as "u1" with a failing `signOut`: the state is
unchanged, and the notification of absence clears the identity. -/
theorem logout_clears_on_notification_witness :
    confirmLogout (some "network error") signedIn = signedIn ∧
    (onAuthStateChanged (confirmLogout none signedIn) none).userId = none :=
  ⟨((logout_clears_on_notification signedIn (some "network error")).2.2.2 (by decide)).2,
   (logout_clears_on_notification signedIn none).2.2.1⟩

/-! ## The lines of a cart -/

theorem map_id_of_map_quantity (cart : List CartLine) (p : CartLine → Bool)
    (q : CartLine → JSNum) :
    (cart.map (fun item => if p item then { item with quantity := q item } else item)).map
        (fun l => l.toInventoryItem)
      = cart.map (fun l => l.toInventoryItem) := by
  rw [List.map_map]
  apply List.map_congr_left
  intro l _
  simp only [Function.comp]
  split <;> rfl

/-- A step of `addToCart` leaves the inventory fields of every line as they were,
or appends a line holding the record passed in. -/
theorem addToCart_fields (cart : List CartLine) (drug : InventoryItem) :
    (addToCart cart drug).1.map (fun l => l.toInventoryItem)
        = cart.map (fun l => l.toInventoryItem) ∨
    (cart.find? (fun item => item.id == drug.id) = none ∧
      (addToCart cart drug).1 = cart ++ [{ toInventoryItem := drug, quantity := JSNum.fin 1 }]) := by
  unfold addToCart
  split
  · exact Or.inl rfl
  · split
    · split
      · exact Or.inl rfl
      · exact Or.inl (map_id_of_map_quantity cart _ _)
    · next hf => exact Or.inr ⟨hf, rfl⟩

/-- A step of `updateCartQuantity` leaves the inventory fields of every line as
they were, or removes lines. -/
theorem updateCartQuantity_fields (inventory : List InventoryItem) (cart : List CartLine)
    (drugId : String) (newQuantity : JSNum) (result : List CartLine × Option Alert)
    (h : updateCartQuantity inventory cart drugId newQuantity = some result) :
    result.1.map (fun l => l.toInventoryItem) = cart.map (fun l => l.toInventoryItem) ∨
    result.1 = cart.filter (fun item => item.id != drugId) := by
  unfold updateCartQuantity at h
  dsimp only at h
  split at h
  · injection h with h
    subst h
    exact Or.inr rfl
  · split at h
    · exact Option.noConfusion h
    · split at h
      · injection h with h
        subst h
        exact Or.inl (map_id_of_map_quantity cart _ _)
      · injection h with h
        subst h
        exact Or.inl (map_id_of_map_quantity cart _ _)

theorem ids_of_fields (a b : List CartLine)
    (h : a.map (fun l => l.toInventoryItem) = b.map (fun l => l.toInventoryItem)) :
    a.map (fun l => l.id) = b.map (fun l => l.id) := by
  have ha : a.map (fun l => l.id)
      = (a.map (fun l => l.toInventoryItem)).map (fun d => d.id) := by
    rw [List.map_map]
    rfl
  have hb : b.map (fun l => l.id)
      = (b.map (fun l => l.toInventoryItem)).map (fun d => d.id) := by
    rw [List.map_map]
    rfl
  rw [ha, hb, h]

theorem stockUpdateIds_saleBatch (appId u : String) (ext : Store) (cart : List CartLine) :
    stockUpdateIds (saleBatch appId u ext cart) = cart.map (fun l => l.id) := by
  unfold saleBatch
  simp only [stockUpdateIds]
  induction cart with
  | nil => rfl
  | cons l rest ih => simp only [List.map_cons, stockUpdateIds, ih]

/-- C27: cart ids are unique.  Every cart reachable from the empty cart by
`addToCart` and `updateCartQuantity` steps holds at most one line per inventory
id, so the batch of a sale never carries two stock updates for the same
inventory record. -/
theorem reachable_cart_ids_unique (cart : List CartLine) (h : ReachableCart cart)
    (appId u : String) (ext : Store) :
    (cart.map (fun l => l.id)).Nodup ∧
    (stockUpdateIds (saleBatch appId u ext cart)).Nodup := by
  have hnodup : (cart.map (fun l => l.id)).Nodup := by
    induction h with
    | empty => exact List.nodup_nil
    | @add cart inventory drug _ _ _ ih =>
      rcases addToCart_fields cart drug with hf | ⟨hfind, hf⟩
      · rw [ids_of_fields _ _ hf]
        exact ih
      · rw [hf, List.map_append, List.map_singleton]
        apply List.Nodup.append ih (List.nodup_singleton _)
        intro id hid hid2
        rw [List.mem_singleton] at hid2
        subst hid2
        rw [List.mem_map] at hid
        obtain ⟨l, hl, hlid⟩ := hid
        have := List.find?_eq_none.mp hfind l hl
        simp [hlid] at this
    | @update cart inventory drugId newQuantity result _ _ _ hres ih =>
      rcases updateCartQuantity_fields inventory cart drugId newQuantity result hres with hf | hf
      · rw [ids_of_fields _ _ hf]
        exact ih
      · rw [hf]
        exact ih.sublist ((List.filter_sublist cart).map _)
  refine ⟨hnodup, ?_⟩
  rw [stockUpdateIds_saleBatch]
  exact hnodup

/-- C27, on the cart after adding drug B twice against a snapshot with stock 5: one
line for B. -/
theorem reachable_cart_ids_unique_witness :
    ((addToCart (addToCart [] drugBRestocked).1 drugBRestocked).1.map (fun l => l.id)).Nodup ∧
    (addToCart (addToCart [] drugBRestocked).1 drugBRestocked).1.map (fun l => l.id) = ["B"] := by
  have hR : NatStock [drugBRestocked] :=
    natStock_singleton drugBRestocked 5 (by norm_num [drugBRestocked])
  have h1 : ReachableCart (addToCart [] drugBRestocked).1 :=
    ReachableCart.add [drugBRestocked] drugBRestocked ReachableCart.empty hR
      (List.mem_singleton.mpr rfl)
  have h2 : ReachableCart (addToCart (addToCart [] drugBRestocked).1 drugBRestocked).1 :=
    ReachableCart.add [drugBRestocked] drugBRestocked h1 hR (List.mem_singleton.mpr rfl)
  exact ⟨(reachable_cart_ids_unique _ h2 "rxoptima-app" "u1" acceptingStore).1, by decide!⟩

/-- C28: no `addToCart` or `updateCartQuantity` step changes a field of an existing
cart line other than `quantity`.  After `addToCart` the lines hold, in place,
the inventory fields they held, or the cart is the old cart followed by a line
holding the record passed in; after `updateCartQuantity`, against whatever
snapshot, the lines hold, in place, the inventory fields they held, or the cart
is the old cart without the lines removed.  `processSale` writes the stock held
in the line minus its quantity and records the name and unit price held in the
line. -/
theorem cart_steps_keep_line_fields (inventory : List InventoryItem) (cart : List CartLine)
    (drug : InventoryItem) (drugId : String) (newQuantity : JSNum) (appId u : String)
    (ext : Store) :
    ((addToCart cart drug).1.map (fun l => l.toInventoryItem)
        = cart.map (fun l => l.toInventoryItem) ∨
      (addToCart cart drug).1
        = cart ++ [{ toInventoryItem := drug, quantity := JSNum.fin 1 }]) ∧
    (∀ result, updateCartQuantity inventory cart drugId newQuantity = some result →
      result.1.map (fun l => l.toInventoryItem) = cart.map (fun l => l.toInventoryItem) ∨
      result.1 = cart.filter (fun item => item.id != drugId)) ∧
    (∀ l ∈ cart,
      Write.updateStock
        { collectionPath := "artifacts/" ++ appId ++ "/users/" ++ u ++ "/inventory", id := l.id }
        ((JSNum.fin l.quantityInStock).sub l.quantity) ∈ saleBatch appId u ext cart ∧
      ∃ it ∈ (saleData ext.now cart).items,
        it.drugId = l.id ∧ it.name = l.name ∧ it.unitPrice = l.unitPrice ∧
        it.quantity = l.quantity) := by
  refine ⟨?_, ?_, ?_⟩
  · rcases addToCart_fields cart drug with h | ⟨-, h⟩
    · exact Or.inl h
    · exact Or.inr h
  · intro result h
    exact updateCartQuantity_fields inventory cart drugId newQuantity result h
  · intro l hl
    constructor
    · unfold saleBatch
      apply List.mem_cons_of_mem
      rw [List.mem_map]
      exact ⟨l, hl, rfl⟩
    · refine ⟨{ drugId := l.id, name := l.name, quantity := l.quantity,
                unitPrice := l.unitPrice,
                totalPrice := l.quantity.mul (JSNum.fin l.unitPrice) }, ?_, rfl, rfl, rfl, rfl⟩
      simp only [saleData]
      rw [List.mem_map]
      exact ⟨l, hl, rfl⟩

/-- C28, on the line of drug B added at stock 1: setting its quantity to 5 against
a snapshot that shows stock 5 leaves the line holding stock 1. -/
theorem cart_steps_keep_line_fields_witness :
    updateCartQuantity [drugBRestocked] [{ toInventoryItem := drugB, quantity := JSNum.fin 1 }]
        "B" (JSNum.fin 5)
      = some ([{ toInventoryItem := drugB, quantity := JSNum.fin 5 }], none) ∧
    ([{ toInventoryItem := drugB, quantity := JSNum.fin 5 }] : List CartLine).map
        (fun l => l.toInventoryItem)
      = ([{ toInventoryItem := drugB, quantity := JSNum.fin 1 }] : List CartLine).map
        (fun l => l.toInventoryItem) := by
  have hres : updateCartQuantity [drugBRestocked]
      [{ toInventoryItem := drugB, quantity := JSNum.fin 1 }] "B" (JSNum.fin 5)
      = some ([{ toInventoryItem := drugB, quantity := JSNum.fin 5 }], none) := by decide!
  refine ⟨hres, ?_⟩
  rcases (cart_steps_keep_line_fields [drugBRestocked]
    [{ toInventoryItem := drugB, quantity := JSNum.fin 1 }] drugB "B" (JSNum.fin 5)
    "rxoptima-app" "u1" acceptingStore).2.1 _ hres with h | h
  · exact h
  · rfl

/-- C30: `updateCartQuantity id n` completes for every `n` whenever `id` is
present in the snapshot; for `n ≤ 0` it completes, removing the line, even when
`id` is absent from the snapshot; for `n > 0` and an `id` absent from the
snapshot the stock lookup finds nothing, the call fails and the cart is left
unchanged. -/
theorem updateCartQuantity_completes (inventory : List InventoryItem) (cart : List CartLine)
    (id : String) (n : JSNum) :
    (∀ d, lookup inventory id = some d →
      ∃ result, updateCartQuantity inventory cart id n = some result) ∧
    (lookup inventory id = none → JSNum.le n (JSNum.fin 0) = true →
      updateCartQuantity inventory cart id n
        = some (cart.filter (fun item => item.id != id), none) ∧
      ∀ l ∈ cartAfterUpdate inventory cart id n, l.id ≠ id) ∧
    (lookup inventory id = none → JSNum.gt n (JSNum.fin 0) = true →
      updateCartQuantity inventory cart id n = none ∧
      cartAfterUpdate inventory cart id n = cart) := by
  refine ⟨?_, ?_, ?_⟩
  · intro d hd
    have hd2 : inventory.find? (fun x => x.id == id) = some d := hd
    unfold updateCartQuantity
    simp only [hd2]
    split
    · exact ⟨_, rfl⟩
    · split
      · exact ⟨_, rfl⟩
      · exact ⟨_, rfl⟩
  · intro hd hle
    have hres : updateCartQuantity inventory cart id n
        = some (cart.filter (fun item => item.id != id), none) := by
      unfold updateCartQuantity
      simp only [hle, if_true]
    refine ⟨hres, ?_⟩
    intro l hl
    unfold cartAfterUpdate at hl
    simp only [hres] at hl
    rw [List.mem_filter] at hl
    simpa using hl.2
  · intro hd hgt
    have hd2 : inventory.find? (fun x => x.id == id) = none := hd
    have hle : ¬ JSNum.le n (JSNum.fin 0) = true := by
      cases n with
      | nan => simp [JSNum.le]
      | fin q =>
        simp only [JSNum.gt, decide_eq_true_eq] at hgt
        simp only [JSNum.le, decide_eq_true_eq, not_le]
        exact hgt
    have hres : updateCartQuantity inventory cart id n = none := by
      unfold updateCartQuantity
      simp only [hd2]
      rw [if_neg hle]
    refine ⟨hres, ?_⟩
    unfold cartAfterUpdate
    simp only [hres]

/-- C30, on the sample cart once drug A has been deleted from the snapshot: asking
for 2 of it fails and leaves the cart, asking for 0 removes its line. -/
theorem updateCartQuantity_completes_witness :
    updateCartQuantity [drugB] sampleCart "A" (JSNum.fin 2) = none ∧
    cartAfterUpdate [drugB] sampleCart "A" (JSNum.fin 2) = sampleCart ∧
    updateCartQuantity [drugB] sampleCart "A" (JSNum.fin 0)
      = some ([{ toInventoryItem := drugB, quantity := JSNum.fin 1 }], none) := by
  have h := updateCartQuantity_completes [drugB] sampleCart "A" (JSNum.fin 2)
  obtain ⟨h1, h2⟩ := h.2.2 (by decide!) (by decide!)
  exact ⟨h1, h2, by decide!⟩

/-! ## The cart quantity clamp -/

/-- A step of `addToCart`, in whatever arithmetic, leaves the inventory fields of
every line as they were, or appends a line holding the record passed in. -/
theorem addToCartWith_fields (ops : NumberOps) (cart : List CartLine) (drug : InventoryItem) :
    (addToCartWith ops cart drug).1.map (fun l => l.toInventoryItem)
        = cart.map (fun l => l.toInventoryItem) ∨
    (cart.find? (fun item => item.id == drug.id) = none ∧
      (addToCartWith ops cart drug).1
        = cart ++ [{ toInventoryItem := drug, quantity := JSNum.fin 1 }]) := by
  unfold addToCartWith
  split
  · exact Or.inl rfl
  · split
    · split
      · exact Or.inl rfl
      · exact Or.inl (map_id_of_map_quantity cart _ _)
    · next hf => exact Or.inr ⟨hf, rfl⟩

/-- A cart the component can hold has at most one line per inventory id, in
whatever arithmetic. -/
theorem reachable_ids_nodup (ops : NumberOps) (cart : List CartLine)
    (h : ReachableCartWith ops cart) : (cart.map (fun l => l.id)).Nodup := by
  induction h with
  | empty => exact List.nodup_nil
  | @add cart inventory drug _ _ _ ih =>
    rcases addToCartWith_fields ops cart drug with hf | ⟨hfind, hf⟩
    · rw [ids_of_fields _ _ hf]
      exact ih
    · rw [hf, List.map_append, List.map_singleton]
      apply List.Nodup.append ih (List.nodup_singleton _)
      intro id hid hid2
      rw [List.mem_singleton] at hid2
      subst hid2
      rw [List.mem_map] at hid
      obtain ⟨l, hl, hlid⟩ := hid
      have := List.find?_eq_none.mp hfind l hl
      simp [hlid] at this
  | @update cart inventory drugId newQuantity result _ _ _ hres ih =>
    rcases updateCartQuantity_fields inventory cart drugId newQuantity result hres with hf | hf
    · rw [ids_of_fields _ _ hf]
      exact ih
    · rw [hf]
      exact ih.sublist ((List.filter_sublist cart).map _)

/-- The carts of `ReachableCart` are those of `ReachableCartWith exactOps`. -/
theorem reachableCart_iff_exactOps (cart : List CartLine) :
    ReachableCart cart ↔ ReachableCartWith exactOps cart := by
  constructor
  · intro h
    induction h with
    | empty => exact ReachableCartWith.empty
    | @add cart inventory drug _ hn hm ih => exact ReachableCartWith.add inventory drug ih hn hm
    | @update cart inventory drugId newQuantity result _ hn hp hres ih =>
      exact ReachableCartWith.update inventory drugId newQuantity result ih hn hp hres
  · intro h
    induction h with
    | empty => exact ReachableCart.empty
    | @add cart inventory drug _ hn hm ih => exact ReachableCart.add inventory drug ih hn hm
    | @update cart inventory drugId newQuantity result _ hn hp hres ih =>
      exact ReachableCart.update inventory drugId newQuantity result ih hn hp hres

/-- A list of lines with pairwise distinct ids holds at most one line for an id. -/
theorem filter_length_le_one_of_nodup (cart : List CartLine) (id : String)
    (h : (cart.map (fun l => l.id)).Nodup) :
    (cart.filter (fun l => l.id == id)).length ≤ 1 := by
  induction cart with
  | nil => simp
  | cons x xs ih =>
    rw [List.map_cons, List.nodup_cons] at h
    by_cases hx : x.id = id
    · have hnone : xs.filter (fun l => l.id == id) = [] := by
        rw [List.filter_eq_nil_iff]
        intro l hl hlid
        apply h.1
        rw [List.mem_map]
        exact ⟨l, hl, by rw [hx]; simpa using hlid⟩
      simp [List.filter_cons, hx, hnone]
    · have hb : (x.id == id) = false := by simpa using hx
      simp only [List.filter_cons, hb, Bool.false_eq_true, if_false]
      exact ih h.2

/-- On a cart holding at most one line for `d`, a record with a positive integer
stock or none, `addToCart d` yields no line for `d` whose quantity is both
greater than it was and greater than the stock, whatever the sum `quantity + 1`
comes to: the sum tested is the sum stored. -/
theorem addToCartWith_not_raised (ops : NumberOps) (cart : List CartLine) (d : InventoryItem)
    (hint : ∃ z : ℤ, d.quantityInStock = z)
    (hone : (cart.filter (fun l => l.id == d.id)).length ≤ 1) :
    ¬ RaisedAboveStock cart (addToCartWith ops cart d).1 d := by
  unfold addToCartWith
  by_cases hs : d.quantityInStock ≤ 0
  · simp only [hs, if_true]
    exact not_raised_of_unchanged cart d
  · simp only [hs, if_false]
    cases hf : cart.find? (fun item => item.id == d.id) with
    | none =>
      simp only
      rintro ⟨l, hl, hid, hgt, -⟩
      rw [List.mem_append, List.mem_singleton] at hl
      rcases hl with hl | hl
      · have := List.find?_eq_none.mp hf l hl
        simp [hid] at this
      · subst hl
        obtain ⟨z, hz⟩ := hint
        simp only [JSNum.gt, decide_eq_true_eq] at hgt
        rw [hz] at hs hgt
        have h1 : (0 : ℤ) < z := by
          by_contra hc
          exact hs (by exact_mod_cast not_lt.mp hc)
        have h2 : z < 1 := by exact_mod_cast hgt
        omega
    | some e =>
      simp only
      by_cases hg : JSNum.gt (ops.add e.quantity (JSNum.fin 1)) (JSNum.fin d.quantityInStock) = true
      · simp only [hg, if_true]
        exact not_raised_of_unchanged cart d
      · rw [if_neg hg]
        rintro ⟨l, hl, hid, hgt, -⟩
        rw [List.mem_map] at hl
        obtain ⟨l1, hl1, hl1eq⟩ := hl
        by_cases h1 : l1.id = d.id
        · have he : l1 = e := eq_of_find_of_filter_le_one cart d.id e l1 hone hf hl1 h1
          subst he
          simp only [h1, beq_self_eq_true, if_true] at hl1eq
          subst hl1eq
          exact hg hgt
        · have hb : (l1.id == d.id) = false := by simpa using h1
          simp only [hb] at hl1eq
          subst hl1eq
          exact h1 hid

/-- C10: cart quantity clamp.  For every cart the component can hold (reachable
from the empty cart by `addToCart` and `updateCartQuantity` steps), every record
`d` of the current snapshot with an integer stock and every requested quantity
`n`, neither `addToCart d` nor `updateCartQuantity d.id n` yields a line for `d`
whose quantity is both greater than it was before the step and greater than
`d.quantityInStock`; and `updateCartQuantity d.id 0` yields a cart with no line
for `d`.  This holds in whatever arithmetic the engine adds 1 with. -/
theorem cart_quantity_clamp (ops : NumberOps) (inventory : List InventoryItem)
    (cart : List CartLine) (d : InventoryItem) (n : JSNum)
    (hcart : ReachableCartWith ops cart)
    (hd : lookup inventory d.id = some d)
    (hint : ∃ z : ℤ, d.quantityInStock = z) :
    ¬ RaisedAboveStock cart (addToCartWith ops cart d).1 d ∧
    (∃ r, updateCartQuantity inventory cart d.id n = some r ∧ ¬ RaisedAboveStock cart r.1 d) ∧
    (∃ r, updateCartQuantity inventory cart d.id (JSNum.fin 0) = some r ∧
      ∀ l ∈ r.1, l.id ≠ d.id) := by
  have hone := filter_length_le_one_of_nodup cart d.id (reachable_ids_nodup ops cart hcart)
  exact ⟨addToCartWith_not_raised ops cart d hint hone,
    (cart_quantity_clamp_of_unique inventory cart d n hd hint hone).2⟩

/-- C10, in binary64 arithmetic, on the stale cart (drug B, quantity 5) against
the restocked snapshot (stock 5) and a request for 20. -/
theorem cart_quantity_clamp_witness :
    ReachableCartWith ieeeOps staleCart ∧
    ¬ RaisedAboveStock staleCart (addToCartWith ieeeOps staleCart drugBRestocked).1
        drugBRestocked ∧
    (∃ r, updateCartQuantity [drugA, drugBRestocked] staleCart drugBRestocked.id (JSNum.fin 20)
        = some r ∧ ¬ RaisedAboveStock staleCart r.1 drugBRestocked) ∧
    (∃ r, updateCartQuantity [drugA, drugBRestocked] staleCart drugBRestocked.id (JSNum.fin 0)
        = some r ∧ ∀ l ∈ r.1, l.id ≠ drugBRestocked.id) :=
  ⟨staleCart_reachable ieeeOps,
   cart_quantity_clamp ieeeOps [drugA, drugBRestocked] staleCart drugBRestocked (JSNum.fin 20)
     (staleCart_reachable ieeeOps) (by decide!) ⟨5, by norm_num [drugBRestocked]⟩⟩

end RxOptima
